import Mathlib

/-!
# gosdk: the submit-and-confirm protocol of `rpc/rpc.go`

A shallow embedding of the request path of the RPC client
(`jsonRPC`, `callWithReq`, `call`, `GetTxReceipt`, `GetTxReceiptByPolling`,
`CallByPolling`) as state-passing functions over a trace of observable
events, followed by theorems about the two-tier poll and the resend loop.
The configuration methods (`BindNodes`, `Https`, `AddNode`, `SetAccount` and
the setters) are embedded over a heap of clients, nodes and inspector
managers, and `KeyPair.Sign` of package `bvm` over its own small trace.

Conventions.

* A Go function that talks to the outside world becomes a function
  `Trace → Res α × Trace`.  The trace lists the observable events of the run,
  newest first.  `Res.panic` is a Go run-time panic (the call never returns).
* A Go multi-value return `(v, err)` is a pair whose components are `Option`s
  (`none` is Go's `nil`); `json.RawMessage` is a string, `nil` being `""`.
* The external collaborators (the cluster behind `hrm.SyncRequest`, the wall
  clock, the signing primitive, `encoding/json`, `chPrefix`, the numeric error
  constants) are the fields of `Env`.  The client is deterministic, so a
  behaviour of the cluster during one call is exactly the sequence of its
  answers: `Env.cluster n` is the answer to the `n`-th request (from 0).
-/

namespace GoSDK

/-! ## Data model -/

/-- One element of `params ...interface{}`. -/
inductive Param where
  /-- a Go string -/
  | str (s : String)
  /-- any other value that `json.Marshal` accepts, by its JSON text -/
  | value (json : String)
  /-- a value `json.Marshal` rejects (a channel, a function, ...), with the error text -/
  | unsupported (cause : String)
deriving DecidableEq, Repr

/-- The type `common.Address`; only its `Hex()` form is used by the client. -/
structure Address where
  Hex : String
deriving DecidableEq, Repr

/-- The struct `Authentication` stamped on a request. -/
structure Authentication where
  Address : Address
  Timestamp : Int
  Signature : String
deriving DecidableEq, Repr

/-- The struct `JSONRequest`, the outgoing envelope. -/
structure JSONRequest where
  Method : String
  Version : String
  ID : Int
  Namespace : String
  Params : List Param
  Auth : Option Authentication
deriving DecidableEq, Repr

/-- The struct `JSONResponse`, the decoded response envelope. -/
structure JSONResponse where
  Code : Int
  Message : String
  Result : String
deriving DecidableEq, Repr

/-- The struct `TxReceipt`: the field `PrivTxHash` written by `GetTxReceipt`,
and the remaining decoded fields as one value. -/
structure TxReceipt where
  fields : String
  PrivTxHash : String
deriving DecidableEq, Repr

/-- Modelled from the spec: the interface `StdError` and its constructors are
declared outside `rpc.go`.  The error taxonomy of the specification gives
`SystemError` (wrapping a cause), `ServerError{code, message}` and
`RequestTimeout`; `GetResponseError` is the fourth constructor `rpc.go` calls,
and `other` stands for any further implementation the transport may return. -/
inductive StdError where
  | SystemError (cause : String)
  | ServerError (code : Int) (message : String)
  | RequestTimeoutError (cause : String)
  | GetResponseError (cause : String)
  | other (code : Int) (message : String)
deriving DecidableEq, Repr

/-- The interface `account.Key`: the address it reports and its key material. -/
structure Key where
  GetAddress : Address
  material : String
deriving DecidableEq, Repr

/-- The struct `inspectorManager`; `key` is an interface value, `none` when nil. -/
structure inspectorManager where
  enable : Bool
  key : Option Key
deriving DecidableEq, Repr

/-- The struct `RPC` (the transport manager `hrm` is represented by `Env.cluster`);
`im` is a pointer, `none` when nil; `namespace_` is the field `namespace`. -/
structure RPC where
  namespace_ : String
  resTime : Int
  firstPollInterval : Int
  firstPollTime : Int
  secondPollInterval : Int
  secondPollTime : Int
  reConnTime : Int
  txVersion : String
  im : Option inspectorManager
deriving DecidableEq, Repr

/-! ## The outside world -/

/-- What `hrm.SyncRequest` returns: an error, or the bytes of the response body. -/
inductive SyncResult where
  | failure (err : StdError)
  | data (body : String)
deriving DecidableEq, Repr

/-- What `json.Unmarshal(data, &v)` does: it fails, or the input is the JSON
literal `null` (no error, `v` is left as it was), or it stores a value. -/
inductive Decoded (α : Type) where
  | error (cause : String)
  | null
  | value (a : α)
deriving DecidableEq, Repr

/-- The numeric constants of the error table, which is declared outside `rpc.go`. -/
structure Codes where
  SystemErrorCode : Int
  RequestTimeoutErrorCode : Int
  GetResponseErrorCode : Int
  DataNotExistCode : Int
  SystemBusyCode : Int
  BalanceInsufficientCode : Int

/-- The external collaborators of the client. -/
structure Env where
  /-- the answer of the cluster to the `n`-th request handed to `SyncRequest` -/
  cluster : Nat → SyncResult
  /-- the `n`-th reading of `time.Now().UnixNano()` -/
  clock : Nat → Int
  /-- the `n`-th call of `sign(key, msg, false, false)`: signature and error -/
  signer : Nat → Key → String → String × Option String
  /-- `json.Unmarshal` into a `*JSONResponse` -/
  unmarshalResponse : String → Decoded JSONResponse
  /-- `json.Unmarshal` into a `string` -/
  unmarshalString : String → Decoded String
  /-- `json.Unmarshal` into a `TxReceipt` -/
  unmarshalReceipt : String → Decoded TxReceipt
  chPrefix : String → String
  JSONRPCVersion : String
  codes : Codes

/-- An observable step of a run. -/
inductive Event where
  /-- `hrm.SyncRequest` was handed the serialisation of `req` -/
  | dispatch (req : JSONRequest)
  /-- `time.Sleep(d)`, `d` in nanoseconds -/
  | sleep (d : Int)
  /-- `time.Now()` was read -/
  | now
  /-- `sign` was called on `msg` -/
  | sign (msg : String)
  /-- `logger.Errorf(msg)` -/
  | logError (msg : String)
deriving DecidableEq, Repr

/-- The events of a run, newest first. -/
abbrev Trace := List Event

/-- The result of a Go call: it returns, or it panics. -/
inductive Res (α : Type) where
  | ok (a : α)
  | panic (msg : String)
deriving DecidableEq, Repr

/-- The requests dispatched so far, newest first. -/
def dispatches : Trace → List JSONRequest
  | [] => []
  | Event.dispatch req :: t => req :: dispatches t
  | _ :: t => dispatches t

/-- The durations slept so far, newest first. -/
def sleeps : Trace → List Int
  | [] => []
  | Event.sleep d :: t => d :: sleeps t
  | _ :: t => sleeps t

/-- Number of clock readings so far. -/
def clockReads : Trace → Nat
  | [] => 0
  | Event.now :: t => clockReads t + 1
  | _ :: t => clockReads t

/-- Number of calls of `sign` so far. -/
def signCalls : Trace → Nat
  | [] => 0
  | Event.sign _ :: t => signCalls t + 1
  | _ :: t => signCalls t

/-- Number of requests dispatched so far. -/
def dispatchCount (t : Trace) : Nat := (dispatches t).length

/-- The dispatches and sleeps of a run in order, newest first: `none` is a
dispatch, `some d` a sleep of `d` nanoseconds. -/
def timeline : Trace → List (Option Int)
  | [] => []
  | Event.dispatch _ :: t => none :: timeline t
  | Event.sleep d :: t => some d :: timeline t
  | _ :: t => timeline t

/-! ## Constants and small helpers -/

/-- The constant `TRANSACTION`. -/
def TRANSACTION : String := "tx_"

/-- Modelled from the spec: the constant `SuccessCode`, declared outside
`rpc.go`; the specification fixes the success sentinel of the response envelope
as `code == 0`. -/
def SuccessCode : Int := 0

/-- The text of a nil-pointer panic. -/
def nilDeref : String := "invalid memory address or nil pointer dereference"

/-- Two's-complement wrap of an integer into `int64`. -/
def wrapInt64 (z : Int) : Int := (z + 2 ^ 63) % 2 ^ 64 - 2 ^ 63

/-- The Go expression `time.Millisecond * time.Duration(x)`, in nanoseconds. -/
def millis (x : Int) : Int := wrapInt64 (1000000 * x)

/-- Modelled from the spec: the constructor `NewSystemError`, declared outside
`rpc.go`, wraps the underlying cause. -/
def NewSystemError (cause : String) : StdError := StdError.SystemError cause

/-- Modelled from the spec: the constructor `NewServerError`, declared outside
`rpc.go`, builds `ServerError{code, message}`. -/
def NewServerError (code : Int) (message : String) : StdError := StdError.ServerError code message

/-- Modelled from the spec: the constructor `NewRequestTimeoutError`, declared
outside `rpc.go`. -/
def NewRequestTimeoutError (cause : String) : StdError := StdError.RequestTimeoutError cause

/-- Modelled from the spec: the constructor `NewGetResponseError`, declared
outside `rpc.go`. -/
def NewGetResponseError (cause : String) : StdError := StdError.GetResponseError cause

/-- Modelled from the spec: the method `StdError.Code()`, declared outside
`rpc.go`.  A server error reports the code of the response it was built from;
the errors built locally report the constant of their kind. -/
def StdError.Code (c : Codes) : StdError → Int
  | StdError.SystemError _ => c.SystemErrorCode
  | StdError.ServerError code _ => code
  | StdError.RequestTimeoutError _ => c.RequestTimeoutErrorCode
  | StdError.GetResponseError _ => c.GetResponseErrorCode
  | StdError.other code _ => code

/-- The error of `json.Marshal(req)`, if any: every field of the envelope except
the parameters is a string or an integer, so only a parameter can be rejected. -/
def marshalError (req : JSONRequest) : Option String :=
  req.Params.findSome? fun p =>
    match p with
    | Param.unsupported cause => some cause
    | _ => none

/-- The digits of `strconv.FormatInt(i, 16)`. -/
def formatInt16 (i : Int) : String :=
  if i < 0 then "-" ++ String.mk (Nat.toDigits 16 i.natAbs) else String.mk (Nat.toDigits 16 i.natAbs)

/-! ## The request path -/

/-- The function `authNeedHash`. -/
def authNeedHash (auth : Authentication) : String :=
  "address=" ++ auth.Address.Hex ++ "&timestamp=0x" ++ formatInt16 auth.Timestamp

/-- The method `RPC.jsonRPC`: builds the envelope and, when the inspector is
enabled, stamps it. -/
def jsonRPC (env : Env) (rpc : RPC) (method : String) (params : List Param) (t : Trace) :
    Res JSONRequest × Trace :=
  let req : JSONRequest :=
    { Method := method, Version := env.JSONRPCVersion, ID := 1,
      Namespace := rpc.namespace_, Params := params, Auth := none }
  match rpc.im with
  | none => (Res.panic nilDeref, t)
  | some im =>
    if im.enable then
      match im.key with
      | none => (Res.panic nilDeref, t)
      | some key =>
        let auth : Authentication :=
          { Address := key.GetAddress, Timestamp := env.clock (clockReads t), Signature := "" }
        let t1 := Event.now :: t
        let signed := env.signer (signCalls t1) key (authNeedHash auth)
        let t2 := Event.sign (authNeedHash auth) :: t1
        let t3 :=
          match signed.2 with
          | some _ => Event.logError "sign auth fail" :: t2
          | none => t2
        (Res.ok { req with Auth := some { auth with Signature := signed.1 } }, t3)
    else (Res.ok req, t)

/-- Modelled from the spec: the method `hrm.SyncRequest`, declared outside
`rpc.go`, is the synchronous request/response primitive: one round trip that
yields the response body or an error. -/
def SyncRequest (env : Env) (req : JSONRequest) (t : Trace) : SyncResult × Trace :=
  (env.cluster (dispatchCount t), Event.dispatch req :: t)

/-- The method `RPC.callWithReq`. -/
def callWithReq (env : Env) (req : JSONRequest) (t : Trace) :
    Res (String × Option StdError) × Trace :=
  match marshalError req with
  | some sysErr => (Res.ok ("", some (NewSystemError sysErr)), t)
  | none =>
    match SyncRequest env req t with
    | (SyncResult.failure err, t1) => (Res.ok ("", some err), t1)
    | (SyncResult.data data, t1) =>
      match env.unmarshalResponse data with
      | Decoded.error sysErr => (Res.ok ("", some (NewSystemError sysErr)), t1)
      | Decoded.null => (Res.panic nilDeref, t1)
      | Decoded.value resp =>
        if resp.Code ≠ SuccessCode then
          (Res.ok ("", some (NewServerError resp.Code resp.Message)), t1)
        else (Res.ok (resp.Result, none), t1)

/-- The method `RPC.call`. -/
def call (env : Env) (rpc : RPC) (method : String) (params : List Param) (t : Trace) :
    Res (String × Option StdError) × Trace :=
  match jsonRPC env rpc method params t with
  | (Res.panic msg, t1) => (Res.panic msg, t1)
  | (Res.ok req, t1) => callWithReq env req t1

/-- The method name used by `GetTxReceipt`. -/
def receiptMethod (isPrivateTx : Bool) : String :=
  if isPrivateTx then TRANSACTION ++ "getPrivateTransactionReceipt"
  else TRANSACTION ++ "getTransactionReceipt"

/-- The method `RPC.GetTxReceipt`. -/
def GetTxReceipt (env : Env) (rpc : RPC) (txHash : String) (isPrivateTx : Bool) (t : Trace) :
    Res (Option TxReceipt × Option StdError) × Trace :=
  let txHash := env.chPrefix txHash
  let method := receiptMethod isPrivateTx
  let param := Param.str txHash
  match call env rpc method [param] t with
  | (Res.panic msg, t1) => (Res.panic msg, t1)
  | (Res.ok (_, some err), t1) => (Res.ok (none, some err), t1)
  | (Res.ok (data, none), t1) =>
    match env.unmarshalReceipt data with
    | Decoded.error sysErr => (Res.ok (none, some (NewSystemError sysErr)), t1)
    | Decoded.null => (Res.ok (some { fields := "", PrivTxHash := txHash }, none), t1)
    | Decoded.value txr => (Res.ok (some { txr with PrivTxHash := txHash }, none), t1)

/-- One `for j := int64(0); j < count; j++` loop of `GetTxReceiptByPolling`, with
`n` iterations left; the two loops of the source differ only in the interval.
`some r` is an early `return r`, `none` is the loop running out. -/
def pollLoop (env : Env) (rpc : RPC) (txHash : String) (isPrivateTx : Bool) (interval : Int) :
    Nat → Trace → Res (Option (Option TxReceipt × Option StdError × Bool)) × Trace
  | 0, t => (Res.ok none, t)
  | n + 1, t =>
    match GetTxReceipt env rpc txHash isPrivateTx t with
    | (Res.panic msg, t1) => (Res.panic msg, t1)
    | (Res.ok (_, some err), t1) =>
      if err.Code env.codes = env.codes.BalanceInsufficientCode then
        (Res.ok (some (none, some err, true)), t1)
      else if err.Code env.codes ≠ env.codes.DataNotExistCode
          ∧ err.Code env.codes ≠ env.codes.SystemBusyCode then
        (Res.ok (some (none, some err, true)), t1)
      else pollLoop env rpc txHash isPrivateTx interval n (Event.sleep (millis interval) :: t1)
    | (Res.ok (receipt, none), t1) => (Res.ok (some (receipt, none, true)), t1)

/-- The method `RPC.GetTxReceiptByPolling`. -/
def GetTxReceiptByPolling (env : Env) (rpc : RPC) (txHash : String) (isPrivateTx : Bool)
    (t : Trace) : Res (Option TxReceipt × Option StdError × Bool) × Trace :=
  let txHash := env.chPrefix txHash
  match pollLoop env rpc txHash isPrivateTx rpc.firstPollInterval rpc.firstPollTime.toNat t with
  | (Res.panic msg, t1) => (Res.panic msg, t1)
  | (Res.ok (some r), t1) => (Res.ok r, t1)
  | (Res.ok none, t1) =>
    match pollLoop env rpc txHash isPrivateTx rpc.secondPollInterval
        rpc.secondPollTime.toNat t1 with
    | (Res.panic msg, t2) => (Res.panic msg, t2)
    | (Res.ok (some r), t2) => (Res.ok r, t2)
    | (Res.ok none, t2) =>
      (Res.ok (none, some (NewGetResponseError "polling failure"), false), t2)

/-- How a statement of a loop body ends: `return r`, `continue`, or control
reaching the statement after it. -/
inductive Flow (α : Type) where
  | ret (r : α)
  | cont
  | fall
deriving DecidableEq, Repr

/-- The `if ... else ...` statement of the resend loop of `CallByPolling`; the
second component is the variable `hash` after it. -/
def resendAttempt (env : Env) (rpc : RPC) (req : JSONRequest) (isPrivateTx : Bool)
    (hash : String) (t : Trace) :
    Res (Flow (Option TxReceipt × Option StdError) × String) × Trace :=
  match callWithReq env req t with
  | (Res.panic msg, t1) => (Res.panic msg, t1)
  | (Res.ok (_, some err), t1) => (Res.ok (Flow.ret (none, some err), hash), t1)
  | (Res.ok (data, none), t1) =>
    match env.unmarshalString data with
    | Decoded.error sysErr => (Res.ok (Flow.ret (none, some (NewSystemError sysErr)), hash), t1)
    | decoded =>
      let hash1 :=
        match decoded with
        | Decoded.value h => h
        | _ => hash
      match GetTxReceiptByPolling env rpc hash1 isPrivateTx t1 with
      | (Res.panic msg, t2) => (Res.panic msg, t2)
      | (Res.ok (txReceipt, innErr, success), t2) =>
        if success then (Res.ok (Flow.ret (txReceipt, innErr), hash1), t2)
        else (Res.ok (Flow.cont, hash1), t2)

/-- The resend loop `for i := int64(0); i < rpc.resTime; i++` of `CallByPolling`
with `n` iterations left, and the `return` after it. -/
def resendLoop (env : Env) (rpc : RPC) (req : JSONRequest) (isPrivateTx : Bool) :
    Nat → String → Trace → Res (Option TxReceipt × Option StdError) × Trace
  | 0, _, t => (Res.ok (none, some (NewRequestTimeoutError "request time out")), t)
  | n + 1, hash, t =>
    match resendAttempt env rpc req isPrivateTx hash t with
    | (Res.panic msg, t1) => (Res.panic msg, t1)
    | (Res.ok (Flow.ret r, _), t1) => (Res.ok r, t1)
    | (Res.ok (Flow.cont, hash1), t1) => resendLoop env rpc req isPrivateTx n hash1 t1
    | (Res.ok (Flow.fall, hash1), t1) =>
      resendLoop env rpc req isPrivateTx n hash1
        (Event.sleep (millis (wrapInt64 (rpc.firstPollInterval + rpc.secondPollInterval))) :: t1)

/-- The method `RPC.CallByPolling`. -/
def CallByPolling (env : Env) (rpc : RPC) (method : String) (param : Param)
    (isPrivateTx : Bool) (t : Trace) : Res (Option TxReceipt × Option StdError) × Trace :=
  match jsonRPC env rpc method [param] t with
  | (Res.panic msg, t1) => (Res.panic msg, t1)
  | (Res.ok req, t1) => resendLoop env rpc req isPrivateTx rpc.resTime.toNat "" t1

/-! ## Vocabulary of the statements -/

/-- A trace on which exactly `n` requests were dispatched. -/
def afterRequests (n : Nat) : Trace :=
  List.replicate n (Event.dispatch ⟨"", "", 0, "", [], none⟩)

/-- The result of the receipt query `GetTxReceipt` that is issued when `n`
requests were dispatched before it; it is the result of that query on every
such trace (`GetTxReceipt_fst`). -/
def queryResult (env : Env) (rpc : RPC) (txHash : String) (isPrivateTx : Bool) (n : Nat) :
    Res (Option TxReceipt × Option StdError) :=
  (GetTxReceipt env rpc txHash isPrivateTx (afterRequests n)).1

/-- The error carries the code `DataNotExistCode` or `SystemBusyCode`. -/
def transientCode (c : Codes) (e : StdError) : Bool :=
  decide (e.Code c = c.DataNotExistCode) || decide (e.Code c = c.SystemBusyCode)

/-- The query failed with an error whose code is `DataNotExistCode` or `SystemBusyCode`. -/
def isTransient (c : Codes) : Res (Option TxReceipt × Option StdError) → Bool
  | Res.ok (_, some e) => transientCode c e
  | _ => false

/-- The three codes the poll tells apart are three different numbers. -/
def distinctCodes (c : Codes) : Prop :=
  c.BalanceInsufficientCode ≠ c.DataNotExistCode ∧ c.BalanceInsufficientCode ≠ c.SystemBusyCode

/-- The inspector manager is present and, when enabled, holds a key: `jsonRPC`
dereferences both. -/
def canStamp (rpc : RPC) : Bool :=
  match rpc.im with
  | none => false
  | some im => !im.enable || im.key.isSome

/-- The `n`-th answer of the cluster is a success envelope whose result decodes
as a transaction handle (`json.Unmarshal` into the string reports no error). -/
def submissionAccepted (env : Env) (n : Nat) : Prop :=
  ∃ body resp, env.cluster n = SyncResult.data body
    ∧ env.unmarshalResponse body = Decoded.value resp
    ∧ resp.Code = SuccessCode
    ∧ ∀ cause, env.unmarshalString resp.Result ≠ Decoded.error cause

/-- Every one of the `firstPollTime + secondPollTime` receipt queries of a poll
whose first query is request number `d` fails with the code `DataNotExistCode`
or `SystemBusyCode`, whatever handle is queried. -/
def pollExhausts (env : Env) (rpc : RPC) (isPrivateTx : Bool) (d : Nat) : Prop :=
  ∀ j, j < rpc.firstPollTime.toNat + rpc.secondPollTime.toNat →
    ∀ txHash, isTransient env.codes (queryResult env rpc txHash isPrivateTx (d + j)) = true

/-- Number of dispatched requests whose method is `method`. -/
def dispatchedWith (method : String) (t : Trace) : Nat :=
  (dispatches t).countP fun r => decide (r.Method = method)

/-- The variable `hash` of `CallByPolling` after `json.Unmarshal(data, &hash)`
reported no error. -/
def handleOf (env : Env) (data : String) (hash : String) : String :=
  match env.unmarshalString data with
  | Decoded.value h => h
  | _ => hash

/-- The variable `hash` and the trace at the start of resend attempt `i` (from 0)
of the loop of `CallByPolling` entered with `(hash, t)`, provided each of the
`i` attempts before it ended with `continue`. -/
def attemptStart (env : Env) (rpc : RPC) (req : JSONRequest) (isPrivateTx : Bool) :
    Nat → String → Trace → Option (String × Trace)
  | 0, hash, t => some (hash, t)
  | i + 1, hash, t =>
    match resendAttempt env rpc req isPrivateTx hash t with
    | (Res.ok (Flow.cont, hash1), t1) => attemptStart env rpc req isPrivateTx i hash1 t1
    | _ => none

/-- The timeline after `n` more rounds "query, then sleep `d`" of a poll loop. -/
def pollRounds (d : Int) (n : Nat) (l : List (Option Int)) : List (Option Int) :=
  (fun l => some d :: none :: l)^[n] l

/-! ## A test bench

A scripted cluster for the scenarios of the specification.  The bodies are
tokens; the decoders below read them the way `encoding/json` reads the
corresponding JSON texts. -/

/-- Error codes of the bench: the three values named in the comment of
`CallByPolling` (`-9999`, `-32001`, `-32006`) for the system error and the two
transient codes, and distinct values for the others. -/
def benchCodes : Codes :=
  { SystemErrorCode := -9999, RequestTimeoutErrorCode := -9997, GetResponseErrorCode := -9996,
    DataNotExistCode := -32001, SystemBusyCode := -32006, BalanceInsufficientCode := -32002 }

/-- Decoder of response bodies of the bench. -/
def benchResponse (body : String) : Decoded JSONResponse :=
  if body = "handle" then Decoded.value ⟨0, "", "0xabc"⟩
  else if body = "receipt" then Decoded.value ⟨0, "", "committed"⟩
  else if body = "notexist" then Decoded.value ⟨-32001, "not found", ""⟩
  else if body = "busy" then Decoded.value ⟨-32006, "system busy", ""⟩
  else if body = "balance" then Decoded.value ⟨-32002, "insufficient balance", ""⟩
  else if body = "null" then Decoded.null
  else Decoded.error "invalid character"

/-- Decoder of string payloads of the bench. -/
def benchString (data : String) : Decoded String :=
  if data = "" then Decoded.error "unexpected end of JSON input" else Decoded.value data

/-- Decoder of receipt payloads of the bench. -/
def benchReceipt (data : String) : Decoded TxReceipt :=
  if data = "" then Decoded.error "unexpected end of JSON input"
  else Decoded.value ⟨data, ""⟩

/-- The bench environment around a scripted cluster. -/
def benchEnv (cluster : Nat → SyncResult) : Env :=
  { cluster := cluster
    clock := fun n => 1000 + n
    signer := fun _ _ msg => (msg, none)
    unmarshalResponse := benchResponse
    unmarshalString := benchString
    unmarshalReceipt := benchReceipt
    chPrefix := fun s => s
    JSONRPCVersion := "2.0"
    codes := benchCodes }

/-- A client with the default polling policy of `DefaultRPC` and a disabled inspector. -/
def benchRPC (resTime firstPollTime secondPollTime : Int) : RPC :=
  { namespace_ := "global", resTime := resTime, firstPollInterval := 100,
    firstPollTime := firstPollTime, secondPollInterval := 1000,
    secondPollTime := secondPollTime, reConnTime := 10000, txVersion := "1.0",
    im := some ⟨false, none⟩ }

/-- Poll scenario A: `DataNotExist` on the first three queries, then a receipt. -/
def scenarioA : Nat → SyncResult := fun n =>
  if n < 3 then SyncResult.data "notexist" else SyncResult.data "receipt"

/-- Poll scenario C: the submission is accepted, the first receipt query is
answered with `BalanceInsufficient`. -/
def scenarioC : Nat → SyncResult := fun n =>
  if n = 0 then SyncResult.data "handle" else SyncResult.data "balance"

/-- The first submission meets a transport failure. -/
def scenarioRefused : Nat → SyncResult := fun _ =>
  SyncResult.failure (StdError.SystemError "connection refused")

/-- The envelope the bench client builds for `tx_sendTransaction`. -/
def benchSubmission : JSONRequest :=
  { Method := "tx_sendTransaction", Version := "2.0", ID := 1, Namespace := "global",
    Params := [Param.value "tx"], Auth := none }

/-- The envelope the bench client builds for the receipt query of handle `0xabc`. -/
def benchQuery : JSONRequest :=
  { Method := "tx_getTransactionReceipt", Version := "2.0", ID := 1, Namespace := "global",
    Params := [Param.str "0xabc"], Auth := none }

/-- Poll scenario B: every receipt query is answered with `SystemBusy`. -/
def scenarioBusy : Nat → SyncResult := fun _ => SyncResult.data "busy"

/-- Every submission is accepted and every receipt query is answered with
`SystemBusy`, for a client whose polls make two queries (requests 0 and 3 are
the submissions). -/
def scenarioB : Nat → SyncResult := fun n =>
  if n % 3 = 0 then SyncResult.data "handle" else SyncResult.data "busy"

/-- A bench client whose inspector is enabled and holds a key. -/
def benchAuthRPC (resTime firstPollTime secondPollTime : Int) : RPC :=
  { benchRPC resTime firstPollTime secondPollTime with
    im := some ⟨true, some ⟨⟨"0x01"⟩, "secret"⟩⟩ }

/-- The stamped envelope the authenticated bench client builds when the clock reads 1000. -/
def benchStampedSubmission : JSONRequest :=
  { benchSubmission with
    Auth := some ⟨⟨"0x01"⟩, 1000, "address=0x01&timestamp=0x3e8"⟩ }

/-- An unreachable cluster: the submission is accepted, every later request
meets a transport failure. -/
def scenarioUnreachable : Nat → SyncResult := fun n =>
  if n = 0 then SyncResult.data "handle"
  else SyncResult.failure (StdError.SystemError "connection refused")

/-! ## The explicit-URL dispatch path -/

/-- Modelled from the spec: the method `hrm.SyncRequestSpecificURL`, declared
outside `rpc.go`, is the explicit-URL dispatch path: one round trip to the node
at `url`, bypassing the cursor.  The trace records the envelope; the answer is
the next answer of the cluster. -/
def SyncRequestSpecificURL (env : Env) (req : JSONRequest) (_url : String) (t : Trace) :
    SyncResult × Trace :=
  (env.cluster (dispatchCount t), Event.dispatch req :: t)

/-- The method `RPC.callWithSpecificURL`. -/
def callWithSpecificURL (env : Env) (rpc : RPC) (method : String) (url : String)
    (params : List Param) (t : Trace) : Res (String × Option StdError) × Trace :=
  match jsonRPC env rpc method params t with
  | (Res.panic msg, t1) => (Res.panic msg, t1)
  | (Res.ok req, t1) =>
    match marshalError req with
    | some sysErr => (Res.ok ("", some (NewSystemError sysErr)), t1)
    | none =>
      match SyncRequestSpecificURL env req url t1 with
      | (SyncResult.failure err, t2) => (Res.ok ("", some err), t2)
      | (SyncResult.data data, t2) =>
        match env.unmarshalResponse data with
        | Decoded.error sysErr => (Res.ok ("", some (NewSystemError sysErr)), t2)
        | Decoded.null => (Res.panic nilDeref, t2)
        | Decoded.value resp =>
          if resp.Code ≠ SuccessCode then
            (Res.ok ("", some (NewServerError resp.Code resp.Message)), t2)
          else (Res.ok (resp.Result, none), t2)

/-- The cluster answers every request with the four bytes `null`. -/
def scenarioNull : Nat → SyncResult := fun _ => SyncResult.data "null"

/-- The cluster answers every request with a success envelope. -/
def scenarioReceipt : Nat → SyncResult := fun _ => SyncResult.data "receipt"

/-- The envelope of the bench client for `node_getNodeHash`. -/
def benchNodeHash : JSONRequest :=
  { Method := "node_getNodeHash", Version := "2.0", ID := 1, Namespace := "global",
    Params := [], Auth := none }

/-- The bench environment with a signing primitive that always fails and hands
back an empty signature. -/
def benchFailingSigner (cluster : Nat → SyncResult) : Env :=
  { benchEnv cluster with signer := fun _ _ _ => ("", some "sign failed") }

/-! ## Hexadecimal numerals -/

/-- The value of a lower-case hexadecimal digit; 16 for any other character. -/
def hexDigitValue (c : Char) : Nat :=
  if c = '0' then 0 else if c = '1' then 1 else if c = '2' then 2 else if c = '3' then 3
  else if c = '4' then 4 else if c = '5' then 5 else if c = '6' then 6 else if c = '7' then 7
  else if c = '8' then 8 else if c = '9' then 9 else if c = 'a' then 10 else if c = 'b' then 11
  else if c = 'c' then 12 else if c = 'd' then 13 else if c = 'e' then 14
  else if c = 'f' then 15 else 16

/-- The number written by a list of hexadecimal digits, most significant first. -/
def hexValue (ds : List Char) : Nat :=
  ds.foldl (fun acc c => 16 * acc + hexDigitValue c) 0

/-- The string `s` is the numeral of `n` in lower-case hexadecimal without
leading zeros: it is not empty, each character is one of `0`..`9`, `a`..`f`, the
digits write `n`, and the first digit is `0` only for the numeral `0` itself. -/
def isLowerHexOf (s : String) (n : Nat) : Prop :=
  s.data ≠ []
    ∧ (∀ c ∈ s.data, hexDigitValue c < 16)
    ∧ hexValue s.data = n
    ∧ (s.data.head? = some '0' → s.data = ['0'])

/-! ## Package bvm: signing with a key pair -/

/-- A byte string. -/
abbrev Bytes := List Nat

/-- The dynamic type of the field `privKey interface{}` of a key pair, with the
key it holds: `*asym.ECDSAPrivateKey`, `*gm.SM2PrivateKey`, or anything else
(a nil interface included). -/
inductive PrivKey where
  | ecdsa (key : String)
  | sm2 (key : String)
  | other (typeName : String)
deriving DecidableEq, Repr

/-- The struct `KeyPair`. -/
structure KeyPair where
  privKey : PrivKey
  pubKey : String
deriving DecidableEq, Repr

/-- The cryptographic primitives `KeyPair.Sign` calls, all of them external
packages.  The signing functions take the number of earlier uses of
`rand.Reader`, which stands for the randomness they draw. -/
structure Crypto where
  /-- `hash.NewHasher(hash.SHA2_256).Hash` -/
  sha256 : Bytes → Bytes
  /-- `(*asym.ECDSAPrivateKey).Sign(rand.Reader, digest, nil)` -/
  ecdsaSign : Nat → String → Bytes → Except String Bytes
  /-- `(*gm.SM2PrivateKey).Public()` -/
  sm2Public : String → String
  /-- `gm.HashBeforeSM2(publicKey, msg)` -/
  hashBeforeSM2 : String → Bytes → Bytes
  /-- `(*gm.SM2PrivateKey).Sign(rand.Reader, digest, nil)` -/
  sm2Sign : Nat → String → Bytes → Except String Bytes

/-- An observable step of `KeyPair.Sign`. -/
inductive SignEvent where
  /-- `rand.Reader` was handed to a signing primitive -/
  | random
  /-- the logger of the package recorded an error -/
  | logError (msg : String)
deriving DecidableEq, Repr

/-- Number of uses of the random source so far. -/
def randomReads : List SignEvent → Nat
  | [] => 0
  | SignEvent.random :: t => randomReads t + 1
  | _ :: t => randomReads t

/-- The method `KeyPair.Sign`; the trace is newest first. -/
def KeyPair.Sign (c : Crypto) (key : KeyPair) (msg : Bytes) (t : List SignEvent) :
    (Option Bytes × Option String) × List SignEvent :=
  match key.privKey with
  | PrivKey.ecdsa k =>
    let h := c.sha256 msg
    match c.ecdsaSign (randomReads t) k h with
    | Except.error err => ((none, some err), SignEvent.random :: t)
    | Except.ok data => ((some data, none), SignEvent.random :: t)
  | PrivKey.sm2 gmKey =>
    let h := c.hashBeforeSM2 (c.sm2Public gmKey) msg
    match c.sm2Sign (randomReads t) gmKey h with
    | Except.error err => ((none, some err), SignEvent.random :: t)
    | Except.ok data => ((some data, none), SignEvent.random :: t)
  | PrivKey.other _ =>
    ((none, some "signature type error"), SignEvent.logError "unsupported sign type" :: t)

/-- Toy primitives for the scenarios: digests and signatures are tagged copies
of their input. -/
def benchCrypto : Crypto :=
  { sha256 := fun msg => 256 :: msg
    ecdsaSign := fun n _ digest => Except.ok (n :: digest)
    sm2Public := fun k => k ++ ".pub"
    hashBeforeSM2 := fun pub msg => pub.length :: msg
    sm2Sign := fun n _ digest => Except.ok (n :: digest) }

/-! ## Clients in memory

The configuration methods have a pointer receiver and `BindNodes` copies the
struct, so sharing matters.  A heap holds the clients, the nodes and the
inspector managers; a pointer is an index into its store, `none` is nil.  New
objects are appended, so an allocation never disturbs an existing address. -/

/-- Modelled from the spec: the struct `Node`, declared outside `rpc.go`, is the
identity of an endpoint.  `rpc.go` reads and writes its field `url`, which
holds the scheme, the host and the RPC port. -/
structure Node where
  url : String
  wsURL : String
deriving DecidableEq, Repr

/-- Modelled from the spec: the transport handle `hrm.client`, declared outside
`rpc.go`, by the trust material it was built from (`none` for plain transport). -/
structure HTTPClient where
  tls : Option (String × String × String)
deriving DecidableEq, Repr

/-- The fields of the struct `httpRequestManager` that `rpc.go` touches; `nodes`
is the slice `[]*Node`. -/
structure httpRequestManager where
  nodes : List (Option Nat)
  nodeIndex : Int
  isHTTP : Bool
  client : HTTPClient
deriving DecidableEq, Repr

/-- The struct `RPC` as it lies in memory: the manager `hrm` is held by value,
the inspector manager `im` through a pointer. -/
structure RPCStruct where
  hrm : httpRequestManager
  namespace_ : String
  resTime : Int
  firstPollInterval : Int
  firstPollTime : Int
  secondPollInterval : Int
  secondPollTime : Int
  reConnTime : Int
  txVersion : String
  im : Option Nat
deriving DecidableEq, Repr

/-- The objects the clients are made of. -/
structure Heap where
  clients : List RPCStruct
  nodeStore : List Node
  managers : List inspectorManager
deriving DecidableEq, Repr

/-- The client at address `p` as the request path reads it. -/
def Heap.rpc (h : Heap) (p : Nat) : Option RPC :=
  (h.clients[p]?).map fun c =>
    { namespace_ := c.namespace_, resTime := c.resTime,
      firstPollInterval := c.firstPollInterval, firstPollTime := c.firstPollTime,
      secondPollInterval := c.secondPollInterval, secondPollTime := c.secondPollTime,
      reConnTime := c.reConnTime, txVersion := c.txVersion,
      im := c.im.bind fun a => h.managers[a]? }

/-- A field assignment through the receiver `rpc *RPC`, followed by `return rpc`. -/
def Heap.assign (h : Heap) (p : Nat) (f : RPCStruct → RPCStruct) : Res Nat × Heap :=
  match h.clients[p]? with
  | none => (Res.panic nilDeref, h)
  | some c => (Res.ok p, { h with clients := h.clients.set p (f c) })

/-- The method `RPC.Namespace`. -/
def Namespace (h : Heap) (p : Nat) (ns : String) : Res Nat × Heap :=
  h.assign p fun c => { c with namespace_ := ns }

/-- The method `RPC.ResendTimes`. -/
def ResendTimes (h : Heap) (p : Nat) (resTime : Int) : Res Nat × Heap :=
  h.assign p fun c => { c with resTime := resTime }

/-- The method `RPC.FirstPollInterval`. -/
def FirstPollInterval (h : Heap) (p : Nat) (fpi : Int) : Res Nat × Heap :=
  h.assign p fun c => { c with firstPollInterval := fpi }

/-- The method `RPC.FirstPollTime`. -/
def FirstPollTime (h : Heap) (p : Nat) (fpt : Int) : Res Nat × Heap :=
  h.assign p fun c => { c with firstPollTime := fpt }

/-- The method `RPC.SecondPollInterval`. -/
def SecondPollInterval (h : Heap) (p : Nat) (spi : Int) : Res Nat × Heap :=
  h.assign p fun c => { c with secondPollInterval := spi }

/-- The method `RPC.SecondPollTime`. -/
def SecondPollTime (h : Heap) (p : Nat) (spt : Int) : Res Nat × Heap :=
  h.assign p fun c => { c with secondPollTime := spt }

/-- The function `strings.Split(s, "//")` on the characters of `s`: the pieces
between the occurrences of `//`, found from the left without overlap. -/
def splitDoubleSlash : List Char → List (List Char)
  | [] => [[]]
  | [c] => [[c]]
  | c :: d :: rest =>
    if c = '/' ∧ d = '/' then [] :: splitDoubleSlash rest
    else
      match splitDoubleSlash (d :: rest) with
      | [] => [[c]]
      | piece :: pieces => (c :: piece) :: pieces

/-- The expression `"https://" + strings.Split(url, "//")[1]`; `none` when the
split has a single piece and the index panics. -/
def secureURL (url : String) : Option String :=
  match splitDoubleSlash url.data with
  | _ :: piece :: _ => some (String.mk ("https://".data ++ piece))
  | _ => none

/-- The loop of `RPC.Https` over the node pointers still to visit: each node's
`url` is rewritten in place.  A panic leaves the nodes visited so far rewritten. -/
def httpsLoop : List (Option Nat) → List Node → Res Unit × List Node
  | [], store => (Res.ok (), store)
  | none :: _, store => (Res.panic nilDeref, store)
  | some a :: rest, store =>
    match store[a]? with
    | none => (Res.panic nilDeref, store)
    | some node =>
      match secureURL node.url with
      | none => (Res.panic "index out of range [1] with length 1", store)
      | some url => httpsLoop rest (store.set a { node with url := url })

/-- Modelled from the spec: the function `newHTTPClient`, declared outside
`rpc.go`, rebuilds the transport handle with the supplied trust material. -/
def newHTTPClient (tlscaPath tlspeerCertPath tlspeerPrivPath : String) : HTTPClient :=
  { tls := some (tlscaPath, tlspeerCertPath, tlspeerPrivPath) }

/-- The method `RPC.Https`. -/
def Https (h : Heap) (p : Nat) (tlscaPath tlspeerCertPath tlspeerPrivPath : String) :
    Res Nat × Heap :=
  match h.clients[p]? with
  | none => (Res.panic nilDeref, h)
  | some c =>
    let c1 : RPCStruct :=
      { c with hrm := { c.hrm with
          client := newHTTPClient tlscaPath tlspeerCertPath tlspeerPrivPath, isHTTP := true } }
    let h1 : Heap := { h with clients := h.clients.set p c1 }
    match httpsLoop c1.hrm.nodes h1.nodeStore with
    | (Res.panic msg, store) => (Res.panic msg, { h1 with nodeStore := store })
    | (Res.ok _, store) => (Res.ok p, { h1 with nodeStore := store })

/-- Modelled from the spec: the function `newNode`, declared outside `rpc.go`,
builds a node from a host, its RPC port and its websocket port, honouring the
transport-security flag: the scheme of the URL is `https` when the flag is set
and `http` otherwise. -/
def newNode (url rpcPort wsPort : String) (isHTTPS : Bool) : Node :=
  { url := (if isHTTPS then "https://" else "http://") ++ url ++ ":" ++ rpcPort
    wsURL := "ws://" ++ url ++ ":" ++ wsPort }

/-- The method `RPC.AddNode`. -/
def AddNode (h : Heap) (p : Nat) (url rpcPort wsPort : String) : Res Nat × Heap :=
  match h.clients[p]? with
  | none => (Res.panic nilDeref, h)
  | some c =>
    let node := newNode url rpcPort wsPort c.hrm.isHTTP
    let a := h.nodeStore.length
    (Res.ok p,
      { h with
        nodeStore := h.nodeStore ++ [node]
        clients := h.clients.set p
          { c with hrm := { c.hrm with nodes := c.hrm.nodes ++ [some a] } } })

/-- The method `RPC.SetAccount`; it returns nothing. -/
def SetAccount (h : Heap) (p : Nat) (key : Option Key) : Res Unit × Heap :=
  match h.clients[p]? with
  | none => (Res.panic nilDeref, h)
  | some c =>
    match c.im with
    | none => (Res.panic nilDeref, h)
    | some a =>
      match h.managers[a]? with
      | none => (Res.panic nilDeref, h)
      | some im => (Res.ok (), { h with managers := h.managers.set a { im with key := key } })

/-- The message of the Go runtime panic raised by an index expression that is
evaluated at position `pos` on a slice of length `len`. -/
def indexOutOfRange (pos : Int) (len : Nat) : String :=
  if pos < 0 then "index out of range [" ++ toString pos ++ "]"
  else "index out of range [" ++ toString pos ++ "] with length " ++ toString len

/-- The loop of `RPC.BindNodes` at position `i`, over the indexes still to
visit; `acc` is the part of `proxy.hrm.nodes` filled so far.  The indexes are
values of the Go type `int`, 64 bits wide.  An index above `limit` ends the call
with an error; any other index is used to read `rpc.hrm.nodes[index-1]`.  For an
index of at least 1 the subtraction does not overflow; for an index below 1 it
is the subtraction of `int`, which wraps at the lower end of the range, and the
read panics. -/
def bindLoop (nodes : List (Option Nat)) (limit : Int) :
    Nat → List Int → List (Option Nat) → Res (Except String (List (Option Nat)))
  | _, [], acc => Res.ok (Except.ok acc)
  | i, index :: rest, acc =>
    if index > limit then
      Res.ok (Except.error ("nodeIndex " ++ toString i ++ " is out of range"))
    else if index - 1 < 0 then
      Res.panic (indexOutOfRange (wrapInt64 (index - 1)) nodes.length)
    else
      match nodes[(index - 1).toNat]? with
      | none => Res.panic (indexOutOfRange (index - 1) nodes.length)
      | some node => bindLoop nodes limit (i + 1) rest (acc ++ [node])

/-- The method `RPC.BindNodes`: the pointer it returns and its error.  The copy
`proxy` is a new client; it shares the nodes and the inspector manager of the
source through their pointers.  The arguments `nodeIndexes ...int` are integers
in the range of `int64`. -/
def BindNodes (h : Heap) (p : Nat) (nodeIndexes : List Int) :
    Res (Option Nat × Option String) × Heap :=
  if nodeIndexes = [] then (Res.ok (some p, none), h)
  else
    match h.clients[p]? with
    | none => (Res.panic nilDeref, h)
    | some c =>
      match bindLoop c.hrm.nodes c.hrm.nodes.length 0 nodeIndexes [] with
      | Res.panic msg => (Res.panic msg, h)
      | Res.ok (Except.error err) => (Res.ok (none, some err), h)
      | Res.ok (Except.ok nodes) =>
        (Res.ok (some h.clients.length, none),
          { h with clients := h.clients ++
              [{ c with hrm := { c.hrm with nodes := nodes, nodeIndex := 0 } }] })

/-- A configuration call on a client. -/
inductive ConfigOp where
  | Namespace (ns : String)
  | ResendTimes (resTime : Int)
  | FirstPollInterval (fpi : Int)
  | FirstPollTime (fpt : Int)
  | SecondPollInterval (spi : Int)
  | SecondPollTime (spt : Int)
  | AddNode (url rpcPort wsPort : String)
  | Https (tlscaPath tlspeerCertPath tlspeerPrivPath : String)
  | SetAccount (key : Option Key)
deriving DecidableEq, Repr

/-- The heap after a configuration call on the client at `p` (also when the
call panics). -/
def ConfigOp.run (h : Heap) (p : Nat) : ConfigOp → Heap
  | ConfigOp.Namespace ns => (GoSDK.Namespace h p ns).2
  | ConfigOp.ResendTimes n => (GoSDK.ResendTimes h p n).2
  | ConfigOp.FirstPollInterval n => (GoSDK.FirstPollInterval h p n).2
  | ConfigOp.FirstPollTime n => (GoSDK.FirstPollTime h p n).2
  | ConfigOp.SecondPollInterval n => (GoSDK.SecondPollInterval h p n).2
  | ConfigOp.SecondPollTime n => (GoSDK.SecondPollTime h p n).2
  | ConfigOp.AddNode url rpcPort wsPort => (GoSDK.AddNode h p url rpcPort wsPort).2
  | ConfigOp.Https ca cert priv => (GoSDK.Https h p ca cert priv).2
  | ConfigOp.SetAccount key => (GoSDK.SetAccount h p key).2

/-- The call writes to the fields of the client itself or to a node it has
just created, never to an object reached through a pointer of the client. -/
def ConfigOp.isLocal : ConfigOp → Bool
  | ConfigOp.Https _ _ _ => false
  | ConfigOp.SetAccount _ => false
  | _ => true

/-- The heap after a sequence of configuration calls on the client at `p`. -/
def runOps (p : Nat) : List ConfigOp → Heap → Heap
  | [], h => h
  | op :: ops, h => runOps p ops (op.run h p)

/-- What the claims observe of a client. -/
structure Observation where
  namespace_ : String
  resTime : Int
  firstPollInterval : Int
  firstPollTime : Int
  secondPollInterval : Int
  secondPollTime : Int
  nodes : List (Option Nat)
  urls : List (Option String)
  key : Option (Option Key)
deriving DecidableEq, Repr

/-- The namespace, the polling policy, the node list, the node URLs and the
authentication key of the client at `p`. -/
def observe (h : Heap) (p : Nat) : Option Observation :=
  (h.clients[p]?).map fun c =>
    { namespace_ := c.namespace_, resTime := c.resTime,
      firstPollInterval := c.firstPollInterval, firstPollTime := c.firstPollTime,
      secondPollInterval := c.secondPollInterval, secondPollTime := c.secondPollTime,
      nodes := c.hrm.nodes,
      urls := c.hrm.nodes.map fun o => o.bind fun a => (h.nodeStore[a]?).map fun n => n.url,
      key := c.im.bind fun a => (h.managers[a]?).map fun im => im.key }

/-- A heap with one client on three plain-transport nodes `a`, `b`, `c`, whose
inspector is disabled. -/
def benchHeap : Heap :=
  { clients :=
      [{ hrm := { nodes := [some 0, some 1, some 2], nodeIndex := 2, isHTTP := false,
                  client := ⟨none⟩ },
         namespace_ := "global", resTime := 10, firstPollInterval := 100, firstPollTime := 10,
         secondPollInterval := 1000, secondPollTime := 10, reConnTime := 10000,
         txVersion := "1.0", im := some 0 }]
    nodeStore := [newNode "a" "8081" "10001" false, newNode "b" "8081" "10001" false,
                  newNode "c" "8081" "10001" false]
    managers := [⟨false, none⟩] }

/-- The characters contain two slashes in a row. -/
def hasDoubleSlash : List Char → Bool
  | c :: d :: rest => (decide (c = '/') && decide (d = '/')) || hasDoubleSlash (d :: rest)
  | _ => false

/-- The URL consists of a scheme without a slash, the two slashes, and a rest
(host and port) without two slashes in a row. -/
def isSchemeURL (url : String) (rest : List Char) : Prop :=
  ∃ scheme, url.data = scheme ++ '/' :: '/' :: rest ∧ '/' ∉ scheme ∧ hasDoubleSlash rest = false

/-- The node after the assignment of `RPC.Https` to its `url`, when that
assignment does not panic. -/
def secureNode (node : Node) : Node :=
  match secureURL node.url with
  | some url => { node with url := url }
  | none => node

/-! ## Transactions: `Call` and the submission wrappers -/

/-- Method prefix of the contract interface. -/
def CONTRACT : String := "contract_"

/-- Method prefix of the simulation interface. -/
def SIMULATE : String := "simulate_"

/-- Modelled from the spec: the type `Transaction` is declared outside `rpc.go`.
The fields are the ones `rpc.go` reads or writes (`txVersion`, `simulate`,
`isPrivateTx`, `isDeploy`, `isInvoke`, `isMaintain`), the signature written by
`Sign`, and `body` for everything else. -/
structure Transaction where
  body : String
  signature : String
  txVersion : String
  simulate : Bool
  isPrivateTx : Bool
  isDeploy : Bool
  isInvoke : Bool
  isMaintain : Bool
deriving DecidableEq, Repr

/-- The transaction library around the wrappers: the serialisation of a
transaction into the request parameter, and the signature primitive behind
`Transaction.Sign`. -/
structure TxLib where
  Serialize : Transaction → Param
  signature : Transaction → String → String

/-- Modelled from the spec: `Transaction.Sign(key)` signs the transaction with
the key material and stores the signature in the transaction; it changes no
other field. -/
def Transaction.Sign (lib : TxLib) (transaction : Transaction) (key : String) : Transaction :=
  { transaction with signature := lib.signature transaction key }

/-- Modelled from the spec: `Transaction.getTxVersion` reads the version field. -/
def Transaction.getTxVersion (transaction : Transaction) : String := transaction.txVersion

/-- The library function `strings.Compare`. -/
def stringsCompare (a b : String) : Int :=
  if a = b then 0 else if a < b then -1 else 1

/-- The function `isTxVersion10`. -/
def isTxVersion10 (txVersion : String) : Bool :=
  stringsCompare txVersion "1.0" == 0

/-- The method `RPC.Call`: one call, and the payload decoded as a receipt. -/
def Call (env : Env) (rpc : RPC) (method : String) (param : Param) (t : Trace) :
    Res (Option TxReceipt × Option StdError) × Trace :=
  match call env rpc method [param] t with
  | (Res.panic msg, t1) => (Res.panic msg, t1)
  | (Res.ok (_, some err), t1) => (Res.ok (none, some err), t1)
  | (Res.ok (data, none), t1) =>
    match env.unmarshalReceipt data with
    | Decoded.error sysErr => (Res.ok (none, some (NewSystemError sysErr)), t1)
    | Decoded.null => (Res.ok (some { fields := "", PrivTxHash := "" }, none), t1)
    | Decoded.value receipt => (Res.ok (some receipt, none), t1)

/-- The method `RPC.SendTx`; the second component is the transaction as the
call leaves it. -/
def SendTx (env : Env) (lib : TxLib) (rpc : RPC) (transaction : Transaction) (t : Trace) :
    (Res (Option TxReceipt × Option StdError) × Trace) × Transaction :=
  let transaction := { transaction with txVersion := rpc.txVersion }
  let method := TRANSACTION ++ "sendTransaction"
  let param := lib.Serialize transaction
  if transaction.simulate then (Call env rpc method param t, transaction)
  else (CallByPolling env rpc method param transaction.isPrivateTx t, transaction)

/-- The method `RPC.SignAndSendTx`. -/
def SignAndSendTx (env : Env) (lib : TxLib) (rpc : RPC) (transaction : Transaction)
    (key : String) (t : Trace) :
    (Res (Option TxReceipt × Option StdError) × Trace) × Transaction :=
  let transaction := { transaction with txVersion := rpc.txVersion }
  let transaction := transaction.Sign lib key
  let method := TRANSACTION ++ "sendTransaction"
  let param := lib.Serialize transaction
  if transaction.simulate then (Call env rpc method param t, transaction)
  else (CallByPolling env rpc method param transaction.isPrivateTx t, transaction)

/-- The method `RPC.DeployContract`. -/
def DeployContract (env : Env) (lib : TxLib) (rpc : RPC) (transaction : Transaction)
    (t : Trace) : (Res (Option TxReceipt × Option StdError) × Trace) × Transaction :=
  let method :=
    if transaction.isPrivateTx then CONTRACT ++ "deployPrivateContract"
    else if !isTxVersion10 transaction.getTxVersion && transaction.simulate then
      SIMULATE ++ "deployContract"
    else CONTRACT ++ "deployContract"
  let transaction := { transaction with isDeploy := true }
  let param := lib.Serialize transaction
  if transaction.simulate then (Call env rpc method param t, transaction)
  else (CallByPolling env rpc method param transaction.isPrivateTx t, transaction)

/-- The method `RPC.SignAndDeployContract`. -/
def SignAndDeployContract (env : Env) (lib : TxLib) (rpc : RPC) (transaction : Transaction)
    (key : String) (t : Trace) :
    (Res (Option TxReceipt × Option StdError) × Trace) × Transaction :=
  let transaction := { transaction with txVersion := rpc.txVersion }
  let transaction := transaction.Sign lib key
  let method :=
    if transaction.isPrivateTx then CONTRACT ++ "deployPrivateContract"
    else if !isTxVersion10 transaction.getTxVersion && transaction.simulate then
      SIMULATE ++ "deployContract"
    else CONTRACT ++ "deployContract"
  let transaction := { transaction with isDeploy := true }
  let param := lib.Serialize transaction
  if transaction.simulate then (Call env rpc method param t, transaction)
  else (CallByPolling env rpc method param transaction.isPrivateTx t, transaction)

/-- The method `RPC.SignAndInvokeContract`. -/
def SignAndInvokeContract (env : Env) (lib : TxLib) (rpc : RPC) (transaction : Transaction)
    (key : String) (t : Trace) :
    (Res (Option TxReceipt × Option StdError) × Trace) × Transaction :=
  let transaction := { transaction with txVersion := rpc.txVersion }
  let transaction := transaction.Sign lib key
  let method :=
    if transaction.isPrivateTx then CONTRACT ++ "invokePrivateContract"
    else if !isTxVersion10 transaction.getTxVersion && transaction.simulate then
      SIMULATE ++ "invokeContract"
    else CONTRACT ++ "invokeContract"
  let transaction := { transaction with isInvoke := true }
  let param := lib.Serialize transaction
  if transaction.simulate then (Call env rpc method param t, transaction)
  else (CallByPolling env rpc method param transaction.isPrivateTx t, transaction)

/-- The method `RPC.InvokeContract`. -/
def InvokeContract (env : Env) (lib : TxLib) (rpc : RPC) (transaction : Transaction)
    (t : Trace) : (Res (Option TxReceipt × Option StdError) × Trace) × Transaction :=
  let method :=
    if transaction.isPrivateTx then CONTRACT ++ "invokePrivateContract"
    else if !isTxVersion10 transaction.getTxVersion && transaction.simulate then
      SIMULATE ++ "invokeContract"
    else CONTRACT ++ "invokeContract"
  let transaction := { transaction with isInvoke := true }
  let param := lib.Serialize transaction
  if transaction.simulate then (Call env rpc method param t, transaction)
  else (CallByPolling env rpc method param transaction.isPrivateTx t, transaction)

/-- The method `RPC.ManageContractByVote`. -/
def ManageContractByVote (env : Env) (lib : TxLib) (rpc : RPC) (transaction : Transaction)
    (t : Trace) : (Res (Option TxReceipt × Option StdError) × Trace) × Transaction :=
  let method := CONTRACT ++ "manageContractByVote"
  let transaction := { transaction with isInvoke := true }
  let param := lib.Serialize transaction
  if transaction.simulate then (Call env rpc method param t, transaction)
  else (CallByPolling env rpc method param transaction.isPrivateTx t, transaction)

/-- The method `RPC.SignAndManageContractByVote`. -/
def SignAndManageContractByVote (env : Env) (lib : TxLib) (rpc : RPC)
    (transaction : Transaction) (key : String) (t : Trace) :
    (Res (Option TxReceipt × Option StdError) × Trace) × Transaction :=
  let transaction := { transaction with txVersion := rpc.txVersion }
  let transaction := transaction.Sign lib key
  let method := CONTRACT ++ "manageContractByVote"
  let transaction := { transaction with isInvoke := true }
  let param := lib.Serialize transaction
  if transaction.simulate then (Call env rpc method param t, transaction)
  else (CallByPolling env rpc method param transaction.isPrivateTx t, transaction)

/-- The method `RPC.MaintainContract`. -/
def MaintainContract (env : Env) (lib : TxLib) (rpc : RPC) (transaction : Transaction)
    (t : Trace) : (Res (Option TxReceipt × Option StdError) × Trace) × Transaction :=
  let method :=
    if !isTxVersion10 transaction.getTxVersion && transaction.simulate then
      SIMULATE ++ "maintainContract"
    else CONTRACT ++ "maintainContract"
  let transaction := { transaction with isMaintain := true }
  let param := lib.Serialize transaction
  if transaction.simulate then (Call env rpc method param t, transaction)
  else (CallByPolling env rpc method param transaction.isPrivateTx t, transaction)

/-- The method `RPC.SignAndMaintainContract`. -/
def SignAndMaintainContract (env : Env) (lib : TxLib) (rpc : RPC) (transaction : Transaction)
    (key : String) (t : Trace) :
    (Res (Option TxReceipt × Option StdError) × Trace) × Transaction :=
  let transaction := { transaction with txVersion := rpc.txVersion }
  let transaction := transaction.Sign lib key
  let method :=
    if !isTxVersion10 transaction.getTxVersion && transaction.simulate then
      SIMULATE ++ "maintainContract"
    else CONTRACT ++ "maintainContract"
  let transaction := { transaction with isMaintain := true }
  let param := lib.Serialize transaction
  if transaction.simulate then (Call env rpc method param t, transaction)
  else (CallByPolling env rpc method param transaction.isPrivateTx t, transaction)

/-- The run `out` of a submission wrapper is the run of `Call` when `simulate` is
set, and the run of `CallByPolling` with the privacy flag otherwise, on some
method name and the serialisation of the transaction `sent`. -/
def routedBySimulate (env : Env) (lib : TxLib) (rpc : RPC) (simulate isPrivateTx : Bool)
    (sent : Transaction) (t : Trace)
    (out : Res (Option TxReceipt × Option StdError) × Trace) : Prop :=
  ∃ method,
    (simulate = true → out = Call env rpc method (lib.Serialize sent) t)
      ∧ (simulate = false
          → out = CallByPolling env rpc method (lib.Serialize sent) isPrivateTx t)

/-- The table of method names of the deploy and invoke wrappers, as the
specification words it; `action` is `deploy` or `invoke`. -/
def contractMethodTable (action : String) (isPrivateTx : Bool) (txVersion : String)
    (simulate : Bool) : String :=
  if isPrivateTx then "contract_" ++ action ++ "PrivateContract"
  else if txVersion ≠ "1.0" ∧ simulate = true then "simulate_" ++ action ++ "Contract"
  else "contract_" ++ action ++ "Contract"

/-- The transaction library of the bench: the body is the parameter, the
signature is the key material. -/
def benchTxLib : TxLib :=
  { Serialize := fun transaction => Param.value transaction.body
    signature := fun _ key => key }

/-- A transaction of the bench. -/
def benchTx (simulate isPrivateTx : Bool) (txVersion : String) : Transaction :=
  { body := "tx", signature := "", txVersion := txVersion, simulate := simulate,
    isPrivateTx := isPrivateTx, isDeploy := false, isInvoke := false, isMaintain := false }

/-! ## The singleton sub-clients -/

/-- Modelled from the spec: the type `WebSocketClient` is declared outside
`rpc.go`.  The fields are the ones `GetWebSocketClient` sets: the connection map
(its keys) and `hrm`, the pointer `&rpc.hrm`, which is the address of the client
whose request manager is shared. -/
structure WebSocketClient where
  conns : List Nat
  hrm : Nat
deriving DecidableEq, Repr

/-- Modelled from the spec: the type `MqClient` is declared outside `rpc.go`; the
fields are the ones `GetMqClient` sets. -/
structure MqClient where
  mqConns : List Nat
  hrm : Nat
deriving DecidableEq, Repr

/-- The package-level state behind the two getters: whether the one `sync.Once`
value `once` of the package has fired, the two package variables
`globalWebSocketClient` and `mqClient` (pointers, `none` is nil), and the
sub-clients allocated so far.  Calls are taken one after the other. -/
structure Process where
  once : Bool
  globalWebSocketClient : Option Nat
  mqClient : Option Nat
  webSocketClients : List WebSocketClient
  mqClients : List MqClient
deriving DecidableEq, Repr

/-- The method `RPC.GetWebSocketClient` on the client at address `p`:
`once.Do` runs the initialiser only if `once` has not fired yet. -/
def GetWebSocketClient (s : Process) (p : Nat) : Option Nat × Process :=
  let s1 :=
    if s.once then s
    else { s with once := true
                  globalWebSocketClient := some s.webSocketClients.length
                  webSocketClients := s.webSocketClients ++ [{ conns := [], hrm := p }] }
  (s1.globalWebSocketClient, s1)

/-- The method `RPC.GetMqClient` on the client at address `p`; it goes through
the same `once` as `GetWebSocketClient`. -/
def GetMqClient (s : Process) (p : Nat) : Option Nat × Process :=
  let s1 :=
    if s.once then s
    else { s with once := true
                  mqClient := some s.mqClients.length
                  mqClients := s.mqClients ++ [{ mqConns := [], hrm := p }] }
  (s1.mqClient, s1)

/-- A call of one of the two getters on the client at address `p`. -/
inductive Getter where
  | GetWebSocketClient (p : Nat)
  | GetMqClient (p : Nat)
deriving DecidableEq, Repr

/-- Run one getter call. -/
def Getter.run (s : Process) : Getter → Option Nat × Process
  | Getter.GetWebSocketClient p => GoSDK.GetWebSocketClient s p
  | Getter.GetMqClient p => GoSDK.GetMqClient s p

/-- The package variable a getter returns. -/
def Getter.global (s : Process) : Getter → Option Nat
  | Getter.GetWebSocketClient _ => s.globalWebSocketClient
  | Getter.GetMqClient _ => s.mqClient

/-- Run a sequence of getter calls; every call is listed with what it returned. -/
def runGetters : Process → List Getter → List (Getter × Option Nat) × Process
  | s, [] => ([], s)
  | s, g :: rest =>
    let r := g.run s
    let out := runGetters r.2 rest
    ((g, r.1) :: out.1, out.2)

/-- Modelled from the spec: the package variables `globalWebSocketClient` and
`mqClient` are declared outside `rpc.go`; a process starts with both nil, `once`
not fired and no sub-client allocated. -/
def freshProcess : Process :=
  { once := false, globalWebSocketClient := none, mqClient := none,
    webSocketClients := [], mqClients := [] }

/-! ## Construction of a client and of its inspector manager -/

/-- Default namespace. -/
def DefaultNamespace : String := "global"

/-- Default resend budget. -/
def DefaultResendTime : Int := 10

/-- Default interval of the first poll tier, in milliseconds. -/
def DefaultFirstPollInterval : Int := 100

/-- Default count of the first poll tier. -/
def DefaultFirstPollTime : Int := 10

/-- Default interval of the second poll tier, in milliseconds. -/
def DefaultSecondPollInterval : Int := 1000

/-- Default count of the second poll tier. -/
def DefaultSecondPollTime : Int := 10

/-- Default reconnection time. -/
def DefaultReConnectTime : Int := 10000

/-- Default transaction version. -/
def DefaultTxVersion : String := "1.0"

/-- Modelled from the spec: `defaultHTTPRequestManager` is declared outside
`rpc.go`; it returns a manager without nodes on plain transport. -/
def defaultHTTPRequestManager : httpRequestManager :=
  { nodes := [], nodeIndex := 0, isHTTP := false, client := ⟨none⟩ }

/-- The function `DefaultRPC`: it allocates a client and returns its address.
The struct literal of the source lists every field but `im`, which therefore
holds the zero value nil. -/
def DefaultRPC (h : Heap) (nodes : List (Option Nat)) : Nat × Heap :=
  let rpc : RPCStruct :=
    { namespace_ := DefaultNamespace
      resTime := DefaultResendTime
      firstPollInterval := DefaultFirstPollInterval
      firstPollTime := DefaultFirstPollTime
      secondPollInterval := DefaultSecondPollInterval
      secondPollTime := DefaultSecondPollTime
      reConnTime := DefaultReConnectTime
      hrm := defaultHTTPRequestManager
      txVersion := DefaultTxVersion
      im := none }
  let rpc := { rpc with hrm := { rpc.hrm with nodes := nodes } }
  (h.clients.length, { h with clients := h.clients ++ [rpc] })

/-- The configuration values the inspector constructors read from the `viper`
instance. -/
structure Viper where
  InspectorEnable : Bool
  InspectorAccountPath : String
  InspectorAccountType : String
deriving DecidableEq, Repr

/-- The file system and the account library around the inspector constructors:
`ioutil.ReadFile` and the five key constructors, each giving a key or an error. -/
structure AccountLib where
  ReadFile : String → Except String String
  NewAccountFromAccountJSON : String → String → Except String Key
  NewAccountSm2FromAccountJSON : String → String → Except String Key
  NewAccountFromPriv : String → Except String Key
  NewAccountR1FromPriv : String → Except String Key
  NewAccountSm2FromPriv : String → Except String Key

/-- The function `newInspectorManager2` (log output left out): the account data
is the configured path itself. -/
def newInspectorManager2 (lib : AccountLib) (vip : Viper) : inspectorManager :=
  let inspectorEnable := vip.InspectorEnable
  let im : inspectorManager := { enable := inspectorEnable, key := none }
  if !inspectorEnable then im
  else
    let accountPath := vip.InspectorAccountPath
    let data := accountPath
    let accountType := vip.InspectorAccountType
    let made : Option (Except String Key) :=
      if accountType = "ecdsa" then some (lib.NewAccountFromAccountJSON data "")
      else if accountType = "sm2" then some (lib.NewAccountSm2FromAccountJSON data "")
      else if accountType = "ecdsaPriv" then some (lib.NewAccountFromPriv data)
      else if accountType = "ecdsaPrivR1" then some (lib.NewAccountR1FromPriv data)
      else if accountType = "sm2Priv" then some (lib.NewAccountSm2FromPriv data)
      else none
    match made with
    | none => im
    | some (Except.error _) => im
    | some (Except.ok key) => { im with key := some key }

/-- The function `newInspectorManager` (log output left out): the account data is
read from the file `confRootPath/accountPath`. -/
def newInspectorManager (lib : AccountLib) (vip : Viper) (confRootPath : String) :
    inspectorManager :=
  let inspectorEnable := vip.InspectorEnable
  let im : inspectorManager := { enable := inspectorEnable, key := none }
  if !inspectorEnable then im
  else
    let accountPath := confRootPath ++ "/" ++ vip.InspectorAccountPath
    match lib.ReadFile accountPath with
    | Except.error _ => im
    | Except.ok data =>
      let accountType := vip.InspectorAccountType
      let made : Option (Except String Key) :=
        if accountType = "ecdsa" then some (lib.NewAccountFromAccountJSON data "")
        else if accountType = "sm2" then some (lib.NewAccountSm2FromAccountJSON data "")
        else if accountType = "ecdsaPriv" then some (lib.NewAccountFromPriv data)
        else if accountType = "ecdsaPrivR1" then some (lib.NewAccountR1FromPriv data)
        else if accountType = "sm2Priv" then some (lib.NewAccountSm2FromPriv data)
        else none
      match made with
      | none => im
      | some (Except.error _) => im
      | some (Except.ok key) => { im with key := some key }

/-- An account library of the bench: files are read as `readFile` says, and
every key constructor rejects its input. -/
def rejectingAccountLib (readFile : String → Except String String) : AccountLib :=
  { ReadFile := readFile
    NewAccountFromAccountJSON := fun _ _ => Except.error "invalid account json"
    NewAccountSm2FromAccountJSON := fun _ _ => Except.error "invalid account json"
    NewAccountFromPriv := fun _ => Except.error "invalid private key"
    NewAccountR1FromPriv := fun _ => Except.error "invalid private key"
    NewAccountSm2FromPriv := fun _ => Except.error "invalid private key" }

/-! ## Query wrappers that decode and convert their payload -/

/-- Method prefix of the block interface. -/
def BLOCK : String := "block_"

/-- Modelled from the spec: the type `BlockRaw` is declared outside `rpc.go`; the
decoded fields as one value. -/
structure BlockRaw where
  fields : String
deriving DecidableEq, Repr

/-- Modelled from the spec: the type `Block` is declared outside `rpc.go`. -/
structure Block where
  fields : String
deriving DecidableEq, Repr

/-- The library around the query wrappers: the decoder of `encoding/json` into a
`BlockRaw`, the conversion `BlockRaw.ToBlock`, `strconv.ParseUint(s, 0, 64)`, and
what the constructor `NewSystemError` does when it is handed a nil error (it
returns some error value, or it panics). -/
structure QueryLib where
  unmarshalBlockRaw : String → Decoded BlockRaw
  ToBlock : BlockRaw → Except StdError Block
  ParseUint : String → Except String Nat
  systemErrorOfNil : Res StdError

/-- The call `NewSystemError(e)` for an error variable `e` that may hold nil:
`some cause` is an error with that cause, `none` is nil. -/
def NewSystemErrorOf (lib : QueryLib) : Option String → Res StdError
  | some cause => Res.ok (NewSystemError cause)
  | none => lib.systemErrorOfNil

/-- The method `RPC.GetLatestBlock`.  Where the conversion `ToBlock` fails, the
source hands the variable `sysErr` to `NewSystemError`; at that point `sysErr`
holds nil, the decoding before it having succeeded. -/
def GetLatestBlock (env : Env) (lib : QueryLib) (rpc : RPC) (t : Trace) :
    Res (Option Block × Option StdError) × Trace :=
  let method := BLOCK ++ "latestBlock"
  match call env rpc method [] t with
  | (Res.panic msg, t1) => (Res.panic msg, t1)
  | (Res.ok (_, some stdErr), t1) => (Res.ok (none, some stdErr), t1)
  | (Res.ok (data, none), t1) =>
    match lib.unmarshalBlockRaw data with
    | Decoded.error sysErr => (Res.ok (none, some (NewSystemError sysErr)), t1)
    | decoded =>
      let sysErr : Option String := none
      let blockRaw : BlockRaw :=
        match decoded with
        | Decoded.value raw => raw
        | _ => { fields := "" }
      match lib.ToBlock blockRaw with
      | Except.error _ =>
        match NewSystemErrorOf lib sysErr with
        | Res.panic msg => (Res.panic msg, t1)
        | Res.ok e => (Res.ok (none, some e), t1)
      | Except.ok block => (Res.ok (some block, none), t1)

/-- The method `RPC.GetBlkTxCountByHash`.  Where the decoding into a string
fails with `sysError`, the source hands the variable `err` to `NewSystemError`;
at that point `err` holds nil, the call before it having succeeded. -/
def GetBlkTxCountByHash (env : Env) (lib : QueryLib) (rpc : RPC) (blkHash : String)
    (t : Trace) : Res (Nat × Option StdError) × Trace :=
  let method := TRANSACTION ++ "getBlockTransactionCountByHash"
  let param := Param.str blkHash
  match call env rpc method [param] t with
  | (Res.panic msg, t1) => (Res.panic msg, t1)
  | (Res.ok (_, some err), t1) => (Res.ok (0, some err), t1)
  | (Res.ok (data, none), t1) =>
    let err : Option String := none
    match env.unmarshalString data with
    | Decoded.error _ =>
      match NewSystemErrorOf lib err with
      | Res.panic msg => (Res.panic msg, t1)
      | Res.ok e => (Res.ok (0, some e), t1)
    | decoded =>
      let hexCount : String :=
        match decoded with
        | Decoded.value s => s
        | _ => ""
      match lib.ParseUint hexCount with
      | Except.error sysErr => (Res.ok (0, some (NewSystemError sysErr)), t1)
      | Except.ok count => (Res.ok (count, none), t1)

/-- A query library of the bench: every payload decodes as a raw block, the
conversion of a raw block fails with the cause `cause`, so does the parsing of
a count, and `NewSystemError(nil)` does `ofNil`. -/
def benchQueryLib (cause : String) (ofNil : Res StdError) : QueryLib :=
  { unmarshalBlockRaw := fun data => Decoded.value { fields := data }
    ToBlock := fun _ => Except.error (NewSystemError cause)
    ParseUint := fun _ => Except.error cause
    systemErrorOfNil := ofNil }

/-- The bench environment in which the decoding of a payload into a string
fails with the cause `cause`. -/
def benchNotAString (cause : String) : Env :=
  { benchEnv scenarioReceipt with unmarshalString := fun _ => Decoded.error cause }

/-- The outcome of a wrapper that returns the zero value `zero` together with
whatever `NewSystemError(nil)` gives. -/
def nilCauseOutcome {α : Type} (zero : α) : Res StdError → Res (α × Option StdError)
  | Res.panic msg => Res.panic msg
  | Res.ok e => Res.ok (zero, some e)

/-! ## Frame lemmas of the request path -/

theorem dispatchCount_afterRequests (n : Nat) : dispatchCount (afterRequests n) = n := by
  induction n with
  | zero => rfl
  | succ n ih =>
    simp only [dispatchCount, afterRequests, List.replicate_succ, dispatches] at ih ⊢
    simp [ih]

theorem jsonRPC_panic (env : Env) (rpc : RPC) (method : String) (params : List Param)
    (t : Trace) (h : canStamp rpc = false) :
    jsonRPC env rpc method params t = (Res.panic nilDeref, t) := by
  unfold canStamp at h
  unfold jsonRPC
  cases him : rpc.im with
  | none => rfl
  | some im =>
    rw [him] at h
    cases hen : im.enable <;> cases hk : im.key <;> simp_all

theorem jsonRPC_ok (env : Env) (rpc : RPC) (method : String) (params : List Param)
    (t : Trace) (h : canStamp rpc = true) :
    ∃ req t1, jsonRPC env rpc method params t = (Res.ok req, t1)
      ∧ req.Method = method ∧ req.Params = params
      ∧ dispatches t1 = dispatches t ∧ timeline t1 = timeline t ∧ sleeps t1 = sleeps t := by
  unfold canStamp at h
  unfold jsonRPC
  cases him : rpc.im with
  | none => rw [him] at h; simp at h
  | some im =>
    rw [him] at h
    cases hen : im.enable with
    | false =>
      simp only [hen]
      exact ⟨_, t, rfl, rfl, rfl, rfl, rfl, rfl⟩
    | true =>
      cases hk : im.key with
      | none => simp [hen, hk] at h
      | some key =>
        simp only [hen, hk, if_true]
        refine ⟨_, _, rfl, rfl, rfl, ?_, ?_, ?_⟩ <;>
          cases (env.signer (signCalls (Event.now :: t)) key _).2 <;> rfl

theorem callWithReq_snd (env : Env) (req : JSONRequest) (t : Trace)
    (h : marshalError req = none) : (callWithReq env req t).2 = Event.dispatch req :: t := by
  unfold callWithReq SyncRequest
  simp only [h]
  cases env.cluster (dispatchCount t) with
  | failure err => rfl
  | data body =>
    simp only []
    cases env.unmarshalResponse body with
    | error cause => rfl
    | null => rfl
    | value resp => simp only []; split <;> rfl

theorem callWithReq_fst_congr (env : Env) (req req' : JSONRequest) (t t' : Trace)
    (h : marshalError req = none) (h' : marshalError req' = none)
    (hd : dispatchCount t = dispatchCount t') :
    (callWithReq env req t).1 = (callWithReq env req' t').1 := by
  unfold callWithReq SyncRequest
  simp only [h, h', hd]
  cases env.cluster (dispatchCount t') with
  | failure err => rfl
  | data body =>
    simp only []
    cases env.unmarshalResponse body with
    | error cause => rfl
    | null => rfl
    | value resp => simp only []; split <;> rfl

theorem callWithReq_marshal_fail (env : Env) (req : JSONRequest) (t : Trace) (cause : String)
    (h : marshalError req = some cause) :
    callWithReq env req t = (Res.ok ("", some (NewSystemError cause)), t) := by
  unfold callWithReq
  simp only [h]

theorem marshalError_str (req : JSONRequest) (s : String) (h : req.Params = [Param.str s]) :
    marshalError req = none := by
  simp [marshalError, h]

theorem GetTxReceipt_panic (env : Env) (rpc : RPC) (txHash : String) (isPrivateTx : Bool)
    (t : Trace) (h : canStamp rpc = false) :
    GetTxReceipt env rpc txHash isPrivateTx t = (Res.panic nilDeref, t) := by
  unfold GetTxReceipt call
  simp only [jsonRPC_panic env rpc _ _ t h]

theorem GetTxReceipt_snd (env : Env) (rpc : RPC) (txHash : String) (isPrivateTx : Bool)
    (t : Trace) (h : canStamp rpc = true) :
    ∃ req, req.Method = receiptMethod isPrivateTx
      ∧ dispatches (GetTxReceipt env rpc txHash isPrivateTx t).2 = req :: dispatches t
      ∧ timeline (GetTxReceipt env rpc txHash isPrivateTx t).2 = none :: timeline t
      ∧ sleeps (GetTxReceipt env rpc txHash isPrivateTx t).2 = sleeps t := by
  obtain ⟨req, t1, hj, hm, hp, hd, htl, hs⟩ :=
    jsonRPC_ok env rpc (receiptMethod isPrivateTx) [Param.str (env.chPrefix txHash)] t h
  have hsnd := callWithReq_snd env req t1 (marshalError_str req _ hp)
  have key : (GetTxReceipt env rpc txHash isPrivateTx t).2 = Event.dispatch req :: t1 := by
    unfold GetTxReceipt call
    simp only [hj]
    rcases hc : callWithReq env req t1 with ⟨r, t2⟩
    rw [hc] at hsnd
    simp only at hsnd
    subst hsnd
    rcases r with ⟨data, err⟩ | msg
    · cases err with
      | some e => rfl
      | none =>
        simp only []
        cases env.unmarshalReceipt data <;> rfl
    · rfl
  refine ⟨req, hm, ?_, ?_, ?_⟩ <;> rw [key] <;> simp [dispatches, timeline, sleeps, hd, htl, hs]

theorem GetTxReceipt_fst_congr (env : Env) (rpc : RPC) (txHash : String) (isPrivateTx : Bool)
    (t t' : Trace) (hd : dispatchCount t = dispatchCount t') :
    (GetTxReceipt env rpc txHash isPrivateTx t).1
      = (GetTxReceipt env rpc txHash isPrivateTx t').1 := by
  cases h : canStamp rpc with
  | false => rw [GetTxReceipt_panic _ _ _ _ _ h, GetTxReceipt_panic _ _ _ _ _ h]
  | true =>
    obtain ⟨req, t1, hj, _, hp, hd1, _, _⟩ :=
      jsonRPC_ok env rpc (receiptMethod isPrivateTx) [Param.str (env.chPrefix txHash)] t h
    obtain ⟨req', t1', hj', _, hp', hd1', _, _⟩ :=
      jsonRPC_ok env rpc (receiptMethod isPrivateTx) [Param.str (env.chPrefix txHash)] t' h
    have hc := callWithReq_fst_congr env req req' t1 t1' (marshalError_str req _ hp)
      (marshalError_str req' _ hp') (by simp only [dispatchCount, hd1, hd1']; exact hd)
    unfold GetTxReceipt call
    simp only [hj, hj']
    rcases h1 : callWithReq env req t1 with ⟨r, t2⟩
    rcases h2 : callWithReq env req' t1' with ⟨r', t2'⟩
    rw [h1, h2] at hc
    simp only at hc
    subst hc
    rcases r with ⟨data, err⟩ | msg
    · cases err with
      | some e => rfl
      | none =>
        simp only []
        cases env.unmarshalReceipt data <;> rfl
    · rfl

theorem GetTxReceipt_fst (env : Env) (rpc : RPC) (txHash : String) (isPrivateTx : Bool)
    (t : Trace) :
    (GetTxReceipt env rpc txHash isPrivateTx t).1
      = queryResult env rpc txHash isPrivateTx (dispatchCount t) := by
  unfold queryResult
  exact GetTxReceipt_fst_congr env rpc txHash isPrivateTx t _
    (dispatchCount_afterRequests _).symm

theorem GetTxReceipt_shape (env : Env) (rpc : RPC) (txHash : String) (isPrivateTx : Bool)
    (t : Trace) (r : Option TxReceipt × Option StdError)
    (h : (GetTxReceipt env rpc txHash isPrivateTx t).1 = Res.ok r) :
    (∃ receipt, r = (some receipt, none)) ∨ (∃ err, r = (none, some err)) := by
  unfold GetTxReceipt at h
  simp only at h
  rcases hc : call env rpc (receiptMethod isPrivateTx) [Param.str (env.chPrefix txHash)] t
    with ⟨c, t1⟩
  rw [hc] at h
  rcases c with ⟨data, err⟩ | msg
  · cases err with
    | some e =>
      simp only [Res.ok.injEq] at h
      exact Or.inr ⟨e, h.symm⟩
    | none =>
      simp only at h
      cases hu : env.unmarshalReceipt data with
      | error cause =>
        rw [hu] at h
        simp only [Res.ok.injEq] at h
        exact Or.inr ⟨_, h.symm⟩
      | null =>
        rw [hu] at h
        simp only [Res.ok.injEq] at h
        exact Or.inl ⟨_, h.symm⟩
      | value txr =>
        rw [hu] at h
        simp only [Res.ok.injEq] at h
        exact Or.inl ⟨_, h.symm⟩
  · simp at h

theorem GetTxReceipt_ok_snd (env : Env) (rpc : RPC) (txHash : String) (isPrivateTx : Bool)
    (t : Trace) (r : Option TxReceipt × Option StdError)
    (h : (GetTxReceipt env rpc txHash isPrivateTx t).1 = Res.ok r) :
    ∃ req, req.Method = receiptMethod isPrivateTx
      ∧ dispatches (GetTxReceipt env rpc txHash isPrivateTx t).2 = req :: dispatches t
      ∧ timeline (GetTxReceipt env rpc txHash isPrivateTx t).2 = none :: timeline t
      ∧ sleeps (GetTxReceipt env rpc txHash isPrivateTx t).2 = sleeps t := by
  cases hs : canStamp rpc with
  | false =>
    rw [GetTxReceipt_panic _ _ _ _ _ hs] at h
    simp at h
  | true => exact GetTxReceipt_snd env rpc txHash isPrivateTx t hs

theorem GetTxReceipt_dispatches (env : Env) (rpc : RPC) (txHash : String) (isPrivateTx : Bool)
    (t : Trace) :
    (GetTxReceipt env rpc txHash isPrivateTx t).2 = t
      ∨ ∃ req, req.Method = receiptMethod isPrivateTx
          ∧ dispatches (GetTxReceipt env rpc txHash isPrivateTx t).2 = req :: dispatches t
          ∧ sleeps (GetTxReceipt env rpc txHash isPrivateTx t).2 = sleeps t := by
  cases hs : canStamp rpc with
  | false =>
    rw [GetTxReceipt_panic _ _ _ _ _ hs]
    exact Or.inl rfl
  | true =>
    obtain ⟨req, h1, h2, _, h4⟩ := GetTxReceipt_snd env rpc txHash isPrivateTx t hs
    exact Or.inr ⟨req, h1, h2, h4⟩

theorem transient_not_balance (c : Codes) (e : StdError) (hc : distinctCodes c)
    (h : transientCode c e = true) : e.Code c ≠ c.BalanceInsufficientCode := by
  unfold transientCode at h
  simp only [Bool.or_eq_true, decide_eq_true_eq] at h
  intro hb
  rcases h with h | h
  · exact hc.1 (hb ▸ h)
  · exact hc.2 (hb ▸ h)

/-- One more round of a poll loop on the timeline: a query, then a sleep. -/
theorem pollLoop_step_transient (env : Env) (rpc : RPC) (txHash : String) (isPrivateTx : Bool)
    (interval : Int) (n : Nat) (t : Trace) (hc : distinctCodes env.codes)
    (h : isTransient env.codes (queryResult env rpc txHash isPrivateTx (dispatchCount t)) = true) :
    pollLoop env rpc txHash isPrivateTx interval (n + 1) t
      = pollLoop env rpc txHash isPrivateTx interval n
          (Event.sleep (millis interval) :: (GetTxReceipt env rpc txHash isPrivateTx t).2) := by
  rw [← GetTxReceipt_fst] at h
  rw [pollLoop]
  rcases hg : GetTxReceipt env rpc txHash isPrivateTx t with ⟨r, t1⟩
  rw [hg] at h
  rcases r with ⟨receipt, err⟩ | msg
  · cases err with
    | none => simp [isTransient] at h
    | some e =>
      simp only [isTransient] at h
      have hb := transient_not_balance env.codes e hc h
      unfold transientCode at h
      simp only [Bool.or_eq_true, decide_eq_true_eq] at h
      simp only [hb, if_false]
      rw [if_neg]
      intro hcon
      rcases h with h | h
      · exact hcon.1 h
      · exact hcon.2 h
  · simp [isTransient] at h

theorem pollLoop_step_resolved (env : Env) (rpc : RPC) (txHash : String) (isPrivateTx : Bool)
    (interval : Int) (n : Nat) (t : Trace) (r : Option TxReceipt × Option StdError)
    (hr : queryResult env rpc txHash isPrivateTx (dispatchCount t) = Res.ok r)
    (h : isTransient env.codes (Res.ok r) = false) :
    pollLoop env rpc txHash isPrivateTx interval (n + 1) t
      = (Res.ok (some (r.1, r.2, true)), (GetTxReceipt env rpc txHash isPrivateTx t).2) := by
  rw [← GetTxReceipt_fst] at hr
  have hshape := GetTxReceipt_shape env rpc txHash isPrivateTx t r hr
  rw [pollLoop]
  rcases hg : GetTxReceipt env rpc txHash isPrivateTx t with ⟨r0, t1⟩
  rw [hg] at hr
  simp only at hr
  subst hr
  rcases hshape with ⟨receipt, rfl⟩ | ⟨e, rfl⟩
  · rfl
  · simp only [isTransient, transientCode, Bool.or_eq_false_iff, decide_eq_false_iff_not] at h
    simp only []
    split <;> rfl

/-! ## The poll loops -/

theorem pollLoop_busy (env : Env) (rpc : RPC) (txHash : String) (isPrivateTx : Bool)
    (interval : Int) (hc : distinctCodes env.codes) :
    ∀ (n : Nat) (t : Trace),
      (∀ j, j < n →
        isTransient env.codes (queryResult env rpc txHash isPrivateTx (dispatchCount t + j)) = true) →
      ∃ t', pollLoop env rpc txHash isPrivateTx interval n t = (Res.ok none, t')
        ∧ dispatchCount t' = dispatchCount t + n
        ∧ timeline t' = pollRounds (millis interval) n (timeline t)
        ∧ sleeps t' = List.replicate n (millis interval) ++ sleeps t := by
  intro n
  induction n with
  | zero => intro t _; exact ⟨t, rfl, rfl, rfl, rfl⟩
  | succ n ih =>
    intro t hq
    have h0 := hq 0 (Nat.succ_pos n)
    rw [Nat.add_zero] at h0
    rw [pollLoop_step_transient env rpc txHash isPrivateTx interval n t hc h0]
    have hok : ∃ r, (GetTxReceipt env rpc txHash isPrivateTx t).1 = Res.ok r := by
      rw [GetTxReceipt_fst]
      cases hq0 : queryResult env rpc txHash isPrivateTx (dispatchCount t) with
      | ok r => exact ⟨r, rfl⟩
      | panic msg => rw [hq0] at h0; simp [isTransient] at h0
    obtain ⟨r, hr⟩ := hok
    obtain ⟨req, _, hd, htl, hs⟩ := GetTxReceipt_ok_snd env rpc txHash isPrivateTx t r hr
    have hdc : dispatchCount
        (Event.sleep (millis interval) :: (GetTxReceipt env rpc txHash isPrivateTx t).2)
        = dispatchCount t + 1 := by
      simp [dispatchCount, dispatches, hd]
    obtain ⟨t', h1, h2, h3, h4⟩ := ih
      (Event.sleep (millis interval) :: (GetTxReceipt env rpc txHash isPrivateTx t).2)
      (by
        intro j hj
        rw [hdc, Nat.add_assoc, Nat.add_comm 1 j]
        exact hq (j + 1) (Nat.succ_lt_succ hj))
    refine ⟨t', h1, ?_, ?_, ?_⟩
    · rw [h2, hdc]; omega
    · rw [h3]
      simp only [timeline, htl, pollRounds, Function.iterate_succ, Function.comp]
    · rw [h4]
      simp only [sleeps, hs, List.replicate_succ']
      simp

theorem pollLoop_hit (env : Env) (rpc : RPC) (txHash : String) (isPrivateTx : Bool)
    (interval : Int) (hc : distinctCodes env.codes) (r : Option TxReceipt × Option StdError)
    (hr : isTransient env.codes (Res.ok r) = false) :
    ∀ (k n : Nat) (t : Trace), k < n →
      (∀ j, j < k →
        isTransient env.codes (queryResult env rpc txHash isPrivateTx (dispatchCount t + j)) = true) →
      queryResult env rpc txHash isPrivateTx (dispatchCount t + k) = Res.ok r →
      ∃ t', pollLoop env rpc txHash isPrivateTx interval n t = (Res.ok (some (r.1, r.2, true)), t')
        ∧ dispatchCount t' = dispatchCount t + k + 1
        ∧ timeline t' = none :: pollRounds (millis interval) k (timeline t)
        ∧ sleeps t' = List.replicate k (millis interval) ++ sleeps t := by
  intro k
  induction k with
  | zero =>
    intro n t hn _ hk
    obtain ⟨m, rfl⟩ : ∃ m, n = m + 1 := ⟨n - 1, by omega⟩
    rw [Nat.add_zero] at hk
    rw [pollLoop_step_resolved env rpc txHash isPrivateTx interval m t r hk hr]
    rw [← GetTxReceipt_fst] at hk
    obtain ⟨req, _, hd, htl, hs⟩ := GetTxReceipt_ok_snd env rpc txHash isPrivateTx t r hk
    refine ⟨_, rfl, ?_, ?_, ?_⟩
    · simp [dispatchCount, hd]
    · simp [htl, pollRounds]
    · simp [hs]
  | succ k ih =>
    intro n t hn hq hk
    obtain ⟨m, rfl⟩ : ∃ m, n = m + 1 := ⟨n - 1, by omega⟩
    have h0 := hq 0 (Nat.succ_pos k)
    rw [Nat.add_zero] at h0
    rw [pollLoop_step_transient env rpc txHash isPrivateTx interval m t hc h0]
    have hok : ∃ r0, (GetTxReceipt env rpc txHash isPrivateTx t).1 = Res.ok r0 := by
      rw [GetTxReceipt_fst]
      cases hq0 : queryResult env rpc txHash isPrivateTx (dispatchCount t) with
      | ok r0 => exact ⟨r0, rfl⟩
      | panic msg => rw [hq0] at h0; simp [isTransient] at h0
    obtain ⟨r0, hr0⟩ := hok
    obtain ⟨req, _, hd, htl, hs⟩ := GetTxReceipt_ok_snd env rpc txHash isPrivateTx t r0 hr0
    have hdc : dispatchCount
        (Event.sleep (millis interval) :: (GetTxReceipt env rpc txHash isPrivateTx t).2)
        = dispatchCount t + 1 := by
      simp [dispatchCount, dispatches, hd]
    obtain ⟨t', h1, h2, h3, h4⟩ := ih m
      (Event.sleep (millis interval) :: (GetTxReceipt env rpc txHash isPrivateTx t).2)
      (by omega)
      (by
        intro j hj
        rw [hdc, Nat.add_assoc, Nat.add_comm 1 j]
        exact hq (j + 1) (Nat.succ_lt_succ hj))
      (by rw [hdc, Nat.add_assoc, Nat.add_comm 1 k]; exact hk)
    refine ⟨t', h1, ?_, ?_, ?_⟩
    · rw [h2, hdc]; omega
    · rw [h3]
      simp only [timeline, htl, pollRounds, Function.iterate_succ, Function.comp]
    · rw [h4]
      simp only [sleeps, hs, List.replicate_succ']
      simp

theorem pollLoop_succ_cases (env : Env) (rpc : RPC) (txHash : String) (isPrivateTx : Bool)
    (interval : Int) (n : Nat) (t : Trace) :
    ((∃ msg, pollLoop env rpc txHash isPrivateTx interval (n + 1) t
          = (Res.panic msg, (GetTxReceipt env rpc txHash isPrivateTx t).2))
      ∨ ∃ receipt err, pollLoop env rpc txHash isPrivateTx interval (n + 1) t
          = (Res.ok (some (receipt, err, true)), (GetTxReceipt env rpc txHash isPrivateTx t).2))
    ∨ (isTransient env.codes (GetTxReceipt env rpc txHash isPrivateTx t).1 = true
        ∧ pollLoop env rpc txHash isPrivateTx interval (n + 1) t
          = pollLoop env rpc txHash isPrivateTx interval n
              (Event.sleep (millis interval) :: (GetTxReceipt env rpc txHash isPrivateTx t).2)) := by
  rw [pollLoop]
  rcases hg : GetTxReceipt env rpc txHash isPrivateTx t with ⟨r, t1⟩
  rcases r with ⟨receipt, err⟩ | msg
  · cases err with
    | none => exact Or.inl (Or.inr ⟨receipt, none, rfl⟩)
    | some e =>
      simp only []
      by_cases hb : StdError.Code env.codes e = env.codes.BalanceInsufficientCode
      · rw [if_pos hb]
        exact Or.inl (Or.inr ⟨none, some e, rfl⟩)
      · rw [if_neg hb]
        by_cases hn : StdError.Code env.codes e ≠ env.codes.DataNotExistCode
            ∧ StdError.Code env.codes e ≠ env.codes.SystemBusyCode
        · rw [if_pos hn]
          exact Or.inl (Or.inr ⟨none, some e, rfl⟩)
        · rw [if_neg hn]
          refine Or.inr ⟨?_, rfl⟩
          simp only [isTransient, transientCode, Bool.or_eq_true, decide_eq_true_eq]
          by_contra hcon
          exact hn ⟨fun h => hcon (Or.inl h), fun h => hcon (Or.inr h)⟩
  · exact Or.inl (Or.inl ⟨msg, rfl⟩)

theorem pollLoop_none_inv (env : Env) (rpc : RPC) (txHash : String) (isPrivateTx : Bool)
    (interval : Int) :
    ∀ (n : Nat) (t t' : Trace),
      pollLoop env rpc txHash isPrivateTx interval n t = (Res.ok none, t') →
      (∀ j, j < n →
        isTransient env.codes (queryResult env rpc txHash isPrivateTx (dispatchCount t + j)) = true)
      ∧ dispatchCount t' = dispatchCount t + n := by
  intro n
  induction n with
  | zero =>
    intro t t' h
    rw [pollLoop] at h
    simp only [Prod.mk.injEq, true_and] at h
    subst h
    exact ⟨fun j hj => absurd hj (Nat.not_lt_zero j), rfl⟩
  | succ n ih =>
    intro t t' h
    rcases pollLoop_succ_cases env rpc txHash isPrivateTx interval n t with
      (⟨msg, hp⟩ | ⟨receipt, err, hp⟩) | ⟨htr, hp⟩
    · rw [hp] at h; simp at h
    · rw [hp] at h; simp at h
    · rw [hp] at h
      have hok : ∃ r, (GetTxReceipt env rpc txHash isPrivateTx t).1 = Res.ok r := by
        cases hq0 : (GetTxReceipt env rpc txHash isPrivateTx t).1 with
        | ok r => exact ⟨r, rfl⟩
        | panic msg => rw [hq0] at htr; simp [isTransient] at htr
      obtain ⟨r, hr⟩ := hok
      obtain ⟨req, _, hd, _, _⟩ := GetTxReceipt_ok_snd env rpc txHash isPrivateTx t r hr
      have hdc : dispatchCount
          (Event.sleep (millis interval) :: (GetTxReceipt env rpc txHash isPrivateTx t).2)
          = dispatchCount t + 1 := by
        simp [dispatchCount, dispatches, hd]
      obtain ⟨h1, h2⟩ := ih _ t' h
      rw [hdc] at h1 h2
      refine ⟨?_, by omega⟩
      intro j hj
      cases j with
      | zero =>
        rw [Nat.add_zero, ← GetTxReceipt_fst]
        exact htr
      | succ j =>
        have := h1 j (by omega)
        rw [Nat.add_assoc, Nat.add_comm 1 j] at this
        exact this

theorem pollLoop_flag (env : Env) (rpc : RPC) (txHash : String) (isPrivateTx : Bool)
    (interval : Int) :
    ∀ (n : Nat) (t t' : Trace) (receipt : Option TxReceipt) (err : Option StdError) (flag : Bool),
      pollLoop env rpc txHash isPrivateTx interval n t = (Res.ok (some (receipt, err, flag)), t') →
      flag = true := by
  intro n
  induction n with
  | zero =>
    intro t t' receipt err flag h
    rw [pollLoop] at h
    simp at h
  | succ n ih =>
    intro t t' receipt err flag h
    rcases pollLoop_succ_cases env rpc txHash isPrivateTx interval n t with
      (⟨msg, hp⟩ | ⟨receipt0, err0, hp⟩) | ⟨_, hp⟩
    · rw [hp] at h; simp at h
    · rw [hp] at h
      simp only [Prod.mk.injEq, Res.ok.injEq, Option.some.injEq] at h
      exact h.1.2.2.symm
    · rw [hp] at h
      exact ih _ t' receipt err flag h

/-- Whatever the cluster does, a poll loop of `n` iterations dispatches at most
`n` requests, all of them receipt queries. -/
theorem pollLoop_frame (env : Env) (rpc : RPC) (txHash : String) (isPrivateTx : Bool)
    (interval : Int) :
    ∀ (n : Nat) (t : Trace),
      ∃ new, dispatches (pollLoop env rpc txHash isPrivateTx interval n t).2 = new ++ dispatches t
        ∧ new.length ≤ n ∧ ∀ r ∈ new, r.Method = receiptMethod isPrivateTx := by
  intro n
  induction n with
  | zero =>
    intro t
    exact ⟨[], by rw [pollLoop]; rfl, Nat.le_refl 0, by simp⟩
  | succ n ih =>
    intro t
    have hone : ∃ new, dispatches (GetTxReceipt env rpc txHash isPrivateTx t).2
          = new ++ dispatches t
        ∧ new.length ≤ 1 ∧ ∀ r ∈ new, r.Method = receiptMethod isPrivateTx := by
      rcases GetTxReceipt_dispatches env rpc txHash isPrivateTx t with h | ⟨req, hm, hd, _⟩
      · exact ⟨[], by rw [h]; rfl, Nat.zero_le 1, by simp⟩
      · exact ⟨[req], by rw [hd]; rfl, Nat.le_refl 1, by simpa using hm⟩
    obtain ⟨new1, hd1, hl1, hm1⟩ := hone
    rcases pollLoop_succ_cases env rpc txHash isPrivateTx interval n t with
      (⟨msg, hp⟩ | ⟨receipt0, err0, hp⟩) | ⟨_, hp⟩
    · rw [hp]; exact ⟨new1, hd1, by omega, hm1⟩
    · rw [hp]; exact ⟨new1, hd1, by omega, hm1⟩
    · rw [hp]
      obtain ⟨new2, hd2, hl2, hm2⟩ := ih
        (Event.sleep (millis interval) :: (GetTxReceipt env rpc txHash isPrivateTx t).2)
      refine ⟨new2 ++ new1, ?_, ?_, ?_⟩
      · rw [hd2]
        simp only [dispatches, hd1, List.append_assoc]
      · simp only [List.length_append]; omega
      · intro r hr
        rcases List.mem_append.mp hr with h | h
        · exact hm2 r h
        · exact hm1 r h

/-! ## The two-tier poll -/

theorem GetTxReceiptByPolling_frame (env : Env) (rpc : RPC) (txHash : String)
    (isPrivateTx : Bool) (t : Trace) :
    ∃ new, dispatches (GetTxReceiptByPolling env rpc txHash isPrivateTx t).2
        = new ++ dispatches t
      ∧ new.length ≤ rpc.firstPollTime.toNat + rpc.secondPollTime.toNat
      ∧ ∀ r ∈ new, r.Method = receiptMethod isPrivateTx := by
  obtain ⟨new1, hd1, hl1, hm1⟩ := pollLoop_frame env rpc (env.chPrefix txHash) isPrivateTx
    rpc.firstPollInterval rpc.firstPollTime.toNat t
  unfold GetTxReceiptByPolling
  simp only []
  rcases h1 : pollLoop env rpc (env.chPrefix txHash) isPrivateTx rpc.firstPollInterval
    rpc.firstPollTime.toNat t with ⟨r1, t1⟩
  rw [h1] at hd1
  simp only at hd1
  rcases r1 with (_ | r) | msg
  · obtain ⟨new2, hd2, hl2, hm2⟩ := pollLoop_frame env rpc (env.chPrefix txHash) isPrivateTx
      rpc.secondPollInterval rpc.secondPollTime.toNat t1
    simp only []
    rcases h2 : pollLoop env rpc (env.chPrefix txHash) isPrivateTx rpc.secondPollInterval
      rpc.secondPollTime.toNat t1 with ⟨r2, t2⟩
    rw [h2] at hd2
    simp only at hd2
    have hall : dispatches t2 = (new2 ++ new1) ++ dispatches t := by
      rw [hd2, hd1, List.append_assoc]
    have hlen : (new2 ++ new1).length ≤ rpc.firstPollTime.toNat + rpc.secondPollTime.toNat := by
      simp only [List.length_append]; omega
    have hmem : ∀ r ∈ new2 ++ new1, r.Method = receiptMethod isPrivateTx := by
      intro r hr
      rcases List.mem_append.mp hr with h | h
      · exact hm2 r h
      · exact hm1 r h
    rcases r2 with (_ | r) | msg
    · exact ⟨_, hall, hlen, hmem⟩
    · exact ⟨_, hall, hlen, hmem⟩
    · exact ⟨_, hall, hlen, hmem⟩
  · exact ⟨new1, hd1, by omega, hm1⟩
  · exact ⟨new1, hd1, by omega, hm1⟩

/-- The poll resolves at the first query whose result is not a transient error. -/
theorem GetTxReceiptByPolling_hit (env : Env) (rpc : RPC) (txHash : String)
    (isPrivateTx : Bool) (t : Trace) (k : Nat) (r : Option TxReceipt × Option StdError)
    (hc : distinctCodes env.codes) (hk1 : 1 ≤ k)
    (hk2 : k ≤ rpc.firstPollTime.toNat + rpc.secondPollTime.toNat)
    (hbusy : ∀ j, j + 1 < k →
      isTransient env.codes
        (queryResult env rpc (env.chPrefix txHash) isPrivateTx (dispatchCount t + j)) = true)
    (hres : queryResult env rpc (env.chPrefix txHash) isPrivateTx (dispatchCount t + (k - 1))
      = Res.ok r)
    (hdec : isTransient env.codes (Res.ok r) = false) :
    (GetTxReceiptByPolling env rpc txHash isPrivateTx t).1 = Res.ok (r.1, r.2, true)
      ∧ ((∃ receipt, r = (some receipt, none)) ∨ (∃ err, r = (none, some err)))
      ∧ (∃ new, dispatches (GetTxReceiptByPolling env rpc txHash isPrivateTx t).2
            = new ++ dispatches t
          ∧ new.length = k ∧ ∀ q ∈ new, q.Method = receiptMethod isPrivateTx)
      ∧ timeline (GetTxReceiptByPolling env rpc txHash isPrivateTx t).2
          = none :: pollRounds (millis rpc.secondPollInterval) (k - 1 - rpc.firstPollTime.toNat)
              (pollRounds (millis rpc.firstPollInterval) (min (k - 1) rpc.firstPollTime.toNat)
                (timeline t)) := by
  have hshape : (∃ receipt, r = (some receipt, none)) ∨ (∃ err, r = (none, some err)) :=
    GetTxReceipt_shape env rpc (env.chPrefix txHash) isPrivateTx
      (afterRequests (dispatchCount t + (k - 1))) r hres
  obtain ⟨new, hnew, _, hmeth⟩ := GetTxReceiptByPolling_frame env rpc txHash isPrivateTx t
  have main : (GetTxReceiptByPolling env rpc txHash isPrivateTx t).1 = Res.ok (r.1, r.2, true)
      ∧ dispatchCount (GetTxReceiptByPolling env rpc txHash isPrivateTx t).2
          = dispatchCount t + k
      ∧ timeline (GetTxReceiptByPolling env rpc txHash isPrivateTx t).2
          = none :: pollRounds (millis rpc.secondPollInterval)
              (k - 1 - rpc.firstPollTime.toNat)
              (pollRounds (millis rpc.firstPollInterval) (min (k - 1) rpc.firstPollTime.toNat)
                (timeline t)) := by
    by_cases hk : k ≤ rpc.firstPollTime.toNat
    · obtain ⟨t', h1, h2, h3, _⟩ := pollLoop_hit env rpc (env.chPrefix txHash) isPrivateTx
        rpc.firstPollInterval hc r hdec (k - 1) rpc.firstPollTime.toNat t (by omega)
        (fun j hj => hbusy j (by omega)) hres
      unfold GetTxReceiptByPolling
      simp only [h1]
      refine ⟨trivial, by rw [h2]; omega, ?_⟩
      rw [h3]
      have e1 : k - 1 - rpc.firstPollTime.toNat = 0 := by omega
      have e2 : min (k - 1) rpc.firstPollTime.toNat = k - 1 := by omega
      rw [e1, e2]
      rfl
    · obtain ⟨t1, h1, h2, h3, _⟩ := pollLoop_busy env rpc (env.chPrefix txHash) isPrivateTx
        rpc.firstPollInterval hc rpc.firstPollTime.toNat t (fun j hj => hbusy j (by omega))
      obtain ⟨t2, g1, g2, g3, _⟩ := pollLoop_hit env rpc (env.chPrefix txHash) isPrivateTx
        rpc.secondPollInterval hc r hdec (k - 1 - rpc.firstPollTime.toNat)
        rpc.secondPollTime.toNat t1 (by omega)
        (fun j hj => by
          rw [h2, Nat.add_assoc]
          exact hbusy _ (by omega))
        (by
          rw [h2, Nat.add_assoc]
          have e : rpc.firstPollTime.toNat + (k - 1 - rpc.firstPollTime.toNat) = k - 1 := by
            omega
          rw [e]
          exact hres)
      unfold GetTxReceiptByPolling
      simp only [h1, g1]
      refine ⟨trivial, by rw [g2, h2]; omega, ?_⟩
      rw [g3, h3]
      have e2 : min (k - 1) rpc.firstPollTime.toNat = rpc.firstPollTime.toNat := by omega
      rw [e2]
  refine ⟨main.1, hshape, ⟨new, hnew, ?_, hmeth⟩, main.2.2⟩
  have := main.2.1
  simp only [dispatchCount, hnew, List.length_append] at this
  omega

/-- C1: if the first receipt-query result that is not an error with code
`DataNotExistCode` or `SystemBusyCode` is the `k`-th one, with
`k ≤ firstPollTime + secondPollTime`, then `GetTxReceiptByPolling` returns that
result with the flag `true` (a receipt and no error, or no receipt and the
error), having issued exactly `k` requests, all of them receipt queries; the
sleeps in between are `k - 1` tier-1 sleeps when `k ≤ firstPollTime` (tier 2 is
never entered), and `firstPollTime` tier-1 sleeps followed by tier-2 sleeps
otherwise. -/
theorem GetTxReceiptByPolling_resolves (env : Env) (rpc : RPC) (txHash : String)
    (isPrivateTx : Bool) (t : Trace) (k : Nat) (r : Option TxReceipt × Option StdError)
    (hc : distinctCodes env.codes) (hk1 : 1 ≤ k)
    (hk2 : k ≤ rpc.firstPollTime.toNat + rpc.secondPollTime.toNat)
    (hbusy : ∀ j, j + 1 < k →
      isTransient env.codes
        (queryResult env rpc (env.chPrefix txHash) isPrivateTx (dispatchCount t + j)) = true)
    (hres : queryResult env rpc (env.chPrefix txHash) isPrivateTx (dispatchCount t + (k - 1))
      = Res.ok r)
    (hdec : isTransient env.codes (Res.ok r) = false) :
    (GetTxReceiptByPolling env rpc txHash isPrivateTx t).1 = Res.ok (r.1, r.2, true)
      ∧ ((∃ receipt, r = (some receipt, none)) ∨ (∃ err, r = (none, some err)))
      ∧ (∃ new, dispatches (GetTxReceiptByPolling env rpc txHash isPrivateTx t).2
            = new ++ dispatches t
          ∧ new.length = k ∧ ∀ q ∈ new, q.Method = receiptMethod isPrivateTx)
      ∧ timeline (GetTxReceiptByPolling env rpc txHash isPrivateTx t).2
          = none :: pollRounds (millis rpc.secondPollInterval) (k - 1 - rpc.firstPollTime.toNat)
              (pollRounds (millis rpc.firstPollInterval) (min (k - 1) rpc.firstPollTime.toNat)
                (timeline t)) :=
  GetTxReceiptByPolling_hit env rpc txHash isPrivateTx t k r hc hk1 hk2 hbusy hres hdec

theorem GetTxReceiptByPolling_resolves_witness :
    (GetTxReceiptByPolling (benchEnv scenarioA) (benchRPC 1 10 10) "0xabc" false []).1
        = Res.ok (some ⟨"committed", "0xabc"⟩, none, true)
      ∧ timeline (GetTxReceiptByPolling (benchEnv scenarioA) (benchRPC 1 10 10) "0xabc" false []).2
        = [none, some 100000000, none, some 100000000, none, some 100000000, none] := by
  have h := GetTxReceiptByPolling_resolves (benchEnv scenarioA) (benchRPC 1 10 10) "0xabc"
    false [] 4 (some ⟨"committed", "0xabc"⟩, none) ⟨by decide, by decide⟩ (by decide)
    (by decide)
    (by
      intro j hj
      have hj3 : j < 3 := by omega
      interval_cases j <;> decide)
    (by decide) (by decide)
  exact ⟨h.1, h.2.2.2⟩

theorem GetTxReceiptByPolling_exhausted (env : Env) (rpc : RPC) (txHash : String)
    (isPrivateTx : Bool) (t : Trace) (hc : distinctCodes env.codes)
    (hq : ∀ j, j < rpc.firstPollTime.toNat + rpc.secondPollTime.toNat →
      isTransient env.codes
        (queryResult env rpc (env.chPrefix txHash) isPrivateTx (dispatchCount t + j)) = true) :
    ∃ t', GetTxReceiptByPolling env rpc txHash isPrivateTx t
        = (Res.ok (none, some (NewGetResponseError "polling failure"), false), t')
      ∧ dispatchCount t' = dispatchCount t + (rpc.firstPollTime.toNat + rpc.secondPollTime.toNat)
      ∧ timeline t' = pollRounds (millis rpc.secondPollInterval) rpc.secondPollTime.toNat
          (pollRounds (millis rpc.firstPollInterval) rpc.firstPollTime.toNat (timeline t))
      ∧ sleeps t' = List.replicate rpc.secondPollTime.toNat (millis rpc.secondPollInterval)
          ++ (List.replicate rpc.firstPollTime.toNat (millis rpc.firstPollInterval) ++ sleeps t) := by
  obtain ⟨t1, h1, h2, h3, h4⟩ := pollLoop_busy env rpc (env.chPrefix txHash) isPrivateTx
    rpc.firstPollInterval hc rpc.firstPollTime.toNat t (fun j hj => hq j (by omega))
  obtain ⟨t2, g1, g2, g3, g4⟩ := pollLoop_busy env rpc (env.chPrefix txHash) isPrivateTx
    rpc.secondPollInterval hc rpc.secondPollTime.toNat t1
    (fun j hj => by
      rw [h2, Nat.add_assoc]
      exact hq _ (by omega))
  refine ⟨t2, ?_, by rw [g2, h2]; omega, by rw [g3, h3], by rw [g4, h4]⟩
  unfold GetTxReceiptByPolling
  simp only [h1, g1]

/-- C6: `GetTxReceiptByPolling` returns exhausted (no receipt, the error
"polling failure", flag `false`) if and only if every one of its
`firstPollTime + secondPollTime` receipt queries fails with the code
`DataNotExistCode` or `SystemBusyCode`; this is the only result with the flag
`false`; and in that case it issued exactly `firstPollTime + secondPollTime`
requests, each tier-1 query followed by a sleep of `firstPollInterval` ms and
each tier-2 query by a sleep of `secondPollInterval` ms. -/
theorem GetTxReceiptByPolling_exhausted_iff (env : Env) (rpc : RPC) (txHash : String)
    (isPrivateTx : Bool) (t : Trace) (hc : distinctCodes env.codes) :
    ((GetTxReceiptByPolling env rpc txHash isPrivateTx t).1
          = Res.ok (none, some (NewGetResponseError "polling failure"), false)
        ↔ ∀ j, j < rpc.firstPollTime.toNat + rpc.secondPollTime.toNat →
            isTransient env.codes
              (queryResult env rpc (env.chPrefix txHash) isPrivateTx (dispatchCount t + j)) = true)
      ∧ (∀ receipt err,
          (GetTxReceiptByPolling env rpc txHash isPrivateTx t).1 = Res.ok (receipt, err, false) →
          receipt = none ∧ err = some (NewGetResponseError "polling failure"))
      ∧ ((GetTxReceiptByPolling env rpc txHash isPrivateTx t).1
            = Res.ok (none, some (NewGetResponseError "polling failure"), false) →
          dispatchCount (GetTxReceiptByPolling env rpc txHash isPrivateTx t).2
              = dispatchCount t + (rpc.firstPollTime.toNat + rpc.secondPollTime.toNat)
            ∧ timeline (GetTxReceiptByPolling env rpc txHash isPrivateTx t).2
              = pollRounds (millis rpc.secondPollInterval) rpc.secondPollTime.toNat
                  (pollRounds (millis rpc.firstPollInterval) rpc.firstPollTime.toNat
                    (timeline t))) := by
  have inv : ∀ receipt err,
      (GetTxReceiptByPolling env rpc txHash isPrivateTx t).1 = Res.ok (receipt, err, false) →
      (receipt = none ∧ err = some (NewGetResponseError "polling failure"))
        ∧ ∀ j, j < rpc.firstPollTime.toNat + rpc.secondPollTime.toNat →
            isTransient env.codes
              (queryResult env rpc (env.chPrefix txHash) isPrivateTx (dispatchCount t + j))
              = true := by
    intro receipt err h
    unfold GetTxReceiptByPolling at h
    simp only [] at h
    rcases h1 : pollLoop env rpc (env.chPrefix txHash) isPrivateTx rpc.firstPollInterval
      rpc.firstPollTime.toNat t with ⟨r1, t1⟩
    rw [h1] at h
    rcases r1 with (_ | ⟨x, y, flag⟩) | msg
    · simp only [] at h
      rcases h2 : pollLoop env rpc (env.chPrefix txHash) isPrivateTx rpc.secondPollInterval
        rpc.secondPollTime.toNat t1 with ⟨r2, t2⟩
      rw [h2] at h
      rcases r2 with (_ | ⟨x, y, flag⟩) | msg
      · simp only [Res.ok.injEq, Prod.mk.injEq, and_true] at h
        obtain ⟨a1, a2⟩ := pollLoop_none_inv env rpc _ isPrivateTx _ _ t t1 h1
        obtain ⟨b1, _⟩ := pollLoop_none_inv env rpc _ isPrivateTx _ _ t1 t2 h2
        refine ⟨⟨h.1.symm, h.2.symm⟩, ?_⟩
        intro j hj
        by_cases hjf : j < rpc.firstPollTime.toNat
        · exact a1 j hjf
        · have := b1 (j - rpc.firstPollTime.toNat) (by omega)
          rw [a2, Nat.add_assoc] at this
          have e : rpc.firstPollTime.toNat + (j - rpc.firstPollTime.toNat) = j := by omega
          rw [e] at this
          exact this
      · have hf := pollLoop_flag env rpc _ isPrivateTx _ _ t1 t2 x y flag h2
        subst hf
        simp at h
      · simp at h
    · have hf := pollLoop_flag env rpc _ isPrivateTx _ _ t t1 x y flag h1
      subst hf
      simp at h
    · simp at h
  refine ⟨⟨fun h => (inv _ _ h).2, fun h => ?_⟩, fun receipt err h => (inv receipt err h).1,
    fun h => ?_⟩
  · obtain ⟨t', h1, _⟩ := GetTxReceiptByPolling_exhausted env rpc txHash isPrivateTx t hc h
    rw [h1]
  · obtain ⟨t', h1, h2, h3, _⟩ :=
      GetTxReceiptByPolling_exhausted env rpc txHash isPrivateTx t hc (inv _ _ h).2
    rw [h1]
    exact ⟨h2, h3⟩

theorem GetTxReceiptByPolling_exhausted_iff_witness :
    (GetTxReceiptByPolling (benchEnv scenarioBusy) (benchRPC 1 2 1) "0xabc" false []).1
        = Res.ok (none, some (StdError.GetResponseError "polling failure"), false)
      ∧ timeline (GetTxReceiptByPolling (benchEnv scenarioBusy) (benchRPC 1 2 1) "0xabc" false []).2
        = [some 1000000000, none, some 100000000, none, some 100000000, none] := by
  have h := GetTxReceiptByPolling_exhausted_iff (benchEnv scenarioBusy) (benchRPC 1 2 1) "0xabc"
    false [] ⟨by decide, by decide⟩
  have h1 := h.1.mpr (by
    intro j hj
    have hj3 : j < 3 := hj
    interval_cases j <;> decide)
  exact ⟨h1, (h.2.2 h1).2⟩

/-! ## The resend loop -/

theorem jsonRPC_ok_frame (env : Env) (rpc : RPC) (method : String) (params : List Param)
    (t : Trace) (req : JSONRequest) (t0 : Trace)
    (h : jsonRPC env rpc method params t = (Res.ok req, t0)) :
    req.Method = method ∧ req.Params = params
      ∧ dispatches t0 = dispatches t ∧ timeline t0 = timeline t ∧ sleeps t0 = sleeps t := by
  cases hs : canStamp rpc with
  | false =>
    rw [jsonRPC_panic env rpc method params t hs] at h
    simp at h
  | true =>
    obtain ⟨req', t1, hj, h1, h2, h3, h4, h5⟩ := jsonRPC_ok env rpc method params t hs
    rw [hj] at h
    simp only [Prod.mk.injEq, Res.ok.injEq] at h
    obtain ⟨rfl, rfl⟩ := h
    exact ⟨h1, h2, h3, h4, h5⟩

theorem resendAttempt_of_error (env : Env) (rpc : RPC) (req : JSONRequest) (isPrivateTx : Bool)
    (hash : String) (t t1 : Trace) (data : String) (err : StdError)
    (hsub : callWithReq env req t = (Res.ok (data, some err), t1)) :
    resendAttempt env rpc req isPrivateTx hash t
      = (Res.ok (Flow.ret (none, some err), hash), t1) := by
  unfold resendAttempt
  rw [hsub]

theorem resendAttempt_of_poll (env : Env) (rpc : RPC) (req : JSONRequest) (isPrivateTx : Bool)
    (hash : String) (t t1 : Trace) (data : String)
    (hsub : callWithReq env req t = (Res.ok (data, none), t1))
    (hdec : ∀ cause, env.unmarshalString data ≠ Decoded.error cause) :
    resendAttempt env rpc req isPrivateTx hash t
      = match GetTxReceiptByPolling env rpc (handleOf env data hash) isPrivateTx t1 with
        | (Res.panic msg, t2) => (Res.panic msg, t2)
        | (Res.ok (txReceipt, innErr, true), t2) =>
          (Res.ok (Flow.ret (txReceipt, innErr), handleOf env data hash), t2)
        | (Res.ok (_, _, false), t2) => (Res.ok (Flow.cont, handleOf env data hash), t2) := by
  unfold resendAttempt handleOf
  rw [hsub]
  simp only []
  cases hu : env.unmarshalString data with
  | error cause => exact absurd hu (hdec cause)
  | null =>
    simp only []
    rcases GetTxReceiptByPolling env rpc hash isPrivateTx t1 with ⟨⟨x, y, flag⟩ | msg, t2⟩
    · cases flag <;> rfl
    · rfl
  | value h =>
    simp only []
    rcases GetTxReceiptByPolling env rpc h isPrivateTx t1 with ⟨⟨x, y, flag⟩ | msg, t2⟩
    · cases flag <;> rfl
    · rfl

/-- The statement after the `if ... else ...` of the resend loop, the sleep of
`firstPollInterval + secondPollInterval`, is never reached: the statement
before it always ends with `return` or `continue`. -/
theorem resendAttempt_never_falls (env : Env) (rpc : RPC) (req : JSONRequest)
    (isPrivateTx : Bool) (hash hash1 : String) (t : Trace) :
    (resendAttempt env rpc req isPrivateTx hash t).1 ≠ Res.ok (Flow.fall, hash1) := by
  unfold resendAttempt
  rcases callWithReq env req t with ⟨⟨data, err⟩ | msg, t1⟩
  · cases err with
    | some e => simp
    | none =>
      simp only []
      cases hu : env.unmarshalString data with
      | error cause => simp
      | null =>
        simp only []
        rcases GetTxReceiptByPolling env rpc hash isPrivateTx t1 with ⟨⟨x, y, flag⟩ | msg, t2⟩
        · cases flag <;> simp
        · simp
      | value h =>
        simp only []
        rcases GetTxReceiptByPolling env rpc h isPrivateTx t1 with ⟨⟨x, y, flag⟩ | msg, t2⟩
        · cases flag <;> simp
        · simp
  · simp

theorem resendLoop_of_attemptStart (env : Env) (rpc : RPC) (req : JSONRequest)
    (isPrivateTx : Bool) :
    ∀ (i n : Nat) (hash : String) (t : Trace) (hash' : String) (t' : Trace),
      attemptStart env rpc req isPrivateTx i hash t = some (hash', t') →
      resendLoop env rpc req isPrivateTx (i + n) hash t
        = resendLoop env rpc req isPrivateTx n hash' t' := by
  intro i
  induction i with
  | zero =>
    intro n hash t hash' t' h
    simp only [attemptStart, Option.some.injEq, Prod.mk.injEq] at h
    obtain ⟨rfl, rfl⟩ := h
    rw [Nat.zero_add]
  | succ i ih =>
    intro n hash t hash' t' h
    rw [attemptStart] at h
    rw [show i + 1 + n = (i + n) + 1 by omega, resendLoop]
    rcases ha : resendAttempt env rpc req isPrivateTx hash t with ⟨⟨fl, h1⟩ | msg, t1⟩
    · rw [ha] at h
      cases fl with
      | ret r => simp at h
      | cont => exact ih n h1 t1 hash' t' h
      | fall => simp at h
    · rw [ha] at h
      simp at h

/-- C2: when the poll of resend attempt `i` (any attempt within the budget,
reached because every earlier attempt ended with `continue`) reports resolved,
`CallByPolling` returns exactly the receipt and the error of that poll, and its
trace ends where that poll ended: nothing is submitted or queried afterwards. -/
theorem CallByPolling_returns_resolved (env : Env) (rpc : RPC) (method : String)
    (param : Param) (isPrivateTx : Bool) (t : Trace) (req : JSONRequest) (t0 : Trace)
    (i : Nat) (hash : String) (ti : Trace) (data : String) (t1 : Trace)
    (receipt : Option TxReceipt) (err : Option StdError) (t2 : Trace)
    (hreq : jsonRPC env rpc method [param] t = (Res.ok req, t0))
    (hi : i < rpc.resTime.toNat)
    (hstart : attemptStart env rpc req isPrivateTx i "" t0 = some (hash, ti))
    (hsub : callWithReq env req ti = (Res.ok (data, none), t1))
    (hdec : ∀ cause, env.unmarshalString data ≠ Decoded.error cause)
    (hpoll : GetTxReceiptByPolling env rpc (handleOf env data hash) isPrivateTx t1
      = (Res.ok (receipt, err, true), t2)) :
    CallByPolling env rpc method param isPrivateTx t = (Res.ok (receipt, err), t2) := by
  unfold CallByPolling
  rw [hreq]
  simp only []
  obtain ⟨m, hm⟩ : ∃ m, rpc.resTime.toNat = i + (m + 1) := ⟨rpc.resTime.toNat - i - 1, by omega⟩
  rw [hm, resendLoop_of_attemptStart env rpc req isPrivateTx i (m + 1) "" t0 hash ti hstart,
    resendLoop, resendAttempt_of_poll env rpc req isPrivateTx hash ti t1 data hsub hdec, hpoll]

theorem CallByPolling_returns_resolved_witness :
    CallByPolling (benchEnv scenarioC) (benchRPC 3 10 10) "tx_sendTransaction"
        (Param.value "tx") false []
      = (Res.ok (none, some (StdError.ServerError (-32002) "insufficient balance")),
          [Event.dispatch benchQuery, Event.dispatch benchSubmission]) :=
  CallByPolling_returns_resolved (benchEnv scenarioC) (benchRPC 3 10 10) "tx_sendTransaction"
    (Param.value "tx") false [] benchSubmission [] 0 "" [] "0xabc"
    [Event.dispatch benchSubmission] none
    (some (StdError.ServerError (-32002) "insufficient balance"))
    [Event.dispatch benchQuery, Event.dispatch benchSubmission]
    (by decide) (by decide) (by decide) (by decide)
    (by intro cause h; simp [benchEnv, benchString] at h) (by decide)

/-- C3: with a resend budget of at least one, when the first submission
dispatch is answered with a transport/system error, `CallByPolling` returns
that error and no receipt; the only event after the envelope was built is that
one dispatch, so there is one submission, no receipt query and no sleep. -/
theorem CallByPolling_aborts_on_dispatch_error (env : Env) (rpc : RPC) (method : String)
    (param : Param) (isPrivateTx : Bool) (t : Trace) (req : JSONRequest) (t0 : Trace)
    (e : StdError)
    (hreq : jsonRPC env rpc method [param] t = (Res.ok req, t0))
    (hbudget : 1 ≤ rpc.resTime)
    (hmar : marshalError req = none)
    (hfail : env.cluster (dispatchCount t0) = SyncResult.failure e) :
    CallByPolling env rpc method param isPrivateTx t
        = (Res.ok (none, some e), Event.dispatch req :: t0)
      ∧ dispatches (CallByPolling env rpc method param isPrivateTx t).2 = req :: dispatches t
      ∧ sleeps (CallByPolling env rpc method param isPrivateTx t).2 = sleeps t := by
  obtain ⟨_, _, hd, _, hs⟩ := jsonRPC_ok_frame env rpc method [param] t req t0 hreq
  have hsub : callWithReq env req t0 = (Res.ok ("", some e), Event.dispatch req :: t0) := by
    unfold callWithReq SyncRequest
    simp only [hmar, hfail]
  have main : CallByPolling env rpc method param isPrivateTx t
      = (Res.ok (none, some e), Event.dispatch req :: t0) := by
    unfold CallByPolling
    rw [hreq]
    simp only []
    obtain ⟨m, hm⟩ : ∃ m, rpc.resTime.toNat = m + 1 := ⟨rpc.resTime.toNat - 1, by omega⟩
    rw [hm, resendLoop, resendAttempt_of_error env rpc req isPrivateTx "" t0 _ "" e hsub]
  refine ⟨main, ?_, ?_⟩
  · rw [main]; simp [dispatches, hd]
  · rw [main]; simp [sleeps, hs]

theorem CallByPolling_aborts_on_dispatch_error_witness :
    CallByPolling (benchEnv scenarioRefused) (benchRPC 3 10 10) "tx_sendTransaction"
        (Param.value "tx") false []
      = (Res.ok (none, some (StdError.SystemError "connection refused")),
          [Event.dispatch benchSubmission]) :=
  (CallByPolling_aborts_on_dispatch_error (benchEnv scenarioRefused) (benchRPC 3 10 10)
    "tx_sendTransaction" (Param.value "tx") false [] benchSubmission []
    (StdError.SystemError "connection refused") (by decide) (by decide) (by decide)
    (by decide)).1

theorem callWithReq_accepted (env : Env) (req : JSONRequest) (t : Trace)
    (hmar : marshalError req = none) (hacc : submissionAccepted env (dispatchCount t)) :
    ∃ data, callWithReq env req t = (Res.ok (data, none), Event.dispatch req :: t)
      ∧ ∀ cause, env.unmarshalString data ≠ Decoded.error cause := by
  obtain ⟨body, resp, h1, h2, h3, h4⟩ := hacc
  refine ⟨resp.Result, ?_, h4⟩
  unfold callWithReq SyncRequest
  simp only [hmar, h1, h2, h3]
  simp

theorem countP_method_block (new old : List JSONRequest) (req : JSONRequest) (qm : String)
    (hall : ∀ r ∈ new, r.Method = qm) (hm : req.Method ≠ qm) :
    (new ++ req :: old).countP (fun r => decide (r.Method = req.Method))
        = old.countP (fun r => decide (r.Method = req.Method)) + 1
      ∧ (new ++ req :: old).countP (fun r => decide (r.Method = qm))
        = old.countP (fun r => decide (r.Method = qm)) + new.length := by
  constructor
  · rw [List.countP_append, List.countP_cons]
    have h0 : new.countP (fun r => decide (r.Method = req.Method)) = 0 := by
      rw [List.countP_eq_zero]
      intro r hr
      simp only [decide_eq_true_eq]
      rw [hall r hr]
      exact fun h => hm h.symm
    simp [h0]
  · rw [List.countP_append, List.countP_cons]
    have h1 : new.countP (fun r => decide (r.Method = qm)) = new.length := by
      rw [List.countP_eq_length]
      intro r hr
      simp only [decide_eq_true_eq]
      exact hall r hr
    simp [h1, hm]
    omega

theorem resendAttempt_exhausted (env : Env) (rpc : RPC) (req : JSONRequest)
    (isPrivateTx : Bool) (hash : String) (t : Trace) (hc : distinctCodes env.codes)
    (hmar : marshalError req = none) (hacc : submissionAccepted env (dispatchCount t))
    (hex : pollExhausts env rpc isPrivateTx (dispatchCount t + 1)) :
    ∃ hash1 t2 new, resendAttempt env rpc req isPrivateTx hash t = (Res.ok (Flow.cont, hash1), t2)
      ∧ dispatches t2 = new ++ req :: dispatches t
      ∧ new.length = rpc.firstPollTime.toNat + rpc.secondPollTime.toNat
      ∧ (∀ r ∈ new, r.Method = receiptMethod isPrivateTx)
      ∧ sleeps t2 = List.replicate rpc.secondPollTime.toNat (millis rpc.secondPollInterval)
          ++ (List.replicate rpc.firstPollTime.toNat (millis rpc.firstPollInterval) ++ sleeps t) := by
  obtain ⟨data, hsub, hdec⟩ := callWithReq_accepted env req t hmar hacc
  have hd1 : dispatchCount (Event.dispatch req :: t) = dispatchCount t + 1 := by
    simp [dispatchCount, dispatches]
  obtain ⟨t2, hp, hcount, _, hsl⟩ := GetTxReceiptByPolling_exhausted env rpc
    (handleOf env data hash) isPrivateTx (Event.dispatch req :: t) hc
    (fun j hj => by rw [hd1]; exact hex j hj _)
  obtain ⟨new, hnew, _, hmeth⟩ := GetTxReceiptByPolling_frame env rpc
    (handleOf env data hash) isPrivateTx (Event.dispatch req :: t)
  rw [hp] at hnew
  simp only [dispatches] at hnew
  refine ⟨handleOf env data hash, t2, new, ?_, hnew, ?_, hmeth, ?_⟩
  · rw [resendAttempt_of_poll env rpc req isPrivateTx hash t _ data hsub hdec, hp]
  · have := hcount
    simp only [dispatchCount, hnew, dispatches, List.length_append, List.length_cons] at this
    omega
  · rw [hsl]; rfl

theorem resendLoop_exhausted (env : Env) (rpc : RPC) (req : JSONRequest) (isPrivateTx : Bool)
    (hc : distinctCodes env.codes) (hmar : marshalError req = none) :
    ∀ (n : Nat) (hash : String) (t : Trace),
      (∀ a, a < n →
        submissionAccepted env
            (dispatchCount t + a * (rpc.firstPollTime.toNat + rpc.secondPollTime.toNat + 1))
          ∧ pollExhausts env rpc isPrivateTx
            (dispatchCount t + a * (rpc.firstPollTime.toNat + rpc.secondPollTime.toNat + 1) + 1)) →
      ∃ tf, resendLoop env rpc req isPrivateTx n hash t
          = (Res.ok (none, some (NewRequestTimeoutError "request time out")), tf)
        ∧ dispatchCount tf
            = dispatchCount t + n * (rpc.firstPollTime.toNat + rpc.secondPollTime.toNat + 1)
        ∧ (req.Method ≠ receiptMethod isPrivateTx →
            dispatchedWith req.Method tf = dispatchedWith req.Method t + n
              ∧ dispatchedWith (receiptMethod isPrivateTx) tf
                = dispatchedWith (receiptMethod isPrivateTx) t
                  + n * (rpc.firstPollTime.toNat + rpc.secondPollTime.toNat))
        ∧ sleeps tf = (fun l => List.replicate rpc.secondPollTime.toNat (millis rpc.secondPollInterval)
          ++ (List.replicate rpc.firstPollTime.toNat (millis rpc.firstPollInterval) ++ l))^[n]
            (sleeps t) := by
  intro n
  induction n with
  | zero =>
    intro hash t _
    exact ⟨t, by rw [resendLoop], by simp, fun _ => by simp, rfl⟩
  | succ n ih =>
    intro hash t hall
    obtain ⟨hacc, hex⟩ := hall 0 (Nat.succ_pos n)
    simp only [Nat.zero_mul, Nat.add_zero] at hacc hex
    obtain ⟨hash1, t2, new, hatt, hnew, hlen, hmeth, hsl⟩ :=
      resendAttempt_exhausted env rpc req isPrivateTx hash t hc hmar hacc hex
    have hdc : dispatchCount t2
        = dispatchCount t + (rpc.firstPollTime.toNat + rpc.secondPollTime.toNat + 1) := by
      simp only [dispatchCount, hnew, List.length_append, List.length_cons, hlen]
      omega
    obtain ⟨tf, h1, h2, h3, h4⟩ := ih hash1 t2 (by
      intro a ha
      have := hall (a + 1) (Nat.succ_lt_succ ha)
      have e : dispatchCount t2
            + a * (rpc.firstPollTime.toNat + rpc.secondPollTime.toNat + 1)
          = dispatchCount t
            + (a + 1) * (rpc.firstPollTime.toNat + rpc.secondPollTime.toNat + 1) := by
        rw [hdc]; ring
      rw [e]
      exact this)
    refine ⟨tf, ?_, ?_, fun hm => ?_, ?_⟩
    · rw [resendLoop, hatt]
      exact h1
    · rw [h2, hdc]; ring
    · obtain ⟨c1, c2⟩ := countP_method_block new (dispatches t) req (receiptMethod isPrivateTx)
        hmeth hm
      obtain ⟨g1, g2⟩ := h3 hm
      constructor
      · rw [g1]
        simp only [dispatchedWith, hnew, c1]
        omega
      · rw [g2]
        simp only [dispatchedWith, hnew, c2, hlen]
        ring
    · rw [h4, hsl, Function.iterate_succ_apply]

/-- C4: when the envelope serialises, every submission dispatch is answered
with a success envelope carrying a parseable handle, and the poll of every
attempt is exhausted, `CallByPolling` returns no receipt and the error
`RequestTimeout` after exactly `resTime * (1 + firstPollTime + secondPollTime)`
requests: exactly `resTime` submissions (requests with the method of the call)
and `resTime * (firstPollTime + secondPollTime)` receipt queries. -/
theorem CallByPolling_timeout_after_budget (env : Env) (rpc : RPC) (method : String)
    (param : Param) (isPrivateTx : Bool) (t : Trace) (req : JSONRequest) (t0 : Trace)
    (hreq : jsonRPC env rpc method [param] t = (Res.ok req, t0))
    (hc : distinctCodes env.codes) (hmar : marshalError req = none)
    (hall : ∀ a, a < rpc.resTime.toNat →
      submissionAccepted env
          (dispatchCount t + a * (rpc.firstPollTime.toNat + rpc.secondPollTime.toNat + 1))
        ∧ pollExhausts env rpc isPrivateTx
          (dispatchCount t + a * (rpc.firstPollTime.toNat + rpc.secondPollTime.toNat + 1) + 1)) :
    (CallByPolling env rpc method param isPrivateTx t).1
        = Res.ok (none, some (NewRequestTimeoutError "request time out"))
      ∧ dispatchCount (CallByPolling env rpc method param isPrivateTx t).2
        = dispatchCount t
          + rpc.resTime.toNat * (rpc.firstPollTime.toNat + rpc.secondPollTime.toNat + 1)
      ∧ (method ≠ receiptMethod isPrivateTx →
          dispatchedWith method (CallByPolling env rpc method param isPrivateTx t).2
              = dispatchedWith method t + rpc.resTime.toNat
            ∧ dispatchedWith (receiptMethod isPrivateTx)
                (CallByPolling env rpc method param isPrivateTx t).2
              = dispatchedWith (receiptMethod isPrivateTx) t
                + rpc.resTime.toNat * (rpc.firstPollTime.toNat + rpc.secondPollTime.toNat)) := by
  obtain ⟨hmeth, _, hd, _, _⟩ := jsonRPC_ok_frame env rpc method [param] t req t0 hreq
  have hdc : dispatchCount t0 = dispatchCount t := by simp only [dispatchCount, hd]
  obtain ⟨tf, h1, h2, h3, _⟩ := resendLoop_exhausted env rpc req isPrivateTx hc hmar
    rpc.resTime.toNat "" t0 (by rw [hdc]; exact hall)
  have hrun : CallByPolling env rpc method param isPrivateTx t
      = (Res.ok (none, some (NewRequestTimeoutError "request time out")), tf) := by
    unfold CallByPolling
    rw [hreq]
    exact h1
  rw [hrun]
  refine ⟨rfl, by rw [h2, hdc], fun hm => ?_⟩
  obtain ⟨g1, g2⟩ := h3 (by rw [hmeth]; exact hm)
  constructor
  · rw [← hmeth, g1]
    simp only [dispatchedWith, hd]
  · rw [g2]
    simp only [dispatchedWith, hd]

theorem CallByPolling_timeout_after_budget_witness :
    (CallByPolling (benchEnv scenarioB) (benchRPC 2 1 1) "tx_sendTransaction"
        (Param.value "tx") false []).1
        = Res.ok (none, some (StdError.RequestTimeoutError "request time out"))
      ∧ dispatchedWith "tx_sendTransaction"
          (CallByPolling (benchEnv scenarioB) (benchRPC 2 1 1) "tx_sendTransaction"
            (Param.value "tx") false []).2 = 2 := by
  have h := CallByPolling_timeout_after_budget (benchEnv scenarioB) (benchRPC 2 1 1)
    "tx_sendTransaction" (Param.value "tx") false [] benchSubmission [] (by decide)
    ⟨by decide, by decide⟩ (by decide)
    (by
      intro a ha
      have ha2 : a < 2 := ha
      have hq : ∀ n, n % 3 ≠ 0 → ∀ txHash,
          isTransient benchCodes (queryResult (benchEnv scenarioB) (benchRPC 2 1 1) txHash false n)
            = true := by
        intro n hn txHash
        simp [queryResult, GetTxReceipt, call, jsonRPC, benchRPC, callWithReq, marshalError,
          SyncRequest, benchEnv, scenarioB, dispatchCount_afterRequests, hn, benchResponse,
          SuccessCode, isTransient, transientCode, NewServerError, StdError.Code, benchCodes]
      interval_cases a
      · refine ⟨⟨"handle", ⟨0, "", "0xabc"⟩, by decide, by decide, by decide, ?_⟩, ?_⟩
        · intro cause h
          simp [benchEnv, benchString] at h
        · intro j hj txHash
          have hj2 : j < 2 := hj
          interval_cases j
          · exact hq 1 (by decide) txHash
          · exact hq 2 (by decide) txHash
      · refine ⟨⟨"handle", ⟨0, "", "0xabc"⟩, by decide, by decide, by decide, ?_⟩, ?_⟩
        · intro cause h
          simp [benchEnv, benchString] at h
        · intro j hj txHash
          have hj2 : j < 2 := hj
          interval_cases j
          · exact hq 4 (by decide) txHash
          · exact hq 5 (by decide) txHash)
  exact ⟨h.1, (h.2.2 (by decide)).1⟩

/-- C5 (the behaviour of the code): in a run with two resend attempts whose
polls are both exhausted, the only sleeps are those of the poll loops (100 ms
after the tier-1 query and 1000 ms after the tier-2 query of each attempt);
nothing happens between the end of the first poll and the second submission,
and no sleep of `firstPollInterval + secondPollInterval` = 1100 ms is ever made. -/
theorem CallByPolling_no_resend_sleep :
    timeline (CallByPolling (benchEnv scenarioB) (benchRPC 2 1 1) "tx_sendTransaction"
        (Param.value "tx") false []).2
        = [some 1000000000, none, some 100000000, none, none,
            some 1000000000, none, some 100000000, none, none]
      ∧ millis (100 + 1000) ∉ sleeps (CallByPolling (benchEnv scenarioB) (benchRPC 2 1 1)
          "tx_sendTransaction" (Param.value "tx") false []).2 := by
  decide

theorem callWithReq_dispatches (env : Env) (req : JSONRequest) (t : Trace) :
    (callWithReq env req t).2 = t ∨ (callWithReq env req t).2 = Event.dispatch req :: t := by
  cases hm : marshalError req with
  | some cause =>
    rw [callWithReq_marshal_fail env req t cause hm]
    exact Or.inl rfl
  | none => exact Or.inr (callWithReq_snd env req t hm)

/-- What one resend attempt dispatches: nothing (the envelope does not
serialise), or the envelope followed by at most `firstPollTime + secondPollTime`
receipt queries. -/
theorem resendAttempt_frame (env : Env) (rpc : RPC) (req : JSONRequest) (isPrivateTx : Bool)
    (hash : String) (t : Trace) :
    ∃ qs sub, dispatches (resendAttempt env rpc req isPrivateTx hash t).2
        = qs ++ (sub ++ dispatches t)
      ∧ (sub = [] ∨ sub = [req])
      ∧ qs.length ≤ rpc.firstPollTime.toNat + rpc.secondPollTime.toNat
      ∧ ∀ r ∈ qs, r.Method = receiptMethod isPrivateTx := by
  have hsub : ∃ sub, dispatches (callWithReq env req t).2 = sub ++ dispatches t
      ∧ (sub = [] ∨ sub = [req]) := by
    rcases callWithReq_dispatches env req t with h | h
    · exact ⟨[], by rw [h]; rfl, Or.inl rfl⟩
    · exact ⟨[req], by rw [h]; rfl, Or.inr rfl⟩
  obtain ⟨sub, hd, hs⟩ := hsub
  have base : ∀ x, dispatches x = sub ++ dispatches t →
      ∃ qs sub, dispatches x = qs ++ (sub ++ dispatches t)
        ∧ (sub = [] ∨ sub = [req])
        ∧ qs.length ≤ rpc.firstPollTime.toNat + rpc.secondPollTime.toNat
        ∧ ∀ r ∈ qs, r.Method = receiptMethod isPrivateTx :=
    fun x hx => ⟨[], sub, by rw [hx]; rfl, hs, Nat.zero_le _, by simp⟩
  have poll : ∀ h1 t1, dispatches t1 = sub ++ dispatches t →
      ∃ qs sub, dispatches (GetTxReceiptByPolling env rpc h1 isPrivateTx t1).2
          = qs ++ (sub ++ dispatches t)
        ∧ (sub = [] ∨ sub = [req])
        ∧ qs.length ≤ rpc.firstPollTime.toNat + rpc.secondPollTime.toNat
        ∧ ∀ r ∈ qs, r.Method = receiptMethod isPrivateTx := by
    intro h1 t1 ht1
    obtain ⟨qs, hq, hl, hm⟩ := GetTxReceiptByPolling_frame env rpc h1 isPrivateTx t1
    exact ⟨qs, sub, by rw [hq, ht1], hs, hl, hm⟩
  unfold resendAttempt
  rcases hc : callWithReq env req t with ⟨⟨data, err⟩ | msg, t1⟩
  · rw [hc] at hd
    simp only at hd
    cases err with
    | some e => exact base _ hd
    | none =>
      simp only []
      cases hu : env.unmarshalString data with
      | error cause => exact base _ hd
      | null =>
        simp only []
        have hp := poll hash t1 hd
        rcases hg : GetTxReceiptByPolling env rpc hash isPrivateTx t1 with
          ⟨⟨x, y, flag⟩ | msg, t2⟩
        · rw [hg] at hp
          cases flag <;> exact hp
        · rw [hg] at hp
          exact hp
      | value h =>
        simp only []
        have hp := poll h t1 hd
        rcases hg : GetTxReceiptByPolling env rpc h isPrivateTx t1 with
          ⟨⟨x, y, flag⟩ | msg, t2⟩
        · rw [hg] at hp
          cases flag <;> exact hp
        · rw [hg] at hp
          exact hp
  · rw [hc] at hd
    exact base _ hd

/-- What the resend loop dispatches in `n` iterations, whatever the cluster does. -/
theorem resendLoop_frame (env : Env) (rpc : RPC) (req : JSONRequest) (isPrivateTx : Bool) :
    ∀ (n : Nat) (hash : String) (t : Trace),
      ∃ new, dispatches (resendLoop env rpc req isPrivateTx n hash t).2 = new ++ dispatches t
        ∧ (∀ r ∈ new, r = req ∨ r.Method = receiptMethod isPrivateTx)
        ∧ new.length ≤ n * (1 + (rpc.firstPollTime.toNat + rpc.secondPollTime.toNat))
        ∧ (req.Method ≠ receiptMethod isPrivateTx →
            new.countP (fun r => decide (r.Method = req.Method)) ≤ n
              ∧ new.countP (fun r => decide (r.Method = receiptMethod isPrivateTx))
                ≤ n * (rpc.firstPollTime.toNat + rpc.secondPollTime.toNat)) := by
  intro n
  induction n with
  | zero =>
    intro hash t
    exact ⟨[], by rw [resendLoop]; rfl, by simp, by simp, fun _ => by simp⟩
  | succ n ih =>
    intro hash t
    obtain ⟨qs, sub, hd, hs, hl, hq⟩ := resendAttempt_frame env rpc req isPrivateTx hash t
    have hmem : ∀ r ∈ qs ++ sub, r = req ∨ r.Method = receiptMethod isPrivateTx := by
      intro r hr
      rcases List.mem_append.mp hr with h | h
      · exact Or.inr (hq r h)
      · rcases hs with rfl | rfl
        · simp at h
        · exact Or.inl (by simpa using h)
    have hlen : (qs ++ sub).length
        ≤ 1 + (rpc.firstPollTime.toNat + rpc.secondPollTime.toNat) := by
      rcases hs with rfl | rfl <;> simp <;> omega
    have hcnt : req.Method ≠ receiptMethod isPrivateTx →
        (qs ++ sub).countP (fun r => decide (r.Method = req.Method)) ≤ 1
          ∧ (qs ++ sub).countP (fun r => decide (r.Method = receiptMethod isPrivateTx))
            ≤ rpc.firstPollTime.toNat + rpc.secondPollTime.toNat := by
      intro hm
      have h0 : qs.countP (fun r => decide (r.Method = req.Method)) = 0 := by
        rw [List.countP_eq_zero]
        intro r hr
        simp only [decide_eq_true_eq]
        rw [hq r hr]
        exact fun h => hm h.symm
      have h1 : qs.countP (fun r => decide (r.Method = receiptMethod isPrivateTx))
          ≤ qs.length := List.countP_le_length _
      rcases hs with rfl | rfl
      · simp only [List.append_nil, h0]
        exact ⟨Nat.zero_le 1, by omega⟩
      · rw [List.countP_append, List.countP_append, h0]
        simp only [List.countP_cons, List.countP_nil, decide_True, hm, decide_False]
        simp
        omega
    have stop : ∀ x, dispatches x = qs ++ (sub ++ dispatches t) →
        ∃ new, dispatches x = new ++ dispatches t
          ∧ (∀ r ∈ new, r = req ∨ r.Method = receiptMethod isPrivateTx)
          ∧ new.length ≤ (n + 1) * (1 + (rpc.firstPollTime.toNat + rpc.secondPollTime.toNat))
          ∧ (req.Method ≠ receiptMethod isPrivateTx →
              new.countP (fun r => decide (r.Method = req.Method)) ≤ n + 1
                ∧ new.countP (fun r => decide (r.Method = receiptMethod isPrivateTx))
                  ≤ (n + 1) * (rpc.firstPollTime.toNat + rpc.secondPollTime.toNat)) := by
      intro x hx
      refine ⟨qs ++ sub, by rw [hx, List.append_assoc], hmem, ?_, fun hm => ?_⟩
      · rw [Nat.succ_mul]; omega
      · obtain ⟨c1, c2⟩ := hcnt hm
        exact ⟨by omega, by rw [Nat.succ_mul]; omega⟩
    rw [resendLoop]
    rcases ha : resendAttempt env rpc req isPrivateTx hash t with ⟨⟨fl, h1⟩ | msg, t1⟩
    · rw [ha] at hd
      simp only at hd
      cases fl with
      | ret r => exact stop _ hd
      | cont =>
        simp only []
        obtain ⟨new, hnew, hm2, hl2, hc2⟩ := ih h1 t1
        refine ⟨new ++ (qs ++ sub), by rw [hnew, hd]; simp, ?_, ?_, fun hm => ?_⟩
        · intro r hr
          rcases List.mem_append.mp hr with h | h
          · exact hm2 r h
          · exact hmem r h
        · rw [List.length_append, Nat.succ_mul]; omega
        · obtain ⟨c1, c2⟩ := hcnt hm
          obtain ⟨d1, d2⟩ := hc2 hm
          have e1 := List.countP_append (fun r : JSONRequest => decide (r.Method = req.Method))
            new (qs ++ sub)
          have e2 := List.countP_append
            (fun r : JSONRequest => decide (r.Method = receiptMethod isPrivateTx)) new (qs ++ sub)
          rw [e1, e2, Nat.succ_mul]
          exact ⟨by omega, by omega⟩
      | fall =>
        exfalso
        have := resendAttempt_never_falls env rpc req isPrivateTx hash h1 t
        rw [ha] at this
        exact this rfl
    · rw [ha] at hd
      exact stop _ hd

theorem CallByPolling_frame (env : Env) (rpc : RPC) (method : String) (param : Param)
    (isPrivateTx : Bool) (t : Trace) :
    (CallByPolling env rpc method param isPrivateTx t).2 = t
      ∨ ∃ req t0 new, jsonRPC env rpc method [param] t = (Res.ok req, t0)
          ∧ dispatches (CallByPolling env rpc method param isPrivateTx t).2 = new ++ dispatches t
          ∧ (∀ r ∈ new, r = req ∨ r.Method = receiptMethod isPrivateTx)
          ∧ new.length
              ≤ rpc.resTime.toNat * (1 + (rpc.firstPollTime.toNat + rpc.secondPollTime.toNat))
          ∧ (method ≠ receiptMethod isPrivateTx →
              new.countP (fun r => decide (r.Method = method)) ≤ rpc.resTime.toNat
                ∧ new.countP (fun r => decide (r.Method = receiptMethod isPrivateTx))
                  ≤ rpc.resTime.toNat
                    * (rpc.firstPollTime.toNat + rpc.secondPollTime.toNat)) := by
  cases hs : canStamp rpc with
  | false =>
    left
    unfold CallByPolling
    rw [jsonRPC_panic env rpc method [param] t hs]
  | true =>
    right
    obtain ⟨req, t0, hj, hm, _, hd, _, _⟩ := jsonRPC_ok env rpc method [param] t hs
    obtain ⟨new, hnew, h1, h2, h3⟩ :=
      resendLoop_frame env rpc req isPrivateTx rpc.resTime.toNat "" t0
    refine ⟨req, t0, new, hj, ?_, h1, h2, ?_⟩
    · unfold CallByPolling
      rw [hj]
      simp only []
      rw [hnew, hd]
    · intro hne
      rw [← hm] at hne ⊢
      exact h3 hne

/-- C7: the confirmation protocol is bounded.  `CallByPolling` is a total
function, so every call ends (by returning or by panicking), and for
non-negative counts it dispatches at most
`resTime * (1 + firstPollTime + secondPollTime)` requests whatever the cluster
answers: at most `resTime` submissions and at most
`resTime * (firstPollTime + secondPollTime)` receipt queries. -/
theorem CallByPolling_bounded (env : Env) (rpc : RPC) (method : String) (param : Param)
    (isPrivateTx : Bool) (t : Trace)
    (hr : 0 ≤ rpc.resTime) (hf : 0 ≤ rpc.firstPollTime) (hs : 0 ≤ rpc.secondPollTime) :
    (dispatchCount (CallByPolling env rpc method param isPrivateTx t).2 : Int)
        ≤ dispatchCount t + rpc.resTime * (1 + (rpc.firstPollTime + rpc.secondPollTime))
      ∧ (method ≠ receiptMethod isPrivateTx →
          (dispatchedWith method (CallByPolling env rpc method param isPrivateTx t).2 : Int)
              ≤ dispatchedWith method t + rpc.resTime
            ∧ (dispatchedWith (receiptMethod isPrivateTx)
                (CallByPolling env rpc method param isPrivateTx t).2 : Int)
              ≤ dispatchedWith (receiptMethod isPrivateTx) t
                + rpc.resTime * (rpc.firstPollTime + rpc.secondPollTime)) := by
  have cr : ((rpc.resTime.toNat : Nat) : Int) = rpc.resTime := Int.toNat_of_nonneg hr
  have cf : ((rpc.firstPollTime.toNat : Nat) : Int) = rpc.firstPollTime := Int.toNat_of_nonneg hf
  have cs : ((rpc.secondPollTime.toNat : Nat) : Int) = rpc.secondPollTime :=
    Int.toNat_of_nonneg hs
  have p1 : 0 ≤ rpc.resTime * (1 + (rpc.firstPollTime + rpc.secondPollTime)) :=
    Int.mul_nonneg hr (by omega)
  have p2 : 0 ≤ rpc.resTime * (rpc.firstPollTime + rpc.secondPollTime) :=
    Int.mul_nonneg hr (by omega)
  rcases CallByPolling_frame env rpc method param isPrivateTx t with h | ⟨req, t0, new, _, hd, _, hl, hc⟩
  · rw [h]
    exact ⟨by omega, fun _ => ⟨by omega, by omega⟩⟩
  · refine ⟨?_, fun hm => ?_⟩
    · have e : dispatchCount (CallByPolling env rpc method param isPrivateTx t).2
          = new.length + dispatchCount t := by
        simp only [dispatchCount, hd, List.length_append]
      have hl' : ((new.length : Nat) : Int)
          ≤ rpc.resTime * (1 + (rpc.firstPollTime + rpc.secondPollTime)) := by
        rw [← cr, ← cf, ← cs]
        exact_mod_cast hl
      rw [e]
      push_cast
      omega
    · obtain ⟨c1, c2⟩ := hc hm
      have e1 : dispatchedWith method (CallByPolling env rpc method param isPrivateTx t).2
          = new.countP (fun r => decide (r.Method = method)) + dispatchedWith method t := by
        simp only [dispatchedWith, hd, List.countP_append]
      have e2 : dispatchedWith (receiptMethod isPrivateTx)
            (CallByPolling env rpc method param isPrivateTx t).2
          = new.countP (fun r => decide (r.Method = receiptMethod isPrivateTx))
            + dispatchedWith (receiptMethod isPrivateTx) t := by
        simp only [dispatchedWith, hd, List.countP_append]
      have c1' : ((new.countP (fun r => decide (r.Method = method)) : Nat) : Int)
          ≤ rpc.resTime := by
        rw [← cr]
        exact_mod_cast c1
      have c2' : ((new.countP (fun r => decide (r.Method = receiptMethod isPrivateTx)) : Nat)
          : Int) ≤ rpc.resTime * (rpc.firstPollTime + rpc.secondPollTime) := by
        rw [← cr, ← cf, ← cs]
        exact_mod_cast c2
      rw [e1, e2]
      push_cast
      exact ⟨by omega, by omega⟩

theorem CallByPolling_bounded_witness :
    (dispatchCount (CallByPolling (benchEnv scenarioB) (benchRPC 2 1 1) "tx_sendTransaction"
        (Param.value "tx") false []).2 : Int) ≤ 0 + 2 * (1 + (1 + 1))
      ∧ (dispatchedWith "tx_sendTransaction" (CallByPolling (benchEnv scenarioB)
          (benchRPC 2 1 1) "tx_sendTransaction" (Param.value "tx") false []).2 : Int) ≤ 0 + 2
      ∧ (dispatchedWith "tx_getTransactionReceipt" (CallByPolling (benchEnv scenarioB)
          (benchRPC 2 1 1) "tx_sendTransaction" (Param.value "tx") false []).2 : Int)
          ≤ 0 + 2 * (1 + 1) := by
  have h := CallByPolling_bounded (benchEnv scenarioB) (benchRPC 2 1 1) "tx_sendTransaction"
    (Param.value "tx") false [] (by decide) (by decide) (by decide)
  exact ⟨h.1, h.2 (by decide)⟩

/-- C8: the envelope is built once, by the call of `jsonRPC` that precedes the
resend loop, and every request `CallByPolling` dispatches is either that very
envelope (method, namespace, parameters and authentication block with its
timestamp and signature unchanged) or a receipt query of a poll; so every
submission attempt dispatches the same envelope. -/
theorem CallByPolling_resends_same_envelope (env : Env) (rpc : RPC) (method : String)
    (param : Param) (isPrivateTx : Bool) (t : Trace) (req : JSONRequest) (t0 : Trace)
    (hreq : jsonRPC env rpc method [param] t = (Res.ok req, t0)) :
    ∃ new, dispatches (CallByPolling env rpc method param isPrivateTx t).2 = new ++ dispatches t
      ∧ (∀ r ∈ new, r = req ∨ r.Method = receiptMethod isPrivateTx)
      ∧ (method ≠ receiptMethod isPrivateTx → ∀ r ∈ new, r.Method = method → r = req) := by
  obtain ⟨_, _, hd, _, _⟩ := jsonRPC_ok_frame env rpc method [param] t req t0 hreq
  obtain ⟨new, hnew, h1, _, _⟩ :=
    resendLoop_frame env rpc req isPrivateTx rpc.resTime.toNat "" t0
  refine ⟨new, ?_, h1, ?_⟩
  · unfold CallByPolling
    rw [hreq]
    simp only []
    rw [hnew, hd]
  · intro hm r hr hrm
    rcases h1 r hr with h | h
    · exact h
    · exact absurd (hrm ▸ h) hm

theorem CallByPolling_resends_same_envelope_witness :
    (∃ new, dispatches (CallByPolling (benchEnv scenarioB) (benchAuthRPC 2 1 1)
          "tx_sendTransaction" (Param.value "tx") false []).2 = new ++ dispatches []
        ∧ (∀ r ∈ new, r = benchStampedSubmission ∨ r.Method = receiptMethod false)
        ∧ ("tx_sendTransaction" ≠ receiptMethod false →
            ∀ r ∈ new, r.Method = "tx_sendTransaction" → r = benchStampedSubmission))
      ∧ (dispatches (CallByPolling (benchEnv scenarioB) (benchAuthRPC 2 1 1)
          "tx_sendTransaction" (Param.value "tx") false []).2).map
            (fun r => (r.Method, r.Auth.map fun a => a.Timestamp))
        = [("tx_getTransactionReceipt", some 1004), ("tx_getTransactionReceipt", some 1003),
            ("tx_sendTransaction", some 1000),
            ("tx_getTransactionReceipt", some 1002), ("tx_getTransactionReceipt", some 1001),
            ("tx_sendTransaction", some 1000)] :=
  ⟨CallByPolling_resends_same_envelope (benchEnv scenarioB) (benchAuthRPC 2 1 1)
    "tx_sendTransaction" (Param.value "tx") false [] benchStampedSubmission
    [Event.sign "address=0x01&timestamp=0x3e8", Event.now] (by decide), by decide⟩

/-- Within the range of `int64` nanoseconds the duration of `x` milliseconds is
`1000000 * x`. -/
theorem millis_of_inRange (x : Int) (h1 : -9223372036854 ≤ x) (h2 : x ≤ 9223372036854) :
    millis x = 1000000 * x := by
  unfold millis wrapInt64
  omega

theorem sleeps_eq_timeline (t : Trace) : sleeps t = (timeline t).filterMap id := by
  induction t with
  | nil => rfl
  | cons ev t ih => cases ev <;> simp [sleeps, timeline, ih]

theorem canStamp_of_jsonRPC_ok (env : Env) (rpc : RPC) (method : String) (params : List Param)
    (t : Trace) (req : JSONRequest) (t0 : Trace)
    (h : jsonRPC env rpc method params t = (Res.ok req, t0)) : canStamp rpc = true := by
  cases hs : canStamp rpc with
  | false =>
    rw [jsonRPC_panic env rpc method params t hs] at h
    simp at h
  | true => rfl

theorem queryResult_of_failure (env : Env) (rpc : RPC) (txHash : String) (isPrivateTx : Bool)
    (n : Nat) (e : StdError) (hs : canStamp rpc = true)
    (hfail : env.cluster n = SyncResult.failure e) :
    queryResult env rpc txHash isPrivateTx n = Res.ok (none, some e) := by
  obtain ⟨req, t1, hj, _, hp, hd, _, _⟩ := jsonRPC_ok env rpc (receiptMethod isPrivateTx)
    [Param.str (env.chPrefix txHash)] (afterRequests n) hs
  have hn : dispatchCount t1 = n := by
    simp only [dispatchCount, hd]
    exact dispatchCount_afterRequests n
  unfold queryResult GetTxReceipt call
  simp only [hj]
  unfold callWithReq SyncRequest
  simp only [marshalError_str req _ hp, hn, hfail]

/-- A dispatcher error returned by a receipt query is classified by its code
like any other error.  When its code is neither
`DataNotExistCode` nor `SystemBusyCode` and it answers the first receipt query
after an accepted submission, `CallByPolling` returns that error at once: two
requests in all (the submission and that query), no sleep, no resend and no
`RequestTimeout`. -/
theorem CallByPolling_dispatcher_error_in_poll (env : Env) (rpc : RPC) (method : String)
    (param : Param) (isPrivateTx : Bool) (t : Trace) (req : JSONRequest) (t0 : Trace)
    (e : StdError)
    (hreq : jsonRPC env rpc method [param] t = (Res.ok req, t0))
    (hc : distinctCodes env.codes) (hmar : marshalError req = none)
    (hbudget : 1 ≤ rpc.resTime)
    (hcount : 1 ≤ rpc.firstPollTime.toNat + rpc.secondPollTime.toNat)
    (hacc : submissionAccepted env (dispatchCount t))
    (hfail : env.cluster (dispatchCount t + 1) = SyncResult.failure e)
    (hcode : transientCode env.codes e = false) :
    (CallByPolling env rpc method param isPrivateTx t).1 = Res.ok (none, some e)
      ∧ dispatchCount (CallByPolling env rpc method param isPrivateTx t).2 = dispatchCount t + 2
      ∧ sleeps (CallByPolling env rpc method param isPrivateTx t).2 = sleeps t := by
  obtain ⟨_, _, hd, htl, hsl⟩ := jsonRPC_ok_frame env rpc method [param] t req t0 hreq
  have hdc : dispatchCount t0 = dispatchCount t := by simp only [dispatchCount, hd]
  have hs := canStamp_of_jsonRPC_ok env rpc method [param] t req t0 hreq
  obtain ⟨data, hsub, hdec⟩ := callWithReq_accepted env req t0 hmar (by rw [hdc]; exact hacc)
  have hd1 : dispatchCount (Event.dispatch req :: t0) = dispatchCount t + 1 := by
    simp [dispatchCount, dispatches, hd]
  obtain ⟨hp1, _, ⟨new, hnew, hlen, _⟩, hp4⟩ := GetTxReceiptByPolling_hit env rpc (handleOf env data "")
    isPrivateTx (Event.dispatch req :: t0) 1 (none, some e) hc (Nat.le_refl 1) hcount
    (fun j hj => absurd hj (by omega))
    (by
      rw [hd1]
      exact queryResult_of_failure env rpc _ isPrivateTx _ e hs hfail)
    (by simpa [isTransient] using hcode)
  rcases hg : GetTxReceiptByPolling env rpc (handleOf env data "") isPrivateTx
    (Event.dispatch req :: t0) with ⟨pr, t2⟩
  rw [hg] at hp1 hp4 hnew
  simp only at hp1 hp4 hnew
  subst hp1
  have hrun : CallByPolling env rpc method param isPrivateTx t = (Res.ok (none, some e), t2) := by
    unfold CallByPolling
    rw [hreq]
    simp only []
    obtain ⟨m, hm⟩ : ∃ m, rpc.resTime.toNat = m + 1 := ⟨rpc.resTime.toNat - 1, by omega⟩
    rw [hm, resendLoop, resendAttempt_of_poll env rpc req isPrivateTx "" t0 _ data hsub hdec, hg]
  rw [hrun]
  simp only [Nat.sub_self, Nat.zero_sub, pollRounds, Function.iterate_zero, id_eq,
    Nat.zero_min, timeline, htl] at hp4
  refine ⟨rfl, ?_, ?_⟩
  · simp only [dispatchCount, hnew, dispatches, hd, List.length_append, List.length_cons, hlen]
    omega
  · rw [sleeps_eq_timeline t2, hp4, sleeps_eq_timeline t]
    simp

theorem CallByPolling_dispatcher_error_in_poll_witness :
    (CallByPolling (benchEnv scenarioUnreachable) (benchRPC 3 10 10) "tx_sendTransaction"
        (Param.value "tx") false []).1
        = Res.ok (none, some (StdError.SystemError "connection refused"))
      ∧ dispatchCount (CallByPolling (benchEnv scenarioUnreachable) (benchRPC 3 10 10)
          "tx_sendTransaction" (Param.value "tx") false []).2 = 0 + 2
      ∧ sleeps (CallByPolling (benchEnv scenarioUnreachable) (benchRPC 3 10 10)
          "tx_sendTransaction" (Param.value "tx") false []).2 = sleeps [] :=
  CallByPolling_dispatcher_error_in_poll (benchEnv scenarioUnreachable) (benchRPC 3 10 10)
    "tx_sendTransaction" (Param.value "tx") false [] benchSubmission []
    (StdError.SystemError "connection refused") (by decide) ⟨by decide, by decide⟩ (by decide)
    (by decide) (by decide)
    ⟨"handle", ⟨0, "", "0xabc"⟩, by decide, by decide, by decide,
      by intro cause h; simp [benchEnv, benchString] at h⟩
    (by decide) (by decide)

/-- C9 (the behaviour of the code): against a cluster that accepts the
submission and then answers every receipt query with a transport failure, an
error whose code is the system-error code `-9999`, the poll does not keep
polling: it returns resolved after its first query, without a sleep, and
`CallByPolling` (budget 3, ten queries per tier) returns that system error after
two requests instead of `RequestTimeout`. -/
theorem polling_dispatcher_error_counterexample :
    (∀ n, 1 ≤ n →
        scenarioUnreachable n = SyncResult.failure (StdError.SystemError "connection refused"))
      ∧ (StdError.SystemError "connection refused").Code (benchEnv scenarioUnreachable).codes
        = -9999
      ∧ GetTxReceiptByPolling (benchEnv scenarioUnreachable) (benchRPC 3 10 10) "0xabc" false
          [Event.dispatch benchSubmission]
        = (Res.ok (none, some (StdError.SystemError "connection refused"), true),
            [Event.dispatch benchQuery, Event.dispatch benchSubmission])
      ∧ CallByPolling (benchEnv scenarioUnreachable) (benchRPC 3 10 10) "tx_sendTransaction"
          (Param.value "tx") false []
        = (Res.ok (none, some (StdError.SystemError "connection refused")),
            [Event.dispatch benchQuery, Event.dispatch benchSubmission])
      ∧ (CallByPolling (benchEnv scenarioUnreachable) (benchRPC 3 10 10) "tx_sendTransaction"
          (Param.value "tx") false []).1
        ≠ Res.ok (none, some (NewRequestTimeoutError "request time out")) := by
  refine ⟨?_, by decide, by decide, by decide, by decide⟩
  intro n hn
  have h0 : n ≠ 0 := by omega
  simp [scenarioUnreachable, h0]

theorem pollLoop_error_code (env : Env) (rpc : RPC) (txHash : String) (isPrivateTx : Bool)
    (interval : Int) :
    ∀ (n : Nat) (t t' : Trace) (receipt : Option TxReceipt) (e : StdError) (flag : Bool),
      pollLoop env rpc txHash isPrivateTx interval n t = (Res.ok (some (receipt, some e, flag)), t') →
      e.Code env.codes = env.codes.BalanceInsufficientCode ∨ transientCode env.codes e = false := by
  intro n
  induction n with
  | zero =>
    intro t t' receipt e flag h
    rw [pollLoop] at h
    simp at h
  | succ n ih =>
    intro t t' receipt e flag h
    rw [pollLoop] at h
    rcases hg : GetTxReceipt env rpc txHash isPrivateTx t with ⟨⟨rc, err⟩ | msg, t1⟩
    · rw [hg] at h
      cases err with
      | none => simp at h
      | some e0 =>
        simp only [] at h
        by_cases hb : StdError.Code env.codes e0 = env.codes.BalanceInsufficientCode
        · rw [if_pos hb] at h
          simp only [Prod.mk.injEq, Res.ok.injEq, Option.some.injEq] at h
          obtain ⟨⟨_, rfl, _⟩, _⟩ := h
          exact Or.inl hb
        · rw [if_neg hb] at h
          by_cases hn : StdError.Code env.codes e0 ≠ env.codes.DataNotExistCode
              ∧ StdError.Code env.codes e0 ≠ env.codes.SystemBusyCode
          · rw [if_pos hn] at h
            simp only [Prod.mk.injEq, Res.ok.injEq, Option.some.injEq] at h
            obtain ⟨⟨_, rfl, _⟩, _⟩ := h
            right
            simp only [transientCode, Bool.or_eq_false_iff, decide_eq_false_iff_not]
            exact hn
          · rw [if_neg hn] at h
            exact ih _ t' receipt e flag h
    · rw [hg] at h
      simp at h

theorem GetTxReceiptByPolling_error_code (env : Env) (rpc : RPC) (txHash : String)
    (isPrivateTx : Bool) (t t' : Trace) (receipt : Option TxReceipt) (e : StdError)
    (h : GetTxReceiptByPolling env rpc txHash isPrivateTx t
      = (Res.ok (receipt, some e, true), t')) :
    e.Code env.codes = env.codes.BalanceInsufficientCode ∨ transientCode env.codes e = false := by
  unfold GetTxReceiptByPolling at h
  simp only [] at h
  rcases h1 : pollLoop env rpc (env.chPrefix txHash) isPrivateTx rpc.firstPollInterval
    rpc.firstPollTime.toNat t with ⟨r1, t1⟩
  rw [h1] at h
  rcases r1 with (_ | ⟨x, y, flag⟩) | msg
  · simp only [] at h
    rcases h2 : pollLoop env rpc (env.chPrefix txHash) isPrivateTx rpc.secondPollInterval
      rpc.secondPollTime.toNat t1 with ⟨r2, t2⟩
    rw [h2] at h
    rcases r2 with (_ | ⟨x, y, flag⟩) | msg
    · simp at h
    · simp only [Prod.mk.injEq, Res.ok.injEq] at h
      obtain ⟨⟨_, rfl, _⟩, _⟩ := h
      exact pollLoop_error_code env rpc _ isPrivateTx _ _ t1 t2 x e flag h2
    · simp at h
  · simp only [Prod.mk.injEq, Res.ok.injEq] at h
    obtain ⟨⟨_, rfl, _⟩, _⟩ := h
    exact pollLoop_error_code env rpc _ isPrivateTx _ _ t t1 x e flag h1
  · simp at h

/-- Where an error returned by the resend loop comes from. -/
theorem resendLoop_error_origin (env : Env) (rpc : RPC) (req : JSONRequest)
    (isPrivateTx : Bool) :
    ∀ (n : Nat) (hash : String) (t tf : Trace) (receipt : Option TxReceipt) (e : StdError),
      resendLoop env rpc req isPrivateTx n hash t = (Res.ok (receipt, some e), tf) →
      (receipt = none ∧ ∃ t' data, callWithReq env req t' = (Res.ok (data, some e), tf))
        ∨ (∃ cause, e = NewSystemError cause)
        ∨ (e.Code env.codes = env.codes.BalanceInsufficientCode
            ∨ transientCode env.codes e = false)
        ∨ e = NewRequestTimeoutError "request time out" := by
  intro n
  induction n with
  | zero =>
    intro hash t tf receipt e h
    rw [resendLoop] at h
    simp only [Prod.mk.injEq, Res.ok.injEq, Option.some.injEq] at h
    exact Or.inr (Or.inr (Or.inr h.1.2.symm))
  | succ n ih =>
    intro hash t tf receipt e h
    rw [resendLoop] at h
    unfold resendAttempt at h
    rcases hc : callWithReq env req t with ⟨⟨data, err⟩ | msg, t1⟩
    · rw [hc] at h
      cases err with
      | some e0 =>
        simp only [Prod.mk.injEq, Res.ok.injEq, Option.some.injEq] at h
        obtain ⟨⟨rfl, rfl⟩, rfl⟩ := h
        exact Or.inl ⟨rfl, t, data, hc⟩
      | none =>
        simp only [] at h
        cases hu : env.unmarshalString data with
        | error cause =>
          rw [hu] at h
          simp only [Prod.mk.injEq, Res.ok.injEq, Option.some.injEq] at h
          exact Or.inr (Or.inl ⟨cause, h.1.2.symm⟩)
        | null =>
          rw [hu] at h
          simp only [] at h
          rcases hg : GetTxReceiptByPolling env rpc hash isPrivateTx t1 with
            ⟨⟨x, y, flag⟩ | msg, t2⟩
          · rw [hg] at h
            cases flag with
            | true =>
              simp only [if_true, Prod.mk.injEq, Res.ok.injEq] at h
              obtain ⟨⟨rfl, rfl⟩, rfl⟩ := h
              exact Or.inr (Or.inr (Or.inl
                (GetTxReceiptByPolling_error_code env rpc hash isPrivateTx t1 _ _ e hg)))
            | false =>
              simp only [Bool.false_eq_true, if_false] at h
              exact ih _ _ tf receipt e h
          · rw [hg] at h
            simp at h
        | value hv =>
          rw [hu] at h
          simp only [] at h
          rcases hg : GetTxReceiptByPolling env rpc hv isPrivateTx t1 with
            ⟨⟨x, y, flag⟩ | msg, t2⟩
          · rw [hg] at h
            cases flag with
            | true =>
              simp only [if_true, Prod.mk.injEq, Res.ok.injEq] at h
              obtain ⟨⟨rfl, rfl⟩, rfl⟩ := h
              exact Or.inr (Or.inr (Or.inl
                (GetTxReceiptByPolling_error_code env rpc hv isPrivateTx t1 _ _ e hg)))
            | false =>
              simp only [Bool.false_eq_true, if_false] at h
              exact ih _ _ tf receipt e h
          · rw [hg] at h
            simp at h
    · rw [hc] at h
      simp at h

/-- Errors of receipt queries that carry `DataNotExistCode` or `SystemBusyCode`
are absorbed by the poll and never returned by `CallByPolling`; the error of a
submission dispatch is returned unchanged, whatever its code.  So whenever `CallByPolling` returns a server error with one
of the two transient codes, there is no receipt and that error is what
`callWithReq` returned for the submission envelope, as the last step of the
call. -/
theorem CallByPolling_transient_error_origin (env : Env) (rpc : RPC) (method : String)
    (param : Param) (isPrivateTx : Bool) (t : Trace) (receipt : Option TxReceipt)
    (code : Int) (message : String) (hc : distinctCodes env.codes)
    (hret : (CallByPolling env rpc method param isPrivateTx t).1
      = Res.ok (receipt, some (NewServerError code message)))
    (hcode : code = env.codes.DataNotExistCode ∨ code = env.codes.SystemBusyCode) :
    receipt = none
      ∧ ∃ req t0 t' data, jsonRPC env rpc method [param] t = (Res.ok req, t0)
          ∧ callWithReq env req t'
            = (Res.ok (data, some (NewServerError code message)),
                (CallByPolling env rpc method param isPrivateTx t).2) := by
  unfold CallByPolling at hret ⊢
  rcases hj : jsonRPC env rpc method [param] t with ⟨req | msg, t0⟩
  · rw [hj] at hret
    simp only [] at hret ⊢
    rcases hl : resendLoop env rpc req isPrivateTx rpc.resTime.toNat "" t0 with ⟨res, tf⟩
    rw [hl] at hret
    simp only at hret
    subst hret
    rcases resendLoop_error_origin env rpc req isPrivateTx _ _ _ _ _ _ hl with
      ⟨hnone, t', data, hcw⟩ | ⟨cause, hsys⟩ | hpoll | htime
    · exact ⟨hnone, req, t0, t', data, rfl, hcw⟩
    · simp [NewServerError, NewSystemError] at hsys
    · exfalso
      simp only [NewServerError, StdError.Code, transientCode, Bool.or_eq_false_iff,
        decide_eq_false_iff_not] at hpoll
      rcases hpoll with hb | ⟨h1, h2⟩
      · rcases hcode with h | h
        · exact hc.1 (hb ▸ h)
        · exact hc.2 (hb ▸ h)
      · rcases hcode with h | h
        · exact h1 h
        · exact h2 h
    · simp [NewServerError, NewRequestTimeoutError] at htime
  · rw [hj] at hret
    simp at hret

theorem CallByPolling_transient_error_origin_witness :
    (none : Option TxReceipt) = none
      ∧ ∃ req t0 t' data,
          jsonRPC (benchEnv scenarioBusy) (benchRPC 3 10 10) "tx_sendTransaction"
              [Param.value "tx"] [] = (Res.ok req, t0)
          ∧ callWithReq (benchEnv scenarioBusy) req t'
            = (Res.ok (data, some (NewServerError (-32006) "system busy")),
                (CallByPolling (benchEnv scenarioBusy) (benchRPC 3 10 10) "tx_sendTransaction"
                  (Param.value "tx") false []).2) :=
  CallByPolling_transient_error_origin (benchEnv scenarioBusy) (benchRPC 3 10 10)
    "tx_sendTransaction" (Param.value "tx") false [] none (-32006) "system busy"
    ⟨by decide, by decide⟩ (by decide) (Or.inr (by decide))

/-- C10 (the behaviour of the code): when the cluster answers the first
submission with the code `SystemBusyCode`, `CallByPolling` (budget 3) returns
that server error to the caller after a single request, with no sleep and no
resend, not `RequestTimeout`; likewise for the code `DataNotExistCode`. -/
theorem CallByPolling_surfaces_busy_submission :
    CallByPolling (benchEnv scenarioBusy) (benchRPC 3 10 10) "tx_sendTransaction"
        (Param.value "tx") false []
        = (Res.ok (none, some (StdError.ServerError (-32006) "system busy")),
            [Event.dispatch benchSubmission])
      ∧ (benchEnv scenarioBusy).codes.SystemBusyCode = -32006
      ∧ CallByPolling (benchEnv (fun _ => SyncResult.data "notexist")) (benchRPC 3 10 10)
          "tx_sendTransaction" (Param.value "tx") false []
        = (Res.ok (none, some (StdError.ServerError (-32001) "not found")),
            [Event.dispatch benchSubmission])
      ∧ (benchEnv scenarioBusy).codes.DataNotExistCode = -32001 := by
  decide

/-! ## The dispatcher -/

/-- C11: `callWithReq` classifies a decoded response envelope by its code.  When
the code is the success sentinel 0 it returns the raw result of the envelope and
no error; for any other code it returns no result and the server error built
from exactly the code and the message of the response, whose `Code()` is that
code. -/
theorem callWithReq_classifies (env : Env) (req : JSONRequest) (t : Trace) (body : String)
    (resp : JSONResponse) (hmar : marshalError req = none)
    (hans : env.cluster (dispatchCount t) = SyncResult.data body)
    (hdec : env.unmarshalResponse body = Decoded.value resp) :
    (resp.Code = 0 →
        callWithReq env req t = (Res.ok (resp.Result, none), Event.dispatch req :: t))
      ∧ (resp.Code ≠ 0 →
          callWithReq env req t
              = (Res.ok ("", some (NewServerError resp.Code resp.Message)), Event.dispatch req :: t)
            ∧ NewServerError resp.Code resp.Message = StdError.ServerError resp.Code resp.Message
            ∧ (NewServerError resp.Code resp.Message).Code env.codes = resp.Code) := by
  constructor
  · intro h
    unfold callWithReq SyncRequest
    simp only [hmar, hans, hdec, h, SuccessCode]
    simp
  · intro h
    refine ⟨?_, rfl, rfl⟩
    unfold callWithReq SyncRequest
    simp only [hmar, hans, hdec, SuccessCode]
    simp [h]

theorem callWithReq_classifies_witness :
    callWithReq (benchEnv scenarioReceipt) benchSubmission []
        = (Res.ok ("committed", none), [Event.dispatch benchSubmission])
      ∧ callWithReq (benchEnv scenarioBusy) benchSubmission []
        = (Res.ok ("", some (NewServerError (-32006) "system busy")),
            [Event.dispatch benchSubmission]) :=
  ⟨(callWithReq_classifies (benchEnv scenarioReceipt) benchSubmission [] "receipt"
      ⟨0, "", "committed"⟩ (by decide) (by decide) (by decide)).1 (by decide),
    ((callWithReq_classifies (benchEnv scenarioBusy) benchSubmission [] "busy"
      ⟨-32006, "system busy", ""⟩ (by decide) (by decide) (by decide)).2 (by decide)).1⟩

/-- A response body that `json.Unmarshal` rejects yields a system error wrapping
the cause, on both dispatch paths. -/
theorem callWithReq_of_malformed (env : Env) (req : JSONRequest) (t : Trace) (body cause : String)
    (hmar : marshalError req = none)
    (hans : env.cluster (dispatchCount t) = SyncResult.data body)
    (hdec : env.unmarshalResponse body = Decoded.error cause) :
    callWithReq env req t = (Res.ok ("", some (NewSystemError cause)), Event.dispatch req :: t) := by
  unfold callWithReq SyncRequest
  simp only [hmar, hans, hdec]

/-- C12 (the behaviour of the code): when the response body is the JSON literal
`null`, `json.Unmarshal` reports no error and leaves the response pointer nil,
and both `callWithReq` and `callWithSpecificURL` then panic on `resp.Code`
instead of returning a system error. -/
theorem callWithReq_null_body_panics :
    callWithReq (benchEnv scenarioNull) benchSubmission []
        = (Res.panic nilDeref, [Event.dispatch benchSubmission])
      ∧ callWithSpecificURL (benchEnv scenarioNull) (benchRPC 1 1 1) "node_getNodeHash"
          "http://localhost:8081" [] []
        = (Res.panic nilDeref, [Event.dispatch benchNodeHash]) := by
  decide

/-! ## The request authenticator -/

/-- C16: every envelope built by `jsonRPC` carries the namespace of the client,
the given method and the given parameters in order.  With the inspector
disabled it carries no authentication block and the clock is not read; with the
inspector enabled it carries one block whose address is the address of the
configured key and whose timestamp is the one clock reading made while
building. -/
theorem jsonRPC_envelope (env : Env) (rpc : RPC) (method : String) (params : List Param)
    (t : Trace) (im : inspectorManager) (him : rpc.im = some im)
    (hkey : im.enable = true → ∃ key, im.key = some key) :
    ∃ req t1, jsonRPC env rpc method params t = (Res.ok req, t1)
      ∧ req.Namespace = rpc.namespace_ ∧ req.Method = method ∧ req.Params = params
      ∧ (im.enable = false → req.Auth = none ∧ t1 = t)
      ∧ (im.enable = true → ∃ key auth, im.key = some key ∧ req.Auth = some auth
          ∧ auth.Address = key.GetAddress ∧ auth.Timestamp = env.clock (clockReads t)
          ∧ clockReads t1 = clockReads t + 1) := by
  unfold jsonRPC
  simp only [him]
  cases hen : im.enable with
  | false =>
    simp only [Bool.false_eq_true, if_false]
    exact ⟨_, t, rfl, rfl, rfl, rfl, fun _ => ⟨rfl, rfl⟩, fun h => by simp at h⟩
  | true =>
    obtain ⟨key, hk⟩ := hkey hen
    simp only [hk, if_true]
    refine ⟨_, _, rfl, rfl, rfl, rfl, fun h => by simp at h, fun _ => ?_⟩
    refine ⟨key, _, rfl, rfl, rfl, rfl, ?_⟩
    cases (env.signer (signCalls (Event.now :: t)) key _).2 <;> rfl

theorem jsonRPC_envelope_witness :
    ∃ req t1, jsonRPC (benchEnv scenarioB) (benchAuthRPC 1 1 1) "tx_sendTransaction"
        [Param.value "tx"] [] = (Res.ok req, t1)
      ∧ req.Namespace = "global" ∧ req.Method = "tx_sendTransaction"
      ∧ req.Params = [Param.value "tx"]
      ∧ ∃ key auth, (some (⟨⟨"0x01"⟩, "secret"⟩ : Key)) = some key ∧ req.Auth = some auth
          ∧ auth.Address = key.GetAddress ∧ auth.Timestamp = 1000
          ∧ clockReads t1 = 0 + 1 := by
  obtain ⟨req, t1, h1, h2, h3, h4, _, h6⟩ := jsonRPC_envelope (benchEnv scenarioB)
    (benchAuthRPC 1 1 1) "tx_sendTransaction" [Param.value "tx"] []
    ⟨true, some ⟨⟨"0x01"⟩, "secret"⟩⟩ rfl (fun _ => ⟨_, rfl⟩)
  exact ⟨req, t1, h1, h2, h3, h4, h6 rfl⟩

/-- C17 (as amended): when the inspector is enabled and signing the
authentication string fails, `jsonRPC` logs the failure, surfaces no error, and
returns an envelope that still carries the authentication block: the address of
the key, the clock reading, and as signature whatever `sign` handed back with
its error. -/
theorem jsonRPC_sign_failure (env : Env) (rpc : RPC) (method : String) (params : List Param)
    (t : Trace) (im : inspectorManager) (key : Key) (sig cause : String)
    (him : rpc.im = some im) (hen : im.enable = true) (hk : im.key = some key)
    (hsign : env.signer (signCalls t)
        key (authNeedHash ⟨key.GetAddress, env.clock (clockReads t), ""⟩)
      = (sig, some cause)) :
    jsonRPC env rpc method params t
      = (Res.ok { Method := method, Version := env.JSONRPCVersion, ID := 1,
                  Namespace := rpc.namespace_, Params := params,
                  Auth := some ⟨key.GetAddress, env.clock (clockReads t), sig⟩ },
          Event.logError "sign auth fail"
            :: Event.sign (authNeedHash ⟨key.GetAddress, env.clock (clockReads t), ""⟩)
            :: Event.now :: t) := by
  have hs : signCalls (Event.now :: t) = signCalls t := rfl
  unfold jsonRPC
  simp only [him, hen, hk, if_true, hs, hsign]

theorem jsonRPC_sign_failure_witness :
    jsonRPC (benchFailingSigner scenarioB) (benchAuthRPC 1 1 1) "tx_sendTransaction"
        [Param.value "tx"] []
      = (Res.ok { benchSubmission with Auth := some ⟨⟨"0x01"⟩, 1000, ""⟩ },
          [Event.logError "sign auth fail", Event.sign "address=0x01&timestamp=0x3e8",
            Event.now]) :=
  jsonRPC_sign_failure (benchFailingSigner scenarioB) (benchAuthRPC 1 1 1) "tx_sendTransaction"
    [Param.value "tx"] [] ⟨true, some ⟨⟨"0x01"⟩, "secret"⟩⟩ ⟨⟨"0x01"⟩, "secret"⟩ ""
    "sign failed" rfl rfl rfl rfl

/-- C17 (the claim fails): with a signing primitive that fails, the envelope
built by `jsonRPC` is not an unauthenticated one: its authentication block is
present, with the address, the timestamp and an empty signature. -/
theorem jsonRPC_sign_failure_keeps_block :
    (benchFailingSigner scenarioB).signer 0 ⟨⟨"0x01"⟩, "secret"⟩ "address=0x01&timestamp=0x3e8"
        = ("", some "sign failed")
      ∧ (∃ req t1, jsonRPC (benchFailingSigner scenarioB) (benchAuthRPC 1 1 1)
            "tx_sendTransaction" [Param.value "tx"] [] = (Res.ok req, t1)
          ∧ req.Auth = some ⟨⟨"0x01"⟩, 1000, ""⟩ ∧ req.Auth ≠ none) :=
  ⟨rfl, _, _, rfl, rfl, by decide⟩

/-! ## The authentication string -/

theorem hexDigitValue_digitChar (m : Nat) (h : m < 16) :
    hexDigitValue (Nat.digitChar m) = m ∧ (Nat.digitChar m = '0' → m = 0) := by
  interval_cases m <;> decide

theorem hexValue_append_singleton (ds : List Char) (c : Char) :
    hexValue (ds ++ [c]) = 16 * hexValue ds + hexDigitValue c := by
  simp [hexValue, List.foldl_append]

/-- The digits `Nat.toDigitsCore 16` puts in front of its accumulator. -/
theorem toDigitsCore_hex :
    ∀ (fuel n : Nat) (ds : List Char), n < fuel →
      ∃ pre, Nat.toDigitsCore 16 fuel n ds = pre ++ ds
        ∧ pre ≠ []
        ∧ (∀ c ∈ pre, hexDigitValue c < 16)
        ∧ hexValue pre = n
        ∧ (pre.head? = some '0' → pre = ['0']) := by
  intro fuel
  induction fuel with
  | zero => intro n ds h; exact absurd h (Nat.not_lt_zero n)
  | succ fuel ih =>
    intro n ds hn
    have hmod : n % 16 < 16 := Nat.mod_lt n (by decide)
    obtain ⟨hv, hz⟩ := hexDigitValue_digitChar (n % 16) hmod
    rw [Nat.toDigitsCore]
    by_cases hq : n / 16 = 0
    · simp only [hq, if_true]
      have hlt : n < 16 := by omega
      have hmn : n % 16 = n := Nat.mod_eq_of_lt hlt
      refine ⟨[Nat.digitChar (n % 16)], rfl, by simp, ?_, ?_, ?_⟩
      · intro c hc
        simp only [List.mem_singleton] at hc
        rw [hc, hv]
        exact hmod
      · rw [hmn] at hv
        simp [hexValue, hv, hmn]
      · intro hhead
        simp only [List.head?_cons, Option.some.injEq] at hhead
        rw [hhead]
    · simp only [hq, if_false]
      obtain ⟨pre, h1, h2, h3, h4, h5⟩ := ih (n / 16) (Nat.digitChar (n % 16) :: ds) (by omega)
      refine ⟨pre ++ [Nat.digitChar (n % 16)], by rw [h1]; simp, by simp, ?_, ?_, ?_⟩
      · intro c hc
        rcases List.mem_append.mp hc with h | h
        · exact h3 c h
        · simp only [List.mem_singleton] at h
          rw [h, hv]
          exact hmod
      · rw [hexValue_append_singleton, h4, hv]
        omega
      · intro hhead
        exfalso
        cases pre with
        | nil => exact h2 rfl
        | cons c rest =>
          simp only [List.cons_append, List.head?_cons, Option.some.injEq] at hhead
          have := h5 (by simp [hhead])
          rw [this] at h4
          simp [hexValue, hexDigitValue] at h4
          exact hq h4.symm

theorem formatInt16_isLowerHexOf (i : Int) (h : 0 ≤ i) : isLowerHexOf (formatInt16 i) i.toNat := by
  have hneg : ¬ i < 0 := by omega
  have habs : i.natAbs = i.toNat := by omega
  obtain ⟨pre, h1, h2, h3, h4, h5⟩ := toDigitsCore_hex (i.toNat + 1) i.toNat [] (by omega)
  rw [List.append_nil] at h1
  unfold formatInt16 isLowerHexOf
  simp only [hneg, if_false, habs, Nat.toDigits, h1]
  exact ⟨h2, h3, h4, h5⟩

/-- C18: for every address and every non-negative timestamp, `authNeedHash`
returns `address=`, then the hex form of the address, then `&timestamp=0x`, then
the timestamp as a lower-case hexadecimal numeral without leading zeros. -/
theorem authNeedHash_format (auth : Authentication) (h : 0 ≤ auth.Timestamp) :
    ∃ digits : String,
      authNeedHash auth = "address=" ++ auth.Address.Hex ++ "&timestamp=0x" ++ digits
        ∧ isLowerHexOf digits auth.Timestamp.toNat :=
  ⟨formatInt16 auth.Timestamp, rfl, formatInt16_isLowerHexOf auth.Timestamp h⟩

theorem authNeedHash_format_witness :
    ∃ digits : String,
      authNeedHash ⟨⟨"0x01"⟩, 1000, ""⟩ = "address=" ++ "0x01" ++ "&timestamp=0x" ++ digits
        ∧ isLowerHexOf digits (1000 : Int).toNat :=
  authNeedHash_format ⟨⟨"0x01"⟩, 1000, ""⟩ (by decide)

/-! ## Signing with a key pair -/

/-- C19: on a key pair whose private key is neither an ECDSA key nor an SM2 key,
`KeyPair.Sign` returns no signature and the error "signature type error" for
every message, and the random source is not used (the only event is the log
entry).  On an ECDSA key it returns what the key's `Sign` returns for the
SHA-256 digest of the message; on an SM2 key what the key's `Sign` returns for
the SM2 pre-hash of the message under the key's public key. -/
theorem KeyPair_Sign_variants (c : Crypto) (key : KeyPair) (msg : Bytes) (t : List SignEvent) :
    (∀ typeName, key.privKey = PrivKey.other typeName →
        KeyPair.Sign c key msg t
            = ((none, some "signature type error"),
                SignEvent.logError "unsupported sign type" :: t)
          ∧ randomReads (KeyPair.Sign c key msg t).2 = randomReads t)
      ∧ (∀ k, key.privKey = PrivKey.ecdsa k →
          (KeyPair.Sign c key msg t).1
            = (match c.ecdsaSign (randomReads t) k (c.sha256 msg) with
                | Except.ok signature => (some signature, none)
                | Except.error err => (none, some err)))
      ∧ (∀ k, key.privKey = PrivKey.sm2 k →
          (KeyPair.Sign c key msg t).1
            = (match c.sm2Sign (randomReads t) k (c.hashBeforeSM2 (c.sm2Public k) msg) with
                | Except.ok signature => (some signature, none)
                | Except.error err => (none, some err))) := by
  refine ⟨fun typeName h => ?_, fun k h => ?_, fun k h => ?_⟩
  · have e : KeyPair.Sign c key msg t
        = ((none, some "signature type error"),
            SignEvent.logError "unsupported sign type" :: t) := by
      unfold KeyPair.Sign
      simp only [h]
    rw [e]
    exact ⟨rfl, rfl⟩
  · unfold KeyPair.Sign
    simp only [h]
    cases c.ecdsaSign (randomReads t) k (c.sha256 msg) <;> rfl
  · unfold KeyPair.Sign
    simp only [h]
    cases c.sm2Sign (randomReads t) k (c.hashBeforeSM2 (c.sm2Public k) msg) <;> rfl

theorem KeyPair_Sign_variants_witness :
    (KeyPair.Sign benchCrypto ⟨PrivKey.other "rsa.PrivateKey", ""⟩ [1, 2] []
          = ((none, some "signature type error"), [SignEvent.logError "unsupported sign type"])
        ∧ randomReads (KeyPair.Sign benchCrypto ⟨PrivKey.other "rsa.PrivateKey", ""⟩ [1, 2] []).2
          = 0)
      ∧ (KeyPair.Sign benchCrypto ⟨PrivKey.ecdsa "k1", ""⟩ [1, 2] []).1 = (some [0, 256, 1, 2], none)
      ∧ (KeyPair.Sign benchCrypto ⟨PrivKey.sm2 "k2", ""⟩ [1, 2] []).1 = (some [0, 6, 1, 2], none) :=
  ⟨(KeyPair_Sign_variants benchCrypto ⟨PrivKey.other "rsa.PrivateKey", ""⟩ [1, 2] []).1
      "rsa.PrivateKey" rfl,
    (KeyPair_Sign_variants benchCrypto ⟨PrivKey.ecdsa "k1", ""⟩ [1, 2] []).2.1 "k1" rfl,
    (KeyPair_Sign_variants benchCrypto ⟨PrivKey.sm2 "k2", ""⟩ [1, 2] []).2.2 "k2" rfl⟩

/-! ## Binding a client to a subset of its nodes -/

theorem bindLoop_in_range (nodes : List (Option Nat)) :
    ∀ (nodeIndexes : List Int) (i : Nat) (acc : List (Option Nat)),
      (∀ index ∈ nodeIndexes, 1 ≤ index ∧ index ≤ nodes.length) →
      ∃ picked, bindLoop nodes nodes.length i nodeIndexes acc = Res.ok (Except.ok (acc ++ picked))
        ∧ List.Forall₂ (fun index node => nodes[(index - 1).toNat]? = some node)
            nodeIndexes picked := by
  intro nodeIndexes
  induction nodeIndexes with
  | nil =>
    intro i acc _
    exact ⟨[], by simp [bindLoop], List.Forall₂.nil⟩
  | cons index rest ih =>
    intro i acc hr
    obtain ⟨h1, h2⟩ := hr index (List.mem_cons_self _ _)
    have hlt : (index - 1).toNat < nodes.length := by omega
    obtain ⟨picked, hp, hf⟩ := ih (i + 1) (acc ++ [nodes[(index - 1).toNat]])
      (fun j hj => hr j (List.mem_cons_of_mem _ hj))
    refine ⟨nodes[(index - 1).toNat] :: picked, ?_, ?_⟩
    · rw [bindLoop]
      have hn1 : ¬ index > (nodes.length : Int) := by omega
      have hn2 : ¬ index - 1 < 0 := by omega
      simp only [hn1, hn2, if_false, List.getElem?_eq_getElem hlt]
      rw [hp]
      simp
    · exact List.Forall₂.cons (List.getElem?_eq_getElem hlt) hf

/-- C13: on a client with n nodes, for a non-empty list of indexes that all lie
in 1..n, `BindNodes` returns a new client and no error.  The new client is a
copy of the source whose node list has one entry per index, the j-th entry
being the source's node number i_j (1-based), in the given order, and whose
node cursor is 0; the source and the nodes themselves are untouched. -/
theorem BindNodes_selects (h : Heap) (p : Nat) (c : RPCStruct) (nodeIndexes : List Int)
    (hc : h.clients[p]? = some c) (hne : nodeIndexes ≠ [])
    (hrange : ∀ index ∈ nodeIndexes, 1 ≤ index ∧ index ≤ c.hrm.nodes.length) :
    ∃ picked,
      BindNodes h p nodeIndexes
          = (Res.ok (some h.clients.length, none),
              { h with clients := h.clients ++
                  [{ c with hrm := { c.hrm with nodes := picked, nodeIndex := 0 } }] })
        ∧ picked.length = nodeIndexes.length
        ∧ List.Forall₂ (fun index node => c.hrm.nodes[(index - 1).toNat]? = some node)
            nodeIndexes picked := by
  obtain ⟨picked, hp, hf⟩ := bindLoop_in_range c.hrm.nodes nodeIndexes 0 [] hrange
  refine ⟨picked, ?_, hf.length_eq.symm, hf⟩
  unfold BindNodes
  simp only [hne, if_false, hc, hp, List.nil_append]

theorem BindNodes_selects_witness :
    ∃ picked,
      BindNodes benchHeap 0 [2, 1]
          = (Res.ok (some 1, none),
              { benchHeap with clients := benchHeap.clients ++
                  [{ hrm := { nodes := picked, nodeIndex := 0, isHTTP := false, client := ⟨none⟩ },
                     namespace_ := "global", resTime := 10, firstPollInterval := 100,
                     firstPollTime := 10, secondPollInterval := 1000, secondPollTime := 10,
                     reConnTime := 10000, txVersion := "1.0", im := some 0 }] })
        ∧ picked.length = 2
        ∧ List.Forall₂ (fun index node => [some 0, some 1, some 2][(index - 1).toNat]? = some node)
            [(2 : Int), 1] picked :=
  BindNodes_selects benchHeap 0
    { hrm := { nodes := [some 0, some 1, some 2], nodeIndex := 2, isHTTP := false,
               client := ⟨none⟩ },
      namespace_ := "global", resTime := 10, firstPollInterval := 100, firstPollTime := 10,
      secondPollInterval := 1000, secondPollTime := 10, reConnTime := 10000,
      txVersion := "1.0", im := some 0 }
    [2, 1] rfl (by decide) (by decide)

/-- The range check of `BindNodes` at work: when the first index that is not in
1..n exceeds n, the call returns no client and an error that names the
position of that index, and the heap is as before. -/
theorem BindNodes_out_of_range (h : Heap) (p : Nat) (c : RPCStruct) (before after : List Int)
    (index : Int) (hc : h.clients[p]? = some c)
    (hrange : ∀ j ∈ before, 1 ≤ j ∧ j ≤ c.hrm.nodes.length)
    (hbig : index > c.hrm.nodes.length) :
    BindNodes h p (before ++ index :: after)
      = (Res.ok (none, some ("nodeIndex " ++ toString before.length ++ " is out of range")), h) := by
  have key : ∀ (before : List Int) (i : Nat) (acc : List (Option Nat)),
      (∀ j ∈ before, 1 ≤ j ∧ j ≤ c.hrm.nodes.length) →
      bindLoop c.hrm.nodes c.hrm.nodes.length i (before ++ index :: after) acc
        = Res.ok (Except.error ("nodeIndex " ++ toString (i + before.length)
            ++ " is out of range")) := by
    intro before
    induction before with
    | nil =>
      intro i acc _
      simp only [List.nil_append, bindLoop, hbig, if_true, List.length_nil, Nat.add_zero]
    | cons j rest ih =>
      intro i acc hr
      obtain ⟨h1, h2⟩ := hr j (List.mem_cons_self _ _)
      have hlt : (j - 1).toNat < c.hrm.nodes.length := by omega
      have hn1 : ¬ j > (c.hrm.nodes.length : Int) := by omega
      have hn2 : ¬ j - 1 < 0 := by omega
      rw [List.cons_append, bindLoop]
      simp only [hn1, hn2, if_false, List.getElem?_eq_getElem hlt]
      rw [ih (i + 1) _ (fun x hx => hr x (List.mem_cons_of_mem _ hx))]
      simp only [List.length_cons]
      rw [show i + 1 + rest.length = i + (rest.length + 1) by omega]
  unfold BindNodes
  have hne : before ++ index :: after ≠ [] := by simp
  simp only [hne, if_false, hc, key before 0 [] hrange, Nat.zero_add]

/-- C14 (the behaviour of the code): on a client with three nodes,
`BindNodes(0, 5)` does not return an out-of-range error although the index 5
exceeds the number of nodes: the index 0 in front of it passes the range check
and the read of `rpc.hrm.nodes[-1]` panics.  `BindNodes(5)` alone returns the
error and leaves the heap as it was. -/
theorem BindNodes_low_index_panics :
    BindNodes benchHeap 0 [0, 5] = (Res.panic "index out of range [-1]", benchHeap)
      ∧ BindNodes benchHeap 0 [5]
        = (Res.ok (none, some "nodeIndex 0 is out of range"), benchHeap) := by
  decide

/-! ## Independence of a bound client -/

theorem assign_frame (h : Heap) (p q : Nat) (f : RPCStruct → RPCStruct) (hqp : q ≠ p) :
    (h.assign q f).2.clients[p]? = h.clients[p]?
      ∧ (h.assign q f).2.managers = h.managers
      ∧ (h.assign q f).2.nodeStore = h.nodeStore := by
  unfold Heap.assign
  cases h.clients[q]? with
  | none => exact ⟨rfl, rfl, rfl⟩
  | some c => exact ⟨List.getElem?_set_ne hqp, rfl, rfl⟩

theorem run_frame (h : Heap) (p q : Nat) (op : ConfigOp) (hl : op.isLocal = true)
    (hqp : q ≠ p) :
    (op.run h q).clients[p]? = h.clients[p]?
      ∧ (op.run h q).managers = h.managers
      ∧ ∃ extra, (op.run h q).nodeStore = h.nodeStore ++ extra := by
  cases op with
  | Namespace ns =>
    obtain ⟨h1, h2, h3⟩ := assign_frame h p q (fun c => { c with namespace_ := ns }) hqp
    exact ⟨h1, h2, [], by rw [List.append_nil]; exact h3⟩
  | ResendTimes n =>
    obtain ⟨h1, h2, h3⟩ := assign_frame h p q (fun c => { c with resTime := n }) hqp
    exact ⟨h1, h2, [], by rw [List.append_nil]; exact h3⟩
  | FirstPollInterval n =>
    obtain ⟨h1, h2, h3⟩ := assign_frame h p q (fun c => { c with firstPollInterval := n }) hqp
    exact ⟨h1, h2, [], by rw [List.append_nil]; exact h3⟩
  | FirstPollTime n =>
    obtain ⟨h1, h2, h3⟩ := assign_frame h p q (fun c => { c with firstPollTime := n }) hqp
    exact ⟨h1, h2, [], by rw [List.append_nil]; exact h3⟩
  | SecondPollInterval n =>
    obtain ⟨h1, h2, h3⟩ := assign_frame h p q (fun c => { c with secondPollInterval := n }) hqp
    exact ⟨h1, h2, [], by rw [List.append_nil]; exact h3⟩
  | SecondPollTime n =>
    obtain ⟨h1, h2, h3⟩ := assign_frame h p q (fun c => { c with secondPollTime := n }) hqp
    exact ⟨h1, h2, [], by rw [List.append_nil]; exact h3⟩
  | AddNode url rpcPort wsPort =>
    simp only [ConfigOp.run, AddNode]
    cases h.clients[q]? with
    | none => exact ⟨rfl, rfl, [], by simp⟩
    | some c => exact ⟨List.getElem?_set_ne hqp, rfl, _, rfl⟩
  | Https ca cert priv => simp [ConfigOp.isLocal] at hl
  | SetAccount key => simp [ConfigOp.isLocal] at hl

theorem runOps_frame (p q : Nat) (hqp : q ≠ p) :
    ∀ (ops : List ConfigOp) (h : Heap), (∀ op ∈ ops, op.isLocal = true) →
      (runOps q ops h).clients[p]? = h.clients[p]?
        ∧ (runOps q ops h).managers = h.managers
        ∧ ∃ extra, (runOps q ops h).nodeStore = h.nodeStore ++ extra := by
  intro ops
  induction ops with
  | nil => intro h _; exact ⟨rfl, rfl, [], by simp [runOps]⟩
  | cons op ops ih =>
    intro h hl
    obtain ⟨a1, a2, e1, a3⟩ := run_frame h p q op (hl op (List.mem_cons_self _ _)) hqp
    obtain ⟨b1, b2, e2, b3⟩ := ih (op.run h q) (fun o ho => hl o (List.mem_cons_of_mem _ ho))
    refine ⟨?_, ?_, e1 ++ e2, ?_⟩
    · rw [runOps, b1, a1]
    · rw [runOps, b2, a2]
    · rw [runOps, b3, a3, List.append_assoc]

theorem observe_frame (h h1 : Heap) (p : Nat) (c : RPCStruct) (extra : List Node)
    (hc : h.clients[p]? = some c) (hc1 : h1.clients[p]? = h.clients[p]?)
    (hm : h1.managers = h.managers) (hs : h1.nodeStore = h.nodeStore ++ extra)
    (hclosed : ∀ a, some a ∈ c.hrm.nodes → a < h.nodeStore.length) :
    observe h1 p = observe h p := by
  unfold observe
  rw [hc1, hc, hm, hs]
  simp only [Option.map_some', Option.some.injEq, Observation.mk.injEq, true_and, and_true]
  apply List.map_congr_left
  intro o ho
  cases o with
  | none => rfl
  | some a =>
    simp only [Option.some_bind]
    rw [List.getElem?_append_left (hclosed a ho)]

/-- C15 (as amended): for a non-empty index list that `BindNodes` accepts, the
returned client is a new object, and any sequence of calls of `Namespace`,
`ResendTimes`, the four poll setters and `AddNode` on it leaves the namespace,
the polling policy, the node list, the node URLs and the authentication key of
the source as they were.  For the empty list `BindNodes` returns the source
client itself. -/
theorem BindNodes_independent (h : Heap) (p : Nat) (c : RPCStruct) (nodeIndexes : List Int)
    (ops : List ConfigOp) (hc : h.clients[p]? = some c) (hne : nodeIndexes ≠ [])
    (hrange : ∀ index ∈ nodeIndexes, 1 ≤ index ∧ index ≤ c.hrm.nodes.length)
    (hclosed : ∀ a, some a ∈ c.hrm.nodes → a < h.nodeStore.length)
    (hlocal : ∀ op ∈ ops, op.isLocal = true) :
    (∃ h1, BindNodes h p nodeIndexes = (Res.ok (some h.clients.length, none), h1)
        ∧ h.clients.length ≠ p
        ∧ observe (runOps h.clients.length ops h1) p = observe h p)
      ∧ BindNodes h p [] = (Res.ok (some p, none), h) := by
  refine ⟨?_, by simp [BindNodes]⟩
  obtain ⟨picked, hp, _⟩ := bindLoop_in_range c.hrm.nodes nodeIndexes 0 [] hrange
  have hlen : p < h.clients.length := by
    by_contra hcon
    rw [List.getElem?_eq_none (by omega)] at hc
    exact absurd hc (by simp)
  have hqp : h.clients.length ≠ p := by omega
  refine ⟨{ h with clients := h.clients ++
      [{ c with hrm := { c.hrm with nodes := picked, nodeIndex := 0 } }] }, ?_, hqp, ?_⟩
  · unfold BindNodes
    simp only [hne, if_false, hc, hp, List.nil_append]
  · obtain ⟨f1, f2, extra, f3⟩ := runOps_frame p h.clients.length hqp ops
      { h with clients := h.clients ++
          [{ c with hrm := { c.hrm with nodes := picked, nodeIndex := 0 } }] } hlocal
    refine observe_frame h _ p c extra hc ?_ f2 f3 hclosed
    rw [f1]
    exact List.getElem?_append_left hlen

theorem BindNodes_independent_witness :
    (∃ h1, BindNodes benchHeap 0 [2, 1] = (Res.ok (some benchHeap.clients.length, none), h1)
        ∧ benchHeap.clients.length ≠ 0
        ∧ observe (runOps benchHeap.clients.length
              [ConfigOp.Namespace "other", ConfigOp.ResendTimes 3, ConfigOp.FirstPollTime 1,
                ConfigOp.AddNode "d" "8081" "10001"] h1) 0
            = observe benchHeap 0)
      ∧ BindNodes benchHeap 0 [] = (Res.ok (some 0, none), benchHeap) :=
  BindNodes_independent benchHeap 0
    { hrm := { nodes := [some 0, some 1, some 2], nodeIndex := 2, isHTTP := false,
               client := ⟨none⟩ },
      namespace_ := "global", resTime := 10, firstPollInterval := 100, firstPollTime := 10,
      secondPollInterval := 1000, secondPollTime := 10, reConnTime := 10000,
      txVersion := "1.0", im := some 0 }
    [2, 1] _ rfl (by decide) (by decide)
    (by
      intro a ha
      simp only [List.mem_cons, Option.some.injEq, List.mem_singleton, List.not_mem_nil,
        or_false] at ha
      rcases ha with rfl | rfl | rfl <;> decide)
    (by decide)

/-- C15 (the claim fails), on a client with three nodes.  For the empty index
list `BindNodes` returns the source itself, so `Namespace` on the result
renames the source.  For the list `(1)` the new client shares the node and the
inspector manager of the source through their pointers, so `Https` on it
rewrites the URL of the source's first node and `SetAccount` on it replaces the
key of the source. -/
theorem BindNodes_shares_with_source :
    ((BindNodes benchHeap 0 []).1 = Res.ok (some 0, none)
        ∧ (observe (Namespace (BindNodes benchHeap 0 []).2 0 "other").2 0).map
            (fun o => o.namespace_) = some "other"
        ∧ (observe benchHeap 0).map (fun o => o.namespace_) = some "global")
      ∧ ((BindNodes benchHeap 0 [1]).1 = Res.ok (some 1, none)
        ∧ (observe (Https (BindNodes benchHeap 0 [1]).2 1 "ca" "cert" "priv").2 0).map
            (fun o => o.urls)
          = some [some "https://a:8081", some "http://b:8081", some "http://c:8081"]
        ∧ (observe benchHeap 0).map (fun o => o.urls)
          = some [some "http://a:8081", some "http://b:8081", some "http://c:8081"])
      ∧ ((observe (SetAccount (BindNodes benchHeap 0 [1]).2 1
              (some ⟨⟨"0x01"⟩, "secret"⟩)).2 0).map (fun o => o.key)
          = some (some (some ⟨⟨"0x01"⟩, "secret"⟩))
        ∧ (observe benchHeap 0).map (fun o => o.key) = some (some none)) := by
  decide

/-! ## Switching to secure transport -/

theorem splitDoubleSlash_plain :
    ∀ (l : List Char) (c : Char), hasDoubleSlash (c :: l) = false →
      splitDoubleSlash (c :: l) = [c :: l] := by
  intro l
  induction l with
  | nil => intro c _; rfl
  | cons d rest ih =>
    intro c h
    simp only [hasDoubleSlash, Bool.or_eq_false_iff, Bool.and_eq_false_iff,
      decide_eq_false_iff_not] at h
    obtain ⟨hcd, hrest⟩ := h
    have hnot : ¬ (c = '/' ∧ d = '/') := by
      intro hb
      rcases hcd with h1 | h1
      · exact h1 hb.1
      · exact h1 hb.2
    rw [splitDoubleSlash]
    simp only [hnot, if_false, ih d hrest]

theorem splitDoubleSlash_of_plain (l : List Char) (h : hasDoubleSlash l = false) :
    splitDoubleSlash l = [l] := by
  cases l with
  | nil => rfl
  | cons c l => exact splitDoubleSlash_plain l c h

theorem splitDoubleSlash_scheme (rest : List Char) :
    ∀ scheme : List Char, '/' ∉ scheme →
      splitDoubleSlash (scheme ++ '/' :: '/' :: rest) = scheme :: splitDoubleSlash rest := by
  intro scheme
  induction scheme with
  | nil =>
    intro _
    rw [List.nil_append, splitDoubleSlash]
    simp
  | cons c s ih =>
    intro h
    have hc : c ≠ '/' := fun e => h (by simp [e])
    have hs : '/' ∉ s := fun e => h (List.mem_cons_of_mem _ e)
    obtain ⟨d, tl, htl⟩ : ∃ d tl, s ++ '/' :: '/' :: rest = d :: tl := by
      cases s with
      | nil => exact ⟨_, _, rfl⟩
      | cons d s => exact ⟨_, _, rfl⟩
    have hnot : ¬ (c = '/' ∧ d = '/') := fun hb => hc hb.1
    rw [List.cons_append, htl, splitDoubleSlash]
    simp only [hnot, if_false]
    rw [← htl, ih hs]

theorem secureURL_of_scheme (url : String) (rest : List Char) (h : isSchemeURL url rest) :
    secureURL url = some (String.mk ("https://".data ++ rest))
      ∧ isSchemeURL (String.mk ("https://".data ++ rest)) rest := by
  obtain ⟨scheme, h1, h2, h3⟩ := h
  constructor
  · unfold secureURL
    rw [h1, splitDoubleSlash_scheme rest scheme h2, splitDoubleSlash_of_plain rest h3]
  · exact ⟨"https:".data, rfl, by decide, h3⟩

theorem secureNode_of_some (node : Node) (url : String) (h : secureURL node.url = some url) :
    secureNode node = { node with url := url } := by
  unfold secureNode
  rw [h]

theorem secureNode_of_scheme (node : Node) (rest : List Char) (h : isSchemeURL node.url rest) :
    secureNode node = { node with url := String.mk ("https://".data ++ rest) }
      ∧ isSchemeURL (secureNode node).url rest
      ∧ secureNode (secureNode node) = secureNode node := by
  obtain ⟨h1, h2⟩ := secureURL_of_scheme node.url rest h
  have e : secureNode node = { node with url := String.mk ("https://".data ++ rest) } := by
    unfold secureNode
    rw [h1]
  have e2 : isSchemeURL (secureNode node).url rest := by rw [e]; exact h2
  refine ⟨e, e2, ?_⟩
  obtain ⟨g1, _⟩ := secureURL_of_scheme (secureNode node).url rest e2
  rw [secureNode_of_some (secureNode node) _ g1, e]

/-- The loop of `Https` on well-formed URLs: it ends normally and has replaced
exactly the nodes it was given by their secured form. -/
theorem httpsLoop_scheme :
    ∀ (todo : List (Option Nat)) (store : List Node),
      (∀ o ∈ todo, ∃ a node rest, o = some a ∧ store[a]? = some node
        ∧ isSchemeURL node.url rest) →
      ∃ store', httpsLoop todo store = (Res.ok (), store')
        ∧ ∀ a, store'[a]?
            = if some a ∈ todo then (store[a]?).map secureNode else store[a]? := by
  intro todo
  induction todo with
  | nil =>
    intro store _
    exact ⟨store, rfl, fun a => by simp⟩
  | cons o todo ih =>
    intro store hgood
    obtain ⟨a, node, rest, rfl, hnode, hurl⟩ := hgood o (List.mem_cons_self _ _)
    obtain ⟨hsec, _⟩ := secureURL_of_scheme node.url rest hurl
    obtain ⟨e1, e2, e3⟩ := secureNode_of_scheme node rest hurl
    have ha : a < store.length := by
      by_contra hcon
      rw [List.getElem?_eq_none (by omega)] at hnode
      exact absurd hnode (by simp)
    have hstep : httpsLoop (some a :: todo) store
        = httpsLoop todo (store.set a (secureNode node)) := by
      rw [httpsLoop, hnode]
      simp only [hsec, e1]
    have hgood1 : ∀ o ∈ todo, ∃ b node' rest', o = some b
        ∧ (store.set a (secureNode node))[b]? = some node' ∧ isSchemeURL node'.url rest' := by
      intro o ho
      obtain ⟨b, node', rest', hb, hn', hu'⟩ := hgood o (List.mem_cons_of_mem _ ho)
      by_cases hab : a = b
      · subst hab
        exact ⟨a, secureNode node, rest, hb, List.getElem?_set_self ha, e2⟩
      · exact ⟨b, node', rest', hb, by rw [List.getElem?_set_ne hab]; exact hn', hu'⟩
    obtain ⟨store', hrun, hchar⟩ := ih (store.set a (secureNode node)) hgood1
    refine ⟨store', by rw [hstep, hrun], ?_⟩
    intro x
    rw [hchar x]
    by_cases hax : a = x
    · subst hax
      rw [List.getElem?_set_self ha, hnode]
      simp only [List.mem_cons, true_or, if_true, Option.map_some']
      split
      · rw [e3]
      · rfl
    · rw [List.getElem?_set_ne hax]
      have hmem : (some x ∈ some a :: todo) ↔ (some x ∈ todo) := by
        simp only [List.mem_cons, Option.some.injEq]
        constructor
        · rintro (h | h)
          · exact absurd h.symm hax
          · exact h
        · exact Or.inr
      simp only [hmem]

/-- C20: on a client all of whose nodes have a URL made of a scheme, `//` and a
rest (host and port), `Https` returns normally and afterwards
* the client has the same node list (same nodes, same order), its transport
  flag is set and its transport handle is rebuilt from the trust material;
* every node that was on the list has the URL `https://` followed by its old
  rest, and no other node has changed;
* a second `Https` leaves all node URLs as the first one made them;
* a node added afterwards by `AddNode` is built by `newNode` with the flag set,
  and it is that node which `AddNode` appends to the node list of the client. -/
theorem Https_secures_nodes (h : Heap) (p : Nat) (c : RPCStruct)
    (tlscaPath tlspeerCertPath tlspeerPrivPath : String)
    (hc : h.clients[p]? = some c)
    (hgood : ∀ o ∈ c.hrm.nodes, ∃ a node rest, o = some a ∧ h.nodeStore[a]? = some node
      ∧ isSchemeURL node.url rest) :
    ∃ h1, Https h p tlscaPath tlspeerCertPath tlspeerPrivPath = (Res.ok p, h1)
      ∧ h1.clients[p]? = some { c with hrm := { c.hrm with
          client := newHTTPClient tlscaPath tlspeerCertPath tlspeerPrivPath, isHTTP := true } }
      ∧ (∀ a node rest, some a ∈ c.hrm.nodes → h.nodeStore[a]? = some node →
          isSchemeURL node.url rest →
          h1.nodeStore[a]? = some { node with url := String.mk ("https://".data ++ rest) })
      ∧ (∀ a, some a ∉ c.hrm.nodes → h1.nodeStore[a]? = h.nodeStore[a]?)
      ∧ (∃ h2, Https h1 p tlscaPath tlspeerCertPath tlspeerPrivPath = (Res.ok p, h2)
          ∧ h2.nodeStore = h1.nodeStore)
      ∧ (∀ url rpcPort wsPort,
          (AddNode h1 p url rpcPort wsPort).1 = Res.ok p
            ∧ (AddNode h1 p url rpcPort wsPort).2.nodeStore
              = h1.nodeStore ++ [newNode url rpcPort wsPort true]
            ∧ (AddNode h1 p url rpcPort wsPort).2.clients[p]?
              = some { c with hrm := { c.hrm with
                  client := newHTTPClient tlscaPath tlspeerCertPath tlspeerPrivPath,
                  isHTTP := true,
                  nodes := c.hrm.nodes ++ [some h1.nodeStore.length] } }
            ∧ (AddNode h1 p url rpcPort wsPort).2.nodeStore[h1.nodeStore.length]?
              = some (newNode url rpcPort wsPort true)
            ∧ (AddNode h1 p url rpcPort wsPort).2.managers = h1.managers) := by
  have hlen : p < h.clients.length := by
    by_contra hcon
    rw [List.getElem?_eq_none (by omega)] at hc
    exact absurd hc (by simp)
  obtain ⟨store1, hrun, hchar⟩ := httpsLoop_scheme c.hrm.nodes h.nodeStore hgood
  have hcell : ∀ (store : List Node),
      ({ h with
          clients := h.clients.set p { c with hrm := { c.hrm with
            client := newHTTPClient tlscaPath tlspeerCertPath tlspeerPrivPath,
            isHTTP := true } },
          nodeStore := store } : Heap).clients[p]?
        = some { c with hrm := { c.hrm with
            client := newHTTPClient tlscaPath tlspeerCertPath tlspeerPrivPath,
            isHTTP := true } } :=
    fun _ => List.getElem?_set_self hlen
  have hfirst : Https h p tlscaPath tlspeerCertPath tlspeerPrivPath
      = (Res.ok p, { h with
          clients := h.clients.set p { c with hrm := { c.hrm with
            client := newHTTPClient tlscaPath tlspeerCertPath tlspeerPrivPath,
            isHTTP := true } },
          nodeStore := store1 }) := by
    unfold Https
    simp only [hc, hrun]
  have hgood1 : ∀ o ∈ c.hrm.nodes, ∃ a node rest, o = some a ∧ store1[a]? = some node
      ∧ isSchemeURL node.url rest := by
    intro o ho
    obtain ⟨a, node, rest, rfl, hn, hu⟩ := hgood o ho
    refine ⟨a, secureNode node, rest, rfl, ?_, (secureNode_of_scheme node rest hu).2.1⟩
    rw [hchar a, if_pos ho, hn]
    rfl
  obtain ⟨store2, hrun2, hchar2⟩ := httpsLoop_scheme c.hrm.nodes store1 hgood1
  have hsame : store2 = store1 := by
    apply List.ext_getElem?
    intro a
    rw [hchar2 a]
    by_cases hmem : some a ∈ c.hrm.nodes
    · rw [if_pos hmem]
      obtain ⟨b, node, rest, hb, hn, hu⟩ := hgood (some a) hmem
      simp only [Option.some.injEq] at hb
      subst hb
      rw [hchar a, if_pos hmem, hn]
      simp only [Option.map_some', (secureNode_of_scheme node rest hu).2.2]
    · rw [if_neg hmem]
  refine ⟨_, hfirst, hcell store1, ?_, ?_, ?_, ?_⟩
  · intro a node rest hmem hn hu
    show store1[a]? = _
    rw [hchar a, if_pos hmem, hn, Option.map_some', (secureNode_of_scheme node rest hu).1]
  · intro a hmem
    show store1[a]? = _
    rw [hchar a, if_neg hmem]
  · refine ⟨{ h with
        clients := (h.clients.set p { c with hrm := { c.hrm with
          client := newHTTPClient tlscaPath tlspeerCertPath tlspeerPrivPath,
          isHTTP := true } }).set p { c with hrm := { c.hrm with
          client := newHTTPClient tlscaPath tlspeerCertPath tlspeerPrivPath,
          isHTTP := true } },
        nodeStore := store2 }, ?_, hsame⟩
    unfold Https
    simp only [hcell store1, hrun2]
  · intro url rpcPort wsPort
    unfold AddNode
    simp only [hcell store1]
    refine ⟨trivial, trivial, ?_, ?_, trivial⟩
    · exact List.getElem?_set_self (by rw [List.length_set]; exact hlen)
    · simp

theorem Https_secures_nodes_witness :
    ∃ h1, Https benchHeap 0 "ca" "cert" "priv" = (Res.ok 0, h1)
      ∧ (observe h1 0).map (fun o => o.urls)
        = some [some "https://a:8081", some "https://b:8081", some "https://c:8081"]
      ∧ (∃ h2, Https h1 0 "ca" "cert" "priv" = (Res.ok 0, h2) ∧ h2.nodeStore = h1.nodeStore)
      ∧ (observe (AddNode h1 0 "d" "8081" "10001").2 0).map (fun o => o.urls)
        = some [some "https://a:8081", some "https://b:8081", some "https://c:8081",
                some "https://d:8081"] := by
  obtain ⟨h1, e1, _, _, _, e5, _⟩ := Https_secures_nodes benchHeap 0
    { hrm := { nodes := [some 0, some 1, some 2], nodeIndex := 2, isHTTP := false,
               client := ⟨none⟩ },
      namespace_ := "global", resTime := 10, firstPollInterval := 100, firstPollTime := 10,
      secondPollInterval := 1000, secondPollTime := 10, reConnTime := 10000,
      txVersion := "1.0", im := some 0 }
    "ca" "cert" "priv" rfl
    (by
      intro o ho
      simp only [List.mem_cons, List.mem_singleton, List.not_mem_nil, or_false] at ho
      rcases ho with rfl | rfl | rfl
      · exact ⟨0, newNode "a" "8081" "10001" false, "a:8081".data, rfl, rfl,
          "http:".data, by decide, by decide, by decide⟩
      · exact ⟨1, newNode "b" "8081" "10001" false, "b:8081".data, rfl, rfl,
          "http:".data, by decide, by decide, by decide⟩
      · exact ⟨2, newNode "c" "8081" "10001" false, "c:8081".data, rfl, rfl,
          "http:".data, by decide, by decide, by decide⟩)
  have e : h1 = (Https benchHeap 0 "ca" "cert" "priv").2 := by rw [e1]
  refine ⟨h1, e1, ?_, e5, ?_⟩
  · rw [e]
    decide
  · rw [e]
    decide

/-! ## Distinct timestamps, distinct authentication strings -/

theorem formatInt16_neg_data (i : Int) (h : i < 0) :
    ∃ digits, (formatInt16 i).data = '-' :: digits ∧ hexValue digits = i.natAbs := by
  obtain ⟨pre, h1, _, _, h4, _⟩ := toDigitsCore_hex (i.natAbs + 1) i.natAbs [] (by omega)
  rw [List.append_nil] at h1
  refine ⟨pre, ?_, h4⟩
  unfold formatInt16
  simp only [h, if_true, String.data_append, Nat.toDigits, h1]
  rfl

theorem formatInt16_injective (t1 t2 : Int) (h : formatInt16 t1 = formatInt16 t2) : t1 = t2 := by
  have hd : (formatInt16 t1).data = (formatInt16 t2).data := by rw [h]
  by_cases h1 : 0 ≤ t1 <;> by_cases h2 : 0 ≤ t2
  · obtain ⟨_, _, a3, _⟩ := formatInt16_isLowerHexOf t1 h1
    obtain ⟨_, _, b3, _⟩ := formatInt16_isLowerHexOf t2 h2
    rw [hd, b3] at a3
    omega
  · exfalso
    obtain ⟨a1, a2, _, _⟩ := formatInt16_isLowerHexOf t1 h1
    obtain ⟨digits, b1, _⟩ := formatInt16_neg_data t2 (by omega)
    rw [hd, b1] at a2
    have := a2 '-' (List.mem_cons_self _ _)
    revert this
    decide
  · exfalso
    obtain ⟨a1, a2, _, _⟩ := formatInt16_isLowerHexOf t2 h2
    obtain ⟨digits, b1, _⟩ := formatInt16_neg_data t1 (by omega)
    rw [← hd, b1] at a2
    have := a2 '-' (List.mem_cons_self _ _)
    revert this
    decide
  · obtain ⟨d1, a1, a2⟩ := formatInt16_neg_data t1 (by omega)
    obtain ⟨d2, b1, b2⟩ := formatInt16_neg_data t2 (by omega)
    rw [a1, b1] at hd
    simp only [List.cons.injEq, true_and] at hd
    rw [hd, b2] at a2
    omega

/-- C29: `authNeedHash` is injective in the timestamp: for one address and two
different timestamps (whatever the signature fields hold) the two
authentication strings are different. -/
theorem authNeedHash_injective (address : Address) (t1 t2 : Int) (s1 s2 : String)
    (h : t1 ≠ t2) :
    authNeedHash ⟨address, t1, s1⟩ ≠ authNeedHash ⟨address, t2, s2⟩ := by
  intro he
  apply h
  apply formatInt16_injective
  unfold authNeedHash at he
  have hd := congrArg String.data he
  simp only [String.data_append] at hd
  exact String.ext (List.append_cancel_left hd)

theorem authNeedHash_injective_witness :
    authNeedHash ⟨⟨"0x01"⟩, 1000, ""⟩ ≠ authNeedHash ⟨⟨"0x01"⟩, 1001, ""⟩ :=
  authNeedHash_injective ⟨"0x01"⟩ 1000 1001 "" "" (by decide)

/-! ## A resend budget of zero or less -/

/-- C27: once the envelope is built, `CallByPolling` with a resend budget of
zero or less returns no receipt and the error `RequestTimeout`, and its trace is
the trace of building the envelope: nothing is dispatched (no submission, no
receipt query) and nothing is slept. -/
theorem CallByPolling_zero_budget (env : Env) (rpc : RPC) (method : String)
    (param : Param) (isPrivateTx : Bool) (t : Trace) (req : JSONRequest) (t0 : Trace)
    (hreq : jsonRPC env rpc method [param] t = (Res.ok req, t0))
    (hres : rpc.resTime ≤ 0) :
    CallByPolling env rpc method param isPrivateTx t
        = (Res.ok (none, some (NewRequestTimeoutError "request time out")), t0)
      ∧ dispatches (CallByPolling env rpc method param isPrivateTx t).2 = dispatches t
      ∧ dispatchCount (CallByPolling env rpc method param isPrivateTx t).2 = dispatchCount t
      ∧ sleeps (CallByPolling env rpc method param isPrivateTx t).2 = sleeps t := by
  obtain ⟨_, _, hd, _, hs⟩ := jsonRPC_ok_frame env rpc method [param] t req t0 hreq
  have hn : rpc.resTime.toNat = 0 := by omega
  have hrun : CallByPolling env rpc method param isPrivateTx t
      = (Res.ok (none, some (NewRequestTimeoutError "request time out")), t0) := by
    unfold CallByPolling
    rw [hreq]
    simp only [hn, resendLoop]
  rw [hrun]
  exact ⟨rfl, hd, by simp only [dispatchCount, hd], hs⟩

theorem CallByPolling_zero_budget_witness :
    CallByPolling (benchEnv scenarioA) (benchRPC (-1) 10 10) "tx_sendTransaction"
        (Param.value "tx") false []
        = (Res.ok (none, some (NewRequestTimeoutError "request time out")), [])
      ∧ dispatches (CallByPolling (benchEnv scenarioA) (benchRPC (-1) 10 10)
          "tx_sendTransaction" (Param.value "tx") false []).2 = dispatches []
      ∧ dispatchCount (CallByPolling (benchEnv scenarioA) (benchRPC (-1) 10 10)
          "tx_sendTransaction" (Param.value "tx") false []).2 = dispatchCount []
      ∧ sleeps (CallByPolling (benchEnv scenarioA) (benchRPC (-1) 10 10)
          "tx_sendTransaction" (Param.value "tx") false []).2 = sleeps [] :=
  CallByPolling_zero_budget (benchEnv scenarioA) (benchRPC (-1) 10 10) "tx_sendTransaction"
    (Param.value "tx") false [] benchSubmission [] (by decide) (by decide)

/-! ## Indexes below one in `BindNodes` -/

theorem wrapInt64_of_inRange (z : Int) (h1 : -2 ^ 63 ≤ z) (h2 : z < 2 ^ 63) :
    wrapInt64 z = z := by
  unfold wrapInt64
  rw [Int.emod_eq_of_lt (by omega) (by omega)]
  omega

/-- C28 (the behaviour of the code): on every client, `BindNodes` with a first
index of zero or less (an `int`, so not below `-2^63`), whatever indexes follow,
returns neither an error nor a client: the index passes the range check and the
read of `rpc.hrm.nodes[index-1]` panics, at the negative position `index-1`, or,
for the least `int`, at the position `2^63-1` the subtraction wraps to.  The
heap is as before. -/
theorem BindNodes_nonpositive_index_panics (h : Heap) (p : Nat) (c : RPCStruct) (index : Int)
    (rest : List Int) (hc : h.clients[p]? = some c)
    (hmin : -2 ^ 63 ≤ index) (hlow : index ≤ 0) :
    BindNodes h p (index :: rest)
      = (Res.panic
          (if index = -2 ^ 63 then
            "index out of range [9223372036854775807] with length "
              ++ toString c.hrm.nodes.length
          else "index out of range [" ++ toString (index - 1) ++ "]"), h) := by
  have h1 : ¬ (index > (c.hrm.nodes.length : Int)) := by omega
  have h2 : index - 1 < 0 := by omega
  have hb : bindLoop c.hrm.nodes (c.hrm.nodes.length : Int) 0 (index :: rest) []
      = Res.panic (indexOutOfRange (wrapInt64 (index - 1)) c.hrm.nodes.length) := by
    rw [bindLoop]
    simp only [h1, h2, if_false, if_true]
  unfold BindNodes
  simp only [reduceCtorEq, if_false, hc, hb]
  by_cases hm : index = -2 ^ 63
  · subst hm
    have hw : wrapInt64 (-2 ^ 63 - 1) = 9223372036854775807 := by decide
    rw [hw]
    simp only [indexOutOfRange, if_true]
    rfl
  · rw [wrapInt64_of_inRange (index - 1) (by omega) (by omega)]
    simp only [indexOutOfRange, h2, hm, if_true, if_false]

theorem BindNodes_nonpositive_index_panics_witness :
    BindNodes benchHeap 0 [0] = (Res.panic "index out of range [-1]", benchHeap)
      ∧ BindNodes benchHeap 0 [-9223372036854775808, 1]
        = (Res.panic "index out of range [9223372036854775807] with length 3", benchHeap) :=
  ⟨(BindNodes_nonpositive_index_panics benchHeap 0
      { hrm := { nodes := [some 0, some 1, some 2], nodeIndex := 2, isHTTP := false,
                 client := ⟨none⟩ },
        namespace_ := "global", resTime := 10, firstPollInterval := 100, firstPollTime := 10,
        secondPollInterval := 1000, secondPollTime := 10, reConnTime := 10000,
        txVersion := "1.0", im := some 0 }
      0 [] rfl (by decide) (by decide)).trans (by decide),
   (BindNodes_nonpositive_index_panics benchHeap 0
      { hrm := { nodes := [some 0, some 1, some 2], nodeIndex := 2, isHTTP := false,
                 client := ⟨none⟩ },
        namespace_ := "global", resTime := 10, firstPollInterval := 100, firstPollTime := 10,
        secondPollInterval := 1000, secondPollTime := 10, reConnTime := 10000,
        txVersion := "1.0", im := some 0 }
      (-9223372036854775808) [1] rfl (by decide) (by decide)).trans (by decide)⟩

/-! ## `Call` and the routing of the submission wrappers -/

theorem Call_snd (env : Env) (rpc : RPC) (method : String) (param : Param) (t : Trace) :
    (Call env rpc method param t).2 = (call env rpc method [param] t).2 := by
  unfold Call
  split
  · next h => rw [h]
  · next h => rw [h]
  · next h =>
    rw [h]
    split <;> rfl

theorem call_snd_of_envelope (env : Env) (rpc : RPC) (method : String) (params : List Param)
    (t : Trace) (req : JSONRequest) (t0 : Trace)
    (hreq : jsonRPC env rpc method params t = (Res.ok req, t0))
    (hmar : marshalError req = none) :
    (call env rpc method params t).2 = Event.dispatch req :: t0 := by
  unfold call
  rw [hreq]
  exact callWithReq_snd env req t0 hmar

theorem Call_policy_free (env : Env) (rpc : RPC) (method : String) (param : Param) (t : Trace)
    (resTime firstPollInterval firstPollTime secondPollInterval secondPollTime : Int) :
    Call env { rpc with resTime := resTime, firstPollInterval := firstPollInterval,
                        firstPollTime := firstPollTime,
                        secondPollInterval := secondPollInterval,
                        secondPollTime := secondPollTime } method param t
      = Call env rpc method param t := rfl

/-- What `Call` returns, by the answer of the cluster to its one request: the
error of a failing dispatch; the server error of an envelope whose code is not
the success code; for a success envelope the receipt decoded from its result,
or the system error wrapping the cause when the result does not decode. -/
theorem Call_result (env : Env) (rpc : RPC) (method : String) (param : Param) (t : Trace)
    (req : JSONRequest) (t0 : Trace)
    (hreq : jsonRPC env rpc method [param] t = (Res.ok req, t0))
    (hmar : marshalError req = none) :
    (∀ e, env.cluster (dispatchCount t) = SyncResult.failure e →
        (Call env rpc method param t).1 = Res.ok (none, some e))
      ∧ (∀ body resp, env.cluster (dispatchCount t) = SyncResult.data body →
          env.unmarshalResponse body = Decoded.value resp →
          (resp.Code ≠ 0 →
              (Call env rpc method param t).1
                = Res.ok (none, some (NewServerError resp.Code resp.Message)))
            ∧ (resp.Code = 0 → ∀ receipt,
                env.unmarshalReceipt resp.Result = Decoded.value receipt →
                (Call env rpc method param t).1 = Res.ok (some receipt, none))
            ∧ (resp.Code = 0 → ∀ cause,
                env.unmarshalReceipt resp.Result = Decoded.error cause →
                (Call env rpc method param t).1
                  = Res.ok (none, some (NewSystemError cause)))) := by
  obtain ⟨_, _, hd, _, _⟩ := jsonRPC_ok_frame env rpc method [param] t req t0 hreq
  have hdc : dispatchCount t0 = dispatchCount t := by simp only [dispatchCount, hd]
  refine ⟨?_, ?_⟩
  · intro e hans
    unfold Call call
    rw [hreq]
    unfold callWithReq SyncRequest
    simp only [hmar, hdc, hans]
  · intro body resp hans hdec
    refine ⟨?_, ?_, ?_⟩
    · intro hcode
      unfold Call call
      rw [hreq]
      unfold callWithReq SyncRequest
      simp only [hmar, hdc, hans, hdec, SuccessCode]
      simp [hcode]
    · intro hcode receipt hrec
      unfold Call call
      rw [hreq]
      unfold callWithReq SyncRequest
      simp only [hmar, hdc, hans, hdec, SuccessCode]
      simp [hcode, hrec]
    · intro hcode cause hrec
      unfold Call call
      rw [hreq]
      unfold callWithReq SyncRequest
      simp only [hmar, hdc, hans, hdec, SuccessCode]
      simp [hcode, hrec]

/-- C22: when the envelope is built and serialises, `Call` dispatches exactly
one request, the envelope of its method, and sleeps nothing, and it returns what
the answer to that request holds: the receipt decoded from the result of a
success envelope, else the error of the dispatch, of the envelope or of the
decoding.  Its run does not depend on the resend budget, the tier counts or the
intervals of the client; and each of the ten submission wrappers is the run of
`Call` when the simulate flag of the transaction is set and the run of
`CallByPolling` otherwise. -/
theorem Call_direct_and_wrappers_route (env : Env) (lib : TxLib) (rpc : RPC)
    (method : String) (param : Param) (transaction : Transaction) (key : String) (t : Trace)
    (req : JSONRequest) (t0 : Trace)
    (hreq : jsonRPC env rpc method [param] t = (Res.ok req, t0))
    (hmar : marshalError req = none) :
    (Call env rpc method param t).2 = Event.dispatch req :: t0
      ∧ req.Method = method
      ∧ dispatches (Call env rpc method param t).2 = req :: dispatches t
      ∧ dispatchCount (Call env rpc method param t).2 = dispatchCount t + 1
      ∧ sleeps (Call env rpc method param t).2 = sleeps t
      ∧ (∀ e, env.cluster (dispatchCount t) = SyncResult.failure e →
          (Call env rpc method param t).1 = Res.ok (none, some e))
      ∧ (∀ body resp, env.cluster (dispatchCount t) = SyncResult.data body →
          env.unmarshalResponse body = Decoded.value resp →
          (resp.Code ≠ 0 →
              (Call env rpc method param t).1
                = Res.ok (none, some (NewServerError resp.Code resp.Message)))
            ∧ (resp.Code = 0 → ∀ receipt,
                env.unmarshalReceipt resp.Result = Decoded.value receipt →
                (Call env rpc method param t).1 = Res.ok (some receipt, none))
            ∧ (resp.Code = 0 → ∀ cause,
                env.unmarshalReceipt resp.Result = Decoded.error cause →
                (Call env rpc method param t).1
                  = Res.ok (none, some (NewSystemError cause))))
      ∧ (∀ resTime firstPollInterval firstPollTime secondPollInterval secondPollTime : Int,
          Call env { rpc with resTime := resTime, firstPollInterval := firstPollInterval,
                              firstPollTime := firstPollTime,
                              secondPollInterval := secondPollInterval,
                              secondPollTime := secondPollTime } method param t
            = Call env rpc method param t)
      ∧ routedBySimulate env lib rpc transaction.simulate transaction.isPrivateTx
          (SendTx env lib rpc transaction t).2 t (SendTx env lib rpc transaction t).1
      ∧ routedBySimulate env lib rpc transaction.simulate transaction.isPrivateTx
          (SignAndSendTx env lib rpc transaction key t).2 t
          (SignAndSendTx env lib rpc transaction key t).1
      ∧ routedBySimulate env lib rpc transaction.simulate transaction.isPrivateTx
          (DeployContract env lib rpc transaction t).2 t
          (DeployContract env lib rpc transaction t).1
      ∧ routedBySimulate env lib rpc transaction.simulate transaction.isPrivateTx
          (SignAndDeployContract env lib rpc transaction key t).2 t
          (SignAndDeployContract env lib rpc transaction key t).1
      ∧ routedBySimulate env lib rpc transaction.simulate transaction.isPrivateTx
          (InvokeContract env lib rpc transaction t).2 t
          (InvokeContract env lib rpc transaction t).1
      ∧ routedBySimulate env lib rpc transaction.simulate transaction.isPrivateTx
          (SignAndInvokeContract env lib rpc transaction key t).2 t
          (SignAndInvokeContract env lib rpc transaction key t).1
      ∧ routedBySimulate env lib rpc transaction.simulate transaction.isPrivateTx
          (MaintainContract env lib rpc transaction t).2 t
          (MaintainContract env lib rpc transaction t).1
      ∧ routedBySimulate env lib rpc transaction.simulate transaction.isPrivateTx
          (SignAndMaintainContract env lib rpc transaction key t).2 t
          (SignAndMaintainContract env lib rpc transaction key t).1
      ∧ routedBySimulate env lib rpc transaction.simulate transaction.isPrivateTx
          (ManageContractByVote env lib rpc transaction t).2 t
          (ManageContractByVote env lib rpc transaction t).1
      ∧ routedBySimulate env lib rpc transaction.simulate transaction.isPrivateTx
          (SignAndManageContractByVote env lib rpc transaction key t).2 t
          (SignAndManageContractByVote env lib rpc transaction key t).1 := by
  obtain ⟨hmeth, _, hd, _, hs⟩ := jsonRPC_ok_frame env rpc method [param] t req t0 hreq
  have hrun : (Call env rpc method param t).2 = Event.dispatch req :: t0 := by
    rw [Call_snd]
    exact call_snd_of_envelope env rpc method [param] t req t0 hreq hmar
  have hdisp : dispatches (Call env rpc method param t).2 = req :: dispatches t := by
    rw [hrun, ← hd]
    rfl
  obtain ⟨hres1, hres2⟩ := Call_result env rpc method param t req t0 hreq hmar
  refine ⟨hrun, hmeth, hdisp, ?_, ?_, hres1, hres2, Call_policy_free env rpc method param t,
    ?_, ?_, ?_, ?_, ?_, ?_, ?_, ?_, ?_, ?_⟩
  · simp only [dispatchCount, hdisp, List.length_cons]
  · rw [hrun, ← hs]
    rfl
  · unfold routedBySimulate SendTx
    cases hsim : transaction.simulate
    · exact ⟨_, fun h => absurd h (by decide), fun _ => rfl⟩
    · exact ⟨_, fun _ => rfl, fun h => absurd h (by decide)⟩
  · unfold routedBySimulate SignAndSendTx Transaction.Sign
    cases hsim : transaction.simulate
    · exact ⟨_, fun h => absurd h (by decide), fun _ => rfl⟩
    · exact ⟨_, fun _ => rfl, fun h => absurd h (by decide)⟩
  · unfold routedBySimulate DeployContract
    cases hsim : transaction.simulate
    · exact ⟨_, fun h => absurd h (by decide), fun _ => rfl⟩
    · exact ⟨_, fun _ => rfl, fun h => absurd h (by decide)⟩
  · unfold routedBySimulate SignAndDeployContract Transaction.Sign
    cases hsim : transaction.simulate
    · exact ⟨_, fun h => absurd h (by decide), fun _ => rfl⟩
    · exact ⟨_, fun _ => rfl, fun h => absurd h (by decide)⟩
  · unfold routedBySimulate InvokeContract
    cases hsim : transaction.simulate
    · exact ⟨_, fun h => absurd h (by decide), fun _ => rfl⟩
    · exact ⟨_, fun _ => rfl, fun h => absurd h (by decide)⟩
  · unfold routedBySimulate SignAndInvokeContract Transaction.Sign
    cases hsim : transaction.simulate
    · exact ⟨_, fun h => absurd h (by decide), fun _ => rfl⟩
    · exact ⟨_, fun _ => rfl, fun h => absurd h (by decide)⟩
  · unfold routedBySimulate MaintainContract
    cases hsim : transaction.simulate
    · exact ⟨_, fun h => absurd h (by decide), fun _ => rfl⟩
    · exact ⟨_, fun _ => rfl, fun h => absurd h (by decide)⟩
  · unfold routedBySimulate SignAndMaintainContract Transaction.Sign
    cases hsim : transaction.simulate
    · exact ⟨_, fun h => absurd h (by decide), fun _ => rfl⟩
    · exact ⟨_, fun _ => rfl, fun h => absurd h (by decide)⟩
  · unfold routedBySimulate ManageContractByVote
    cases hsim : transaction.simulate
    · exact ⟨_, fun h => absurd h (by decide), fun _ => rfl⟩
    · exact ⟨_, fun _ => rfl, fun h => absurd h (by decide)⟩
  · unfold routedBySimulate SignAndManageContractByVote Transaction.Sign
    cases hsim : transaction.simulate
    · exact ⟨_, fun h => absurd h (by decide), fun _ => rfl⟩
    · exact ⟨_, fun _ => rfl, fun h => absurd h (by decide)⟩

theorem Call_direct_and_wrappers_route_witness :
    (Call (benchEnv scenarioReceipt) (benchRPC 10 10 10) "tx_sendTransaction"
        (Param.value "tx") []).2 = [Event.dispatch benchSubmission]
      ∧ (Call (benchEnv scenarioReceipt) (benchRPC 10 10 10) "tx_sendTransaction"
          (Param.value "tx") []).1 = Res.ok (some ⟨"committed", ""⟩, none)
      ∧ routedBySimulate (benchEnv scenarioReceipt) benchTxLib (benchRPC 10 10 10) true false
          (SendTx (benchEnv scenarioReceipt) benchTxLib (benchRPC 10 10 10)
            (benchTx true false "1.0") []).2 []
          (SendTx (benchEnv scenarioReceipt) benchTxLib (benchRPC 10 10 10)
            (benchTx true false "1.0") []).1 :=
  have h := Call_direct_and_wrappers_route (benchEnv scenarioReceipt) benchTxLib
    (benchRPC 10 10 10) "tx_sendTransaction" (Param.value "tx") (benchTx true false "1.0")
    "key" [] benchSubmission [] (by decide) (by decide)
  ⟨h.1,
    (h.2.2.2.2.2.2.1 "receipt" ⟨0, "", "committed"⟩ (by decide) (by decide)).2.1 (by decide)
      ⟨"committed", ""⟩ (by decide),
    h.2.2.2.2.2.2.2.2.1⟩

/-! ## The method names of the deploy and invoke wrappers -/

theorem isTxVersion10_iff (txVersion : String) :
    isTxVersion10 txVersion = true ↔ txVersion = "1.0" := by
  unfold isTxVersion10 stringsCompare
  by_cases h : txVersion = "1.0"
  · simp [h]
  · simp only [h, if_false, iff_false]
    split <;> decide

theorem contractMethodTable_deploy (isPrivateTx : Bool) (txVersion : String) (simulate : Bool) :
    (if isPrivateTx = true then CONTRACT ++ "deployPrivateContract"
      else if (!isTxVersion10 txVersion && simulate) = true then SIMULATE ++ "deployContract"
      else CONTRACT ++ "deployContract")
      = contractMethodTable "deploy" isPrivateTx txVersion simulate := by
  have e1 : CONTRACT ++ "deployPrivateContract" = "contract_" ++ "deploy" ++ "PrivateContract" := by
    decide
  have e2 : SIMULATE ++ "deployContract" = "simulate_" ++ "deploy" ++ "Contract" := by decide
  have e3 : CONTRACT ++ "deployContract" = "contract_" ++ "deploy" ++ "Contract" := by decide
  unfold contractMethodTable
  rw [e1, e2, e3]
  by_cases hv : txVersion = "1.0"
  · subst hv
    have : isTxVersion10 "1.0" = true := by decide
    cases isPrivateTx <;> cases simulate <;> simp [this]
  · have : isTxVersion10 txVersion = false := by
      cases h : isTxVersion10 txVersion
      · rfl
      · exact absurd ((isTxVersion10_iff txVersion).1 h) hv
    cases isPrivateTx <;> cases simulate <;> simp [hv, this]

theorem contractMethodTable_invoke (isPrivateTx : Bool) (txVersion : String) (simulate : Bool) :
    (if isPrivateTx = true then CONTRACT ++ "invokePrivateContract"
      else if (!isTxVersion10 txVersion && simulate) = true then SIMULATE ++ "invokeContract"
      else CONTRACT ++ "invokeContract")
      = contractMethodTable "invoke" isPrivateTx txVersion simulate := by
  have e1 : CONTRACT ++ "invokePrivateContract" = "contract_" ++ "invoke" ++ "PrivateContract" := by
    decide
  have e2 : SIMULATE ++ "invokeContract" = "simulate_" ++ "invoke" ++ "Contract" := by decide
  have e3 : CONTRACT ++ "invokeContract" = "contract_" ++ "invoke" ++ "Contract" := by decide
  unfold contractMethodTable
  rw [e1, e2, e3]
  by_cases hv : txVersion = "1.0"
  · subst hv
    have : isTxVersion10 "1.0" = true := by decide
    cases isPrivateTx <;> cases simulate <;> simp [this]
  · have : isTxVersion10 txVersion = false := by
      cases h : isTxVersion10 txVersion
      · rfl
      · exact absurd ((isTxVersion10_iff txVersion).1 h) hv
    cases isPrivateTx <;> cases simulate <;> simp [hv, this]

/-- C30: the method name under which `DeployContract` and `SignAndDeployContract`
send the transaction is the one of the table: `contract_deployPrivateContract`
for a private transaction, otherwise `simulate_deployContract` when the version
of the transaction is not `1.0` and its simulate flag is set, otherwise
`contract_deployContract`; `InvokeContract` and `SignAndInvokeContract` follow
the table with `invoke`.  The version the Sign-variants look at is the version of
the client, which they write into the transaction first.  `isTxVersion10` is
true exactly for the string `1.0`. -/
theorem contract_wrappers_method_table (env : Env) (lib : TxLib) (rpc : RPC)
    (transaction : Transaction) (key : String) (t : Trace) :
    (DeployContract env lib rpc transaction t).1
        = (if transaction.simulate = true then
            Call env rpc
              (contractMethodTable "deploy" transaction.isPrivateTx transaction.txVersion
                transaction.simulate)
              (lib.Serialize (DeployContract env lib rpc transaction t).2) t
          else
            CallByPolling env rpc
              (contractMethodTable "deploy" transaction.isPrivateTx transaction.txVersion
                transaction.simulate)
              (lib.Serialize (DeployContract env lib rpc transaction t).2)
              transaction.isPrivateTx t)
      ∧ (SignAndDeployContract env lib rpc transaction key t).1
        = (if transaction.simulate = true then
            Call env rpc
              (contractMethodTable "deploy" transaction.isPrivateTx rpc.txVersion
                transaction.simulate)
              (lib.Serialize (SignAndDeployContract env lib rpc transaction key t).2) t
          else
            CallByPolling env rpc
              (contractMethodTable "deploy" transaction.isPrivateTx rpc.txVersion
                transaction.simulate)
              (lib.Serialize (SignAndDeployContract env lib rpc transaction key t).2)
              transaction.isPrivateTx t)
      ∧ (InvokeContract env lib rpc transaction t).1
        = (if transaction.simulate = true then
            Call env rpc
              (contractMethodTable "invoke" transaction.isPrivateTx transaction.txVersion
                transaction.simulate)
              (lib.Serialize (InvokeContract env lib rpc transaction t).2) t
          else
            CallByPolling env rpc
              (contractMethodTable "invoke" transaction.isPrivateTx transaction.txVersion
                transaction.simulate)
              (lib.Serialize (InvokeContract env lib rpc transaction t).2)
              transaction.isPrivateTx t)
      ∧ (SignAndInvokeContract env lib rpc transaction key t).1
        = (if transaction.simulate = true then
            Call env rpc
              (contractMethodTable "invoke" transaction.isPrivateTx rpc.txVersion
                transaction.simulate)
              (lib.Serialize (SignAndInvokeContract env lib rpc transaction key t).2) t
          else
            CallByPolling env rpc
              (contractMethodTable "invoke" transaction.isPrivateTx rpc.txVersion
                transaction.simulate)
              (lib.Serialize (SignAndInvokeContract env lib rpc transaction key t).2)
              transaction.isPrivateTx t)
      ∧ (∀ txVersion : String, isTxVersion10 txVersion = true ↔ txVersion = "1.0") := by
  refine ⟨?_, ?_, ?_, ?_, isTxVersion10_iff⟩
  · unfold DeployContract Transaction.getTxVersion
    simp only [contractMethodTable_deploy]
    cases transaction.simulate <;> rfl
  · unfold SignAndDeployContract Transaction.getTxVersion Transaction.Sign
    simp only [contractMethodTable_deploy]
    cases transaction.simulate <;> rfl
  · unfold InvokeContract Transaction.getTxVersion
    simp only [contractMethodTable_invoke]
    cases transaction.simulate <;> rfl
  · unfold SignAndInvokeContract Transaction.getTxVersion Transaction.Sign
    simp only [contractMethodTable_invoke]
    cases transaction.simulate <;> rfl

/-! ## The singleton sub-clients -/

theorem Getter_run_fired (s : Process) (g : Getter) (h : s.once = true) :
    g.run s = (g.global s, s) := by
  cases g <;> simp [Getter.run, Getter.global, GetWebSocketClient, GetMqClient, h]

theorem Getter_run_fires (s : Process) (g : Getter) :
    (g.run s).2.once = true ∧ (g.run s).1 = g.global (g.run s).2
      ∧ (g.run s).2.webSocketClients.length ≤ s.webSocketClients.length + 1
      ∧ (g.run s).2.mqClients.length ≤ s.mqClients.length + 1 := by
  cases g <;> cases h : s.once <;>
    simp [Getter.run, Getter.global, GetWebSocketClient, GetMqClient, h]

theorem runGetters_fired (s : Process) (calls : List Getter) (h : s.once = true) :
    runGetters s calls = (calls.map (fun g => (g, g.global s)), s) := by
  induction calls with
  | nil => rfl
  | cons g rest ih =>
    rw [runGetters]
    simp only [Getter_run_fired s g h, ih, List.map_cons]

/-- C21: in every process state and for every sequence of calls of the two
getters, taken one after the other, at most one `WebSocketClient` and at most
one `MqClient` is created, every call of `GetWebSocketClient` returns what the
first call of it returned, and so does every call of `GetMqClient`. -/
theorem getters_create_once (s : Process) (calls : List Getter) :
    (runGetters s calls).2.webSocketClients.length ≤ s.webSocketClients.length + 1
      ∧ (runGetters s calls).2.mqClients.length ≤ s.mqClients.length + 1
      ∧ (∀ p q r1 r2, (Getter.GetWebSocketClient p, r1) ∈ (runGetters s calls).1 →
          (Getter.GetWebSocketClient q, r2) ∈ (runGetters s calls).1 → r1 = r2)
      ∧ (∀ p q r1 r2, (Getter.GetMqClient p, r1) ∈ (runGetters s calls).1 →
          (Getter.GetMqClient q, r2) ∈ (runGetters s calls).1 → r1 = r2) := by
  cases calls with
  | nil =>
    refine ⟨Nat.le_succ _, Nat.le_succ _, ?_, ?_⟩ <;>
      · intro p q r1 r2 h1
        simp [runGetters] at h1
  | cons g rest =>
    obtain ⟨hf, hr, hw, hm⟩ := Getter_run_fires s g
    have hrun : runGetters s (g :: rest)
        = ((g :: rest).map (fun c => (c, c.global (g.run s).2)), (g.run s).2) := by
      rw [runGetters]
      simp only [runGetters_fired _ rest hf, List.map_cons, ← hr]
    rw [hrun]
    refine ⟨hw, hm, ?_, ?_⟩
    · intro p q r1 r2 h1 h2
      simp only [List.mem_map, Prod.mk.injEq] at h1 h2
      obtain ⟨c1, _, hc1, rfl⟩ := h1
      obtain ⟨c2, _, hc2, rfl⟩ := h2
      rw [hc1, hc2]
      rfl
    · intro p q r1 r2 h1 h2
      simp only [List.mem_map, Prod.mk.injEq] at h1 h2
      obtain ⟨c1, _, hc1, rfl⟩ := h1
      obtain ⟨c2, _, hc2, rfl⟩ := h2
      rw [hc1, hc2]
      rfl

/-- C24 (the behaviour of the code): in a fresh process, after a call of
`GetWebSocketClient` the call of `GetMqClient` returns nil, and after a call of
`GetMqClient` the call of `GetWebSocketClient` returns nil: the two getters
share the one `once`, so only the initialiser of the getter called first ever
runs. -/
theorem second_getter_returns_nil (p q : Nat) :
    (runGetters freshProcess [Getter.GetWebSocketClient p, Getter.GetMqClient q]).1
        = [(Getter.GetWebSocketClient p, some 0), (Getter.GetMqClient q, none)]
      ∧ (runGetters freshProcess [Getter.GetMqClient q, Getter.GetWebSocketClient p]).1
        = [(Getter.GetMqClient q, some 0), (Getter.GetWebSocketClient p, none)]
      ∧ (runGetters freshProcess [Getter.GetWebSocketClient p, Getter.GetMqClient q]).2.mqClients
        = [] := by
  refine ⟨rfl, rfl, rfl⟩

/-! ## The inspector manager of a constructed client -/

/-- C25 (the behaviour of the code): for every heap and every node list, the
client returned by `DefaultRPC` has no inspector manager (the pointer `im` is
nil): `jsonRPC` on it panics on the nil pointer before any envelope is built,
and so does `SetAccount`, which leaves the heap as it was. -/
theorem DefaultRPC_manager_absent (h : Heap) (nodes : List (Option Nat)) (env : Env)
    (method : String) (params : List Param) (t : Trace) (key : Option Key) :
    ∃ rpc, (DefaultRPC h nodes).2.rpc (DefaultRPC h nodes).1 = some rpc
      ∧ rpc.im = none
      ∧ jsonRPC env rpc method params t = (Res.panic nilDeref, t)
      ∧ SetAccount (DefaultRPC h nodes).2 (DefaultRPC h nodes).1 key
        = (Res.panic nilDeref, (DefaultRPC h nodes).2) := by
  have hget : (DefaultRPC h nodes).2.clients[(DefaultRPC h nodes).1]?
      = some { hrm := { defaultHTTPRequestManager with nodes := nodes },
               namespace_ := DefaultNamespace, resTime := DefaultResendTime,
               firstPollInterval := DefaultFirstPollInterval,
               firstPollTime := DefaultFirstPollTime,
               secondPollInterval := DefaultSecondPollInterval,
               secondPollTime := DefaultSecondPollTime,
               reConnTime := DefaultReConnectTime, txVersion := DefaultTxVersion,
               im := none } := by
    simp [DefaultRPC]
  refine ⟨{ namespace_ := DefaultNamespace, resTime := DefaultResendTime,
            firstPollInterval := DefaultFirstPollInterval,
            firstPollTime := DefaultFirstPollTime,
            secondPollInterval := DefaultSecondPollInterval,
            secondPollTime := DefaultSecondPollTime,
            reConnTime := DefaultReConnectTime, txVersion := DefaultTxVersion,
            im := none }, by rw [Heap.rpc, hget]; rfl, rfl,
    jsonRPC_panic env _ method params t rfl, ?_⟩
  unfold SetAccount
  rw [hget]

/-- C26 (the behaviour of the code): with the inspector enabled, an account type
outside the five known ones makes `newInspectorManager2` return an enabled
manager without a key, whatever the account library does; so do both
constructors when the key constructor rejects the account data, and
`newInspectorManager` when the account file cannot be read.  `jsonRPC` on a
client with such a manager panics on the nil key instead of stamping. -/
theorem inspector_enabled_without_key (lib : AccountLib) (accountPath accountType : String)
    (confRootPath : String) (readFile : String → Except String String) (env : Env) (rpc : RPC)
    (method : String) (params : List Param) (t : Trace) :
    newInspectorManager2 lib ⟨true, accountPath, "rsa"⟩ = ⟨true, none⟩
      ∧ newInspectorManager2 (rejectingAccountLib readFile) ⟨true, accountPath, accountType⟩
        = ⟨true, none⟩
      ∧ newInspectorManager (rejectingAccountLib readFile) ⟨true, accountPath, accountType⟩
          confRootPath = ⟨true, none⟩
      ∧ newInspectorManager
          { lib with ReadFile := fun _ => Except.error "no such file or directory" }
          ⟨true, accountPath, accountType⟩ confRootPath = ⟨true, none⟩
      ∧ jsonRPC env
          { rpc with im := some (newInspectorManager2 lib ⟨true, accountPath, "rsa"⟩) }
          method params t = (Res.panic nilDeref, t) := by
  have h1 : newInspectorManager2 lib ⟨true, accountPath, "rsa"⟩ = ⟨true, none⟩ := by
    simp [newInspectorManager2]
  refine ⟨h1, ?_, ?_, ?_, ?_⟩
  · simp only [newInspectorManager2, rejectingAccountLib, Bool.not_true, Bool.false_eq_true,
      if_false]
    split_ifs <;> rfl
  · simp only [newInspectorManager, rejectingAccountLib, Bool.not_true, Bool.false_eq_true,
      if_false]
    cases readFile (confRootPath ++ "/" ++ accountPath) with
    | error e => rfl
    | ok data =>
      simp only []
      split_ifs <;> rfl
  · simp [newInspectorManager]
  · rw [h1]
    exact jsonRPC_panic env _ method params t rfl

/-! ## The cause of a decoding or conversion failure -/

/-- C23 (the behaviour of the code): on a successful response whose raw block
cannot be converted, `GetLatestBlock` returns what `NewSystemError(nil)` gives,
whatever the cause of the conversion failure is; and on a successful response
whose payload is not a JSON string, `GetBlkTxCountByHash` returns what
`NewSystemError(nil)` gives, whatever the cause of the decoding failure is.  The
sibling path of the same wrapper, a count that does not parse, returns
`SystemError` wrapping its cause. -/
theorem decode_failure_cause_dropped (cause : String) (ofNil : Res StdError)
    (blkHash : String) :
    (GetLatestBlock (benchEnv scenarioReceipt) (benchQueryLib cause ofNil)
        (benchRPC 10 10 10) []).1 = nilCauseOutcome none ofNil
      ∧ (GetBlkTxCountByHash (benchNotAString cause) (benchQueryLib "" ofNil)
          (benchRPC 10 10 10) blkHash []).1 = nilCauseOutcome 0 ofNil
      ∧ (GetBlkTxCountByHash (benchEnv scenarioReceipt) (benchQueryLib cause ofNil)
          (benchRPC 10 10 10) blkHash []).1 = Res.ok (0, some (NewSystemError cause)) := by
  refine ⟨?_, ?_, ?_⟩
  · cases ofNil <;> rfl
  · cases ofNil <;> rfl
  · rfl

end GoSDK
